import Mathlib

/-!
# QVM: a shallow embedding of `src/src/vm.cpp`

Machine integers are natural numbers; every place where the C++ code narrows a
value (assignment to a `uint32_t` register, to a `uint8_t` memory cell, 32-bit
index arithmetic) is written with an explicit `%`.  Characters of a text are
their byte codes (`'0'` is 48, `'A'` is 65, ...).  References returned by the
two `get` functions are modelled by small datatypes of "places", with separate
read and write operations, so that the function-local `static` cells the code
returns for bad addresses are part of the state.
-/

namespace vm

/-! ## conversion utilities -/

/-- Narrowing to `uint32_t`. -/
def u32 (n : Nat) : Nat := n % 4294967296

/-- Narrowing to `uint8_t`. -/
def u8 (n : Nat) : Nat := n % 256

/-- The assignment `m_ec = to_type<ecode_t, core_c::reg32_t>(m_state.x[0])` (vm.cpp 679,
`to_type` at vm.cpp 20-28): the register is converted to the `int32_t` parameter, read
back through the union as a `uint32_t` and converted to the `int32_t` member; each step
keeps the 32-bit pattern, so the result is its two's-complement signed reading. -/
def to_type_i32 (val : Nat) : Int :=
  if u32 val < 2147483648 then (u32 val : Int) else (u32 val : Int) - 4294967296

/-! ## hex utilities -/

/-- The C `toupper` in the default "C" locale, on byte codes. -/
def toupper (c : Nat) : Nat := if 97 ≤ c ∧ c ≤ 122 then c - 32 else c

/-- The C `tolower` in the default "C" locale, on byte codes. -/
def tolower (c : Nat) : Nat := if 65 ≤ c ∧ c ≤ 90 then c + 32 else c

/-- Function `hex_dig_to_dec_dig` (vm.cpp 37-45). -/
def hex_dig_to_dec_dig (val : Nat) : Nat :=
  if 48 ≤ val ∧ val ≤ 57 then u8 (val - 48)
  else if 65 ≤ toupper val ∧ toupper val ≤ 70 then u8 (toupper val - 65 + 10)
  else 0

/-- Function `dec_val_to_hex_dig` (vm.cpp 47-54). -/
def dec_val_to_hex_dig (val : Nat) : Nat :=
  if 0 ≤ val ∧ val ≤ 9 then u8 (val + 48)
  else if 10 ≤ val ∧ val ≤ 15 then u8 (val - 10 + 65)
  else 0

/-- The first loop of `to_hex`: `val` as an array of `len` bytes, most significant first;
`idx` counts the bytes already produced, `n` those still to produce. -/
def to_hex_var (len val : Nat) : Nat → Nat → List Nat
  | _, 0 => []
  | idx, n + 1 => u8 (val >>> (((len - 1) - idx) * 8)) :: to_hex_var len val (idx + 1) n

/-- The second loop of `to_hex`: two digits per byte, high nibble first. -/
def to_hex_digits : List Nat → List Nat
  | [] => []
  | v :: var =>
    dec_val_to_hex_dig (u8 (v / 16)) :: dec_val_to_hex_dig (u8 (v - u8 (v / 16) * 16))
      :: to_hex_digits var

/-- Function `to_hex<type_t>` (vm.cpp 62-83), `len` being `sizeof(type_t)`. -/
def to_hex (len val : Nat) : List Nat := to_hex_digits (to_hex_var len val 0 len)

/-! ## file -/

/-- Function `read` (vm.cpp 91-101).  `file` is the content of the file at the path, `none` when it
cannot be opened.  The loop tests `eof()` before each `get()`, so the end-of-file result of
the last `get()` is pushed too, as the character of code 255. -/
def read (file : Option (List Nat)) : List Nat :=
  match file with
  | some bytes => bytes ++ [255]
  | none => []

/-! ## core_c -/

/-- The register file `core_c` (vm.hpp 61-68). -/
structure core_c where
  x : Fin 16 → Nat
  csx : Nat
  ipx : Nat
  clx : Nat
  ssx : Nat
  spx : Nat
  slx : Nat
  ax : Nat
  sx : Nat
  fx : Nat

/-- The default constructor of `core_c`: every slot is 0. -/
def core_c.zero : core_c :=
  { x := fun _ => 0, csx := 0, ipx := 0, clx := 0, ssx := 0, spx := 0, slx := 0,
    ax := 0, sx := 0, fx := 0 }

/-- What a `reg32_t&` returned by `core_c::get` refers to: a slot of the register file,
or the function-local `static reg32_t ret` of `core_c::get`. -/
inductive reg_ref where
  | x (i : Fin 16)
  | csx
  | ipx
  | clx
  | ssx
  | spx
  | slx
  | ax
  | sx
  | fx
  | ret
  deriving DecidableEq, Repr

/-- Constant `core_c::xregs`. -/
def core_c.xregs : Nat := 16

/-- Function `core_c::get` (vm.cpp 210-247): the place a register address refers to. -/
def core_c.get (val : Nat) : reg_ref :=
  if h : val < 16 then reg_ref.x ⟨val, h⟩
  else
    match val - core_c.xregs with
    | 0 => reg_ref.csx
    | 1 => reg_ref.ipx
    | 2 => reg_ref.clx
    | 3 => reg_ref.ssx
    | 4 => reg_ref.spx
    | 5 => reg_ref.slx
    | 6 => reg_ref.ax
    | 7 => reg_ref.sx
    | 8 => reg_ref.fx
    | _ => reg_ref.ret

/-- Reading through a register reference; `ret` is the current content of the static cell. -/
def reg_ref.read (r : reg_ref) (s : core_c) (ret : Nat) : Nat :=
  match r with
  | reg_ref.x i => s.x i
  | reg_ref.csx => s.csx
  | reg_ref.ipx => s.ipx
  | reg_ref.clx => s.clx
  | reg_ref.ssx => s.ssx
  | reg_ref.spx => s.spx
  | reg_ref.slx => s.slx
  | reg_ref.ax => s.ax
  | reg_ref.sx => s.sx
  | reg_ref.fx => s.fx
  | reg_ref.ret => ret

/-- Assigning through a register reference: the register file and the static cell after
the assignment. -/
def reg_ref.write (r : reg_ref) (v : Nat) (s : core_c) (ret : Nat) : core_c × Nat :=
  match r with
  | reg_ref.x i => ({ s with x := Function.update s.x i v }, ret)
  | reg_ref.csx => ({ s with csx := v }, ret)
  | reg_ref.ipx => ({ s with ipx := v }, ret)
  | reg_ref.clx => ({ s with clx := v }, ret)
  | reg_ref.ssx => ({ s with ssx := v }, ret)
  | reg_ref.spx => ({ s with spx := v }, ret)
  | reg_ref.slx => ({ s with slx := v }, ret)
  | reg_ref.ax => ({ s with ax := v }, ret)
  | reg_ref.sx => ({ s with sx := v }, ret)
  | reg_ref.fx => ({ s with fx := v }, ret)
  | reg_ref.ret => (s, v)

/-- Function `core_c::flush` (vm.cpp 249-251): `core_c(std::move(*this))`.  The move constructor
(vm.cpp 163-176) moves `uint32_t` members, which copies them: the result is a copy and the
object flushed is what it was.  The pair is (returned value, object after the call). -/
def core_c.flush (s : core_c) : core_c × core_c := (s, s)

/-! ## memory_c -/

/-- Constant `memory_c::dlen`, the default number of cells. -/
def memory_c.dlen : Nat := 134217728

/-- The linear memory `memory_c` (allocation succeeded): `m_len` cells, `m_data i` being
cell `i` for `i < m_len`. -/
structure memory_c where
  m_len : Nat
  m_data : Nat → Nat

/-- The constructor `memory_c::memory_c` (vm.cpp 257-265), allocation succeeding. -/
def memory_c.new (val : Nat) : memory_c :=
  { m_len := if val ≠ 0 then val else memory_c.dlen, m_data := fun _ => 0 }

/-- Function `memory_c::length`. -/
def memory_c.length (m : memory_c) : Nat := m.m_len

/-- What a `loc_t&` returned by `memory_c::get` refers to: a cell, or the function-local
`static loc_t ret` of `memory_c::get`. -/
inductive loc_ref where
  | cell (i : Nat)
  | ret
  deriving DecidableEq, Repr

/-- Function `memory_c::get` (vm.cpp 275-286): the place an index refers to. -/
def memory_c.get (m : memory_c) (val : Nat) : loc_ref :=
  if val ≥ m.m_len then loc_ref.ret else loc_ref.cell val

/-- Reading through a memory reference. -/
def loc_ref.read (r : loc_ref) (m : memory_c) (ret : Nat) : Nat :=
  match r with
  | loc_ref.cell i => m.m_data i
  | loc_ref.ret => ret

/-- Assigning through a memory reference. -/
def loc_ref.write (r : loc_ref) (v : Nat) (m : memory_c) (ret : Nat) : memory_c × Nat :=
  match r with
  | loc_ref.cell i => ({ m with m_data := Function.update m.m_data i v }, ret)
  | loc_ref.ret => (m, v)

/-! ## process_c -/

/-- The process `process_c` (vm.hpp 164-166). -/
structure process_c where
  id : Nat
  info : Nat
  state : core_c

/-- The constructor `process_c::process_c` (vm.cpp 295-299). -/
def process_c.new (val : Nat) : process_c := { id := 0, info := val, state := core_c.zero }

/-- The test of the loop of `process_c::load` (vm.cpp 318), on the character as read. -/
def is_hex (i : Nat) : Bool :=
  (48 ≤ i && i ≤ 57) || (65 ≤ toupper i && toupper i ≤ 70)

/-- The character the loop of `load` pushes to `tmp`: a digit as it is, a letter after the
assignment `i = toupper(i)` made while the test was evaluated. -/
def load_char (i : Nat) : Nat := if 48 ≤ i ∧ i ≤ 57 then i else toupper i

/-- The lambda `to_dec` of `process_c::load` (vm.cpp 310-315), on the characters of `tmp`;
`strlen` stops at the first character of code 0. -/
def to_dec (hex : List Nat) : Nat :=
  match hex with
  | [h0, h1] =>
    if h0 = 0 ∨ h1 = 0 then 0
    else hex_dig_to_dec_dig h0 * 16 + hex_dig_to_dec_dig h1
  | _ => 0

/-- The loop of `process_c::load` (vm.cpp 317-325) from the point where `ret` and `tmp`
have the given values; the result is `ret` after the last character. -/
def load_loop : List Nat → List Nat → List Nat → List Nat
  | [], ret, _ => ret
  | i :: src, ret, tmp =>
    let tmp1 := if is_hex i then tmp ++ [load_char i] else tmp
    if tmp1.length = 2 then load_loop src (ret ++ [u8 (to_dec tmp1)]) []
    else load_loop src ret tmp1

/-- Function `process_c::load` (vm.cpp 301-340), `file` standing for the file at the path.  The
result is the returned buffer and the process after the call. -/
def process_c.load (p : process_c) (file : Option (List Nat)) : List Nat × process_c :=
  let src := read file
  if src.isEmpty then ([], p)
  else
    let ret := load_loop src [] []
    if ret.length % 4 ≠ 0 then ([], p)
    else if ret.isEmpty then ([], p)
    else (ret, { p with state := { p.state with clx := u32 ret.length } })

/-- Function `process_c::start` (vm.cpp 342-348).  `r1` and `r2` are the results of the two calls of
`rand()`; `rand() % mx` with `mx == 0` is a division by zero, for which there is no
result. -/
def process_c.start (p : process_c) (r1 r2 : Nat) (mx _mx_len : Nat) : Option process_c :=
  if mx = 0 then none
  else
    let csx := u32 r2 % mx
    some { id := u32 r1 % 4294967295,
           info := p.info ||| 1,
           state := { p.state with csx := csx, ipx := csx } }

/-! ## vm_c -/

/-- One item read from standard input: a character (`std::cin >> c`), a word
(`std::cin >> src`), a line (`std::getline`), or a number, given as the 32-bit pattern the
read stores (`std::cin >>` an unsigned, a signed or a floating point variable). -/
inductive cin_t where
  | chr (c : Nat)
  | str (s : List Nat)
  | line (s : List Nat)
  | num (v : Nat)
  deriving DecidableEq, Repr

/-- The machine `vm_c` (vm.hpp 205-214) together with what its methods use besides the
members: the function-local statics (`core_ret` is `ret` of `core_c::get`, `mem_ret` is
`ret` of `memory_c::get`, `mx_ip` of `vm_c::start`, `dir` of `vm_c::menu`), the locals
`ret` and `dbg` of `vm_c::start`, and the environment: `rnd` lists the results of the calls
of `rand()` still to come, `cin` the items still to be read from standard input, `files`
gives the content of the file at a path, and `junk` is the value a caller reads when
`vm_c::execute` reaches its closing brace without a `return` (no value is defined there).
`cerr` lists the messages reported through `throw_if`, latest last, and `closed` lists, for
each process closed by the driver, its id and the exit code printed with it. -/
structure vm_c where
  m_ver : Nat
  m_state : core_c
  m_memory : memory_c
  m_prc : Option process_c
  m_code : List Nat
  m_ec : Int
  core_ret : Nat
  mem_ret : Nat
  mx_ip : Nat
  dir : List Nat
  ret : Int
  dbg : Nat
  rnd : List Nat
  cin : List cin_t
  files : List Nat → Option (List Nat)
  junk : Int
  cerr : List (List Char)
  closed : List (Nat × Int)

/-- The constructor `vm_c::vm_c` (vm.cpp 365-372) followed by the initialisation of the
locals of `vm_c::start` (vm.cpp 380-384), in a program where no static cell has been
written yet. -/
def vm_c.new (val : Nat) (rnd : List Nat) (cin : List cin_t)
    (files : List Nat → Option (List Nat)) (junk : Int) : vm_c :=
  { m_ver := 1, m_state := core_c.zero, m_memory := memory_c.new val, m_prc := none,
    m_code := [], m_ec := 1, core_ret := 0, mem_ret := 0, mx_ip := 0, dir := [],
    ret := 1, dbg := 0, rnd := rnd, cin := cin, files := files, junk := junk,
    cerr := [], closed := [] }

/-- Reading `m_state.get(a)`. -/
def vm_c.reg (s : vm_c) (a : Nat) : Nat := (core_c.get a).read s.m_state s.core_ret

/-- The assignment `m_state.get(a) = v`. -/
def vm_c.set_reg (s : vm_c) (a v : Nat) : vm_c :=
  { s with m_state := ((core_c.get a).write v s.m_state s.core_ret).1,
           core_ret := ((core_c.get a).write v s.m_state s.core_ret).2 }

/-- Reading `m_memory.get(i)`. -/
def vm_c.mem (s : vm_c) (i : Nat) : Nat := (s.m_memory.get i).read s.m_memory s.mem_ret

/-- The assignment `m_memory.get(i) = v`. -/
def vm_c.set_mem (s : vm_c) (i v : Nat) : vm_c :=
  { s with m_memory := ((s.m_memory.get i).write v s.m_memory s.mem_ret).1,
           mem_ret := ((s.m_memory.get i).write v s.m_memory s.mem_ret).2 }

/-- Function `vm_c::throw_if` (vm.cpp 782-792). -/
def vm_c.throw_if (s : vm_c) (cnd : Bool) (val : List Char) : Bool × vm_c :=
  if cnd then (true, { s with cerr := s.cerr ++ [val] }) else (false, s)

/-- Function `vm_c::compare` (vm.cpp 794-802). -/
def vm_c.compare (s : vm_c) (left right : Nat) : vm_c :=
  if left < right then { s with m_state := { s.m_state with fx := 1 } }
  else if left = right then { s with m_state := { s.m_state with fx := 2 } }
  else { s with m_state := { s.m_state with fx := 4 } }

/-- The text `std::to_string` gives for an unsigned number. -/
def to_string (n : Nat) : List Char := (Nat.repr n).toList

/-- The characters of a text given by its byte codes. -/
def chars (l : List Nat) : List Char := l.map Char.ofNat

/-- The conversion of a `char` (signed, as with the compiler the source is written for) to
`uint32_t`. -/
def char_to_u32 (c : Nat) : Nat := if u8 c < 128 then u8 c else u8 c + 4294967040

/-- The conversion of a `char` to `int`. -/
def char_to_int (c : Nat) : Int := if u8 c < 128 then (u8 c : Int) else (u8 c : Int) - 256

/-- The loop `while (true)` of opcodes 0x01 and 0x02 (vm.cpp 465-473), run on the results
of `rand()` given; there is no result when the list ends before the loop does. -/
def vm_c.reroll (s : vm_c) : List Nat → Option vm_c
  | [] => none
  | r :: rnd =>
    let ssx := u32 r % 4294967295
    if u32 (ssx + s.m_state.slx) < s.m_state.csx ∨ ssx > u32 (s.m_state.csx + s.m_state.clx)
    then some { s with m_state := { s.m_state with ssx := ssx }, rnd := rnd }
    else vm_c.reroll s rnd

/-- The loop of the string input service (vm.cpp 741-744). -/
def vm_c.push_str : List Nat → vm_c → vm_c
  | [], s => s
  | i :: str, s =>
    let s1 := { s with m_state := { s.m_state with spx := u32 (s.m_state.spx + 1) } }
    vm_c.push_str str (s1.set_mem s1.m_state.spx (u8 i))

/-- The assignment `m_state.x[0] = v`. -/
def vm_c.set_x0 (s : vm_c) (v : Nat) : vm_c :=
  { s with m_state := { s.m_state with x := Function.update s.m_state.x 0 v } }

/-- Function `vm_c::execute` (vm.cpp 663-780).  Console output is not part of the state.  The only
`return` statements are those of the exit and abort services; on every other path the
function ends without one and the caller reads `junk`. -/
def vm_c.execute (s : vm_c) (val : Nat) : Option (Int × vm_c) :=
  if val = 1 then
    if s.m_state.sx = 1 then
      some (0, { s with m_ec := to_type_i32 (s.m_state.x 0) })
    else if s.m_state.sx = 2 then
      match s.m_prc with
      | none => none
      | some p =>
        let msg := "process (".toList ++ to_string p.id ++ ") aborted".toList
        let s1 := (s.throw_if true msg).2
        some (0, { s1 with m_ec := -1 })
    else some (s.junk, s)
  else if val = 2 then
    if s.m_state.sx = 6 then
      match s.cin with
      | cin_t.line (c :: _) :: cin => some (s.junk, { s.set_x0 (char_to_u32 c) with cin := cin })
      | _ => none
    else if s.m_state.sx = 7 ∨ s.m_state.sx = 8 ∨ s.m_state.sx = 9 then
      match s.cin with
      | cin_t.num v :: cin => some (s.junk, { s.set_x0 (u32 v) with cin := cin })
      | _ => none
    else if s.m_state.sx = 10 then
      match s.cin with
      | cin_t.line str :: cin =>
        some (s.junk, vm_c.push_str str { s.set_x0 (u32 str.length) with cin := cin })
      | _ => none
    else some (s.junk, s)
  else some (s.junk, s)

/-- The 16-bit immediate `(static_cast<reg32_t>(c) << 8) | d`. -/
def imm16 (c d : Nat) : Nat := u32 (c <<< 8) ||| d

/-- The 24-bit trap number of opcode 0x06. -/
def imm24 (b c d : Nat) : Nat := u32 (b <<< 16) ||| u32 (c <<< 8) ||| d

/-- Subtraction of `uint32_t` values. -/
def sub32 (l r : Nat) : Nat := u32 (u32 l + 4294967296 - u32 r)

/-- Left shift of a `uint32_t`; the count is taken modulo 32, as the shift instruction of
the processor does (the language leaves counts of 32 and more undefined). -/
def shl32 (l r : Nat) : Nat := u32 (l <<< (r % 32))

/-- Right shift of a `uint32_t`, the count taken modulo 32. -/
def shr32 (l r : Nat) : Nat := l >>> (r % 32)

/-- The complement `~` of a `uint32_t`. -/
def not32 (l : Nat) : Nat := 4294967295 - u32 l

/-- The message of the invalid-instruction report (vm.cpp 654-656). -/
def invalid_msg (id a b c d : Nat) : List Char :=
  "process (".toList ++ to_string id ++ ") has an invalid instruction [".toList
    ++ chars (to_hex 1 a) ++ " ".toList ++ chars (to_hex 1 b) ++ " ".toList
    ++ chars (to_hex 1 c) ++ " ".toList ++ chars (to_hex 1 d) ++ "]".toList

/-- Function `vm_c::engine` (vm.cpp 455-661): the returned code and the machine after the call;
there is no result when a loop or a read does not get what it waits for. -/
def vm_c.engine (s : vm_c) (a b c d : Nat) : Option (Int × vm_c) :=
  if a = 0x00 then some (1, s)
  else if a = 0x01 then
    let s1 := s.set_reg b (imm16 c d)
    if b = core_c.xregs + 5 then (s1.reroll s1.rnd).map (fun s2 => (1, s2)) else some (1, s1)
  else if a = 0x02 then
    let s1 := s.set_reg b (s.reg c)
    if b = core_c.xregs + 5 then (s1.reroll s1.rnd).map (fun s2 => (1, s2)) else some (1, s1)
  else if a = 0x03 then some (1, s.set_mem s.m_state.ax b)
  else if a = 0x04 then some (1, s.set_mem s.m_state.ax (u8 (s.reg b)))
  else if a = 0x05 then some (1, s.set_reg b (s.mem s.m_state.ax))
  else if a = 0x06 then s.execute (imm24 b c d)
  else if a = 0x07 then s.execute (s.reg b)
  else if a = 0x08 then
    if s.m_state.fx = d
    then some (1, { s with m_state := { s.m_state with ipx := u32 (s.m_state.csx + (u32 (b <<< 8) ||| c)) } })
    else some (1, s)
  else if a = 0x09 then
    if s.m_state.fx = s.reg d
    then some (1, { s with m_state := { s.m_state with ipx := u32 (s.m_state.csx + (u32 (b <<< 8) ||| c)) } })
    else some (1, s)
  else if a = 0x0A then
    if s.m_state.fx = imm16 c d
    then some (1, { s with m_state := { s.m_state with ipx := u32 (s.m_state.csx + s.reg b) } })
    else some (1, s)
  else if a = 0x0B then
    if s.m_state.fx = s.reg c
    then some (1, { s with m_state := { s.m_state with ipx := u32 (s.m_state.csx + s.reg b) } })
    else some (1, s)
  else if a = 0x0C then
    if s.m_state.fx ≠ d
    then some (1, { s with m_state := { s.m_state with ipx := u32 (s.m_state.csx + (u32 (b <<< 8) ||| c)) } })
    else some (1, s)
  else if a = 0x0D then
    if s.m_state.fx ≠ s.reg d
    then some (1, { s with m_state := { s.m_state with ipx := u32 (s.m_state.csx + (u32 (b <<< 8) ||| c)) } })
    else some (1, s)
  else if a = 0x0E then
    if s.m_state.fx ≠ s.reg c
    then some (1, { s with m_state := { s.m_state with ipx := u32 (s.m_state.csx + s.reg b) } })
    else some (1, s)
  else if a = 0x0F then
    if s.m_state.fx ≠ s.reg c
    then some (1, { s with m_state := { s.m_state with ipx := u32 (s.m_state.csx + s.reg b) } })
    else some (1, s)
  else if a = 0x10 then some (1, s.set_reg b (u32 (s.reg b + imm16 c d)))
  else if a = 0x11 then some (1, s.set_reg b (u32 (s.reg b + s.reg c)))
  else if a = 0x12 then
    let s1 := s.compare (s.reg b) (s.reg c)
    some (1, s1.set_reg b (sub32 (s1.reg b) (imm16 c d)))
  else if a = 0x13 then
    let s1 := s.compare (s.reg b) (s.reg c)
    some (1, s1.set_reg b (sub32 (s1.reg b) (s1.reg c)))
  else if a = 0x14 then some (1, s.set_reg b (u32 (s.reg b * imm16 c d)))
  else if a = 0x15 then some (1, s.set_reg b (u32 (s.reg b * s.reg c)))
  else if a = 0x16 then
    let val := imm16 c d
    let t := s.throw_if (val = 0) "math [0 as divisor]".toList
    if t.1 then some (0, t.2) else some (1, t.2.set_reg b (t.2.reg b / val))
  else if a = 0x17 then
    let t := s.throw_if (s.reg c = 0) "math [0 as divisor]".toList
    if t.1 then some (0, t.2) else some (1, t.2.set_reg b (t.2.reg b / t.2.reg c))
  else if a = 0x18 then some (1, s.set_reg b (s.reg b &&& imm16 c d))
  else if a = 0x19 then some (1, s.set_reg b (s.reg b &&& s.reg c))
  else if a = 0x1A then some (1, s.set_reg b (s.reg b ||| imm16 c d))
  else if a = 0x1B then some (1, s.set_reg b (s.reg b ||| s.reg c))
  else if a = 0x1C then some (1, s.set_reg b (s.reg b ^^^ imm16 c d))
  else if a = 0x1D then some (1, s.set_reg b (s.reg b ^^^ s.reg c))
  else if a = 0x1E then some (1, s.set_reg b (shl32 (s.reg b) (imm16 c d)))
  else if a = 0x1F then some (1, s.set_reg b (shl32 (s.reg b) (s.reg c)))
  else if a = 0x20 then some (1, s.set_reg b (shr32 (s.reg b) (imm16 c d)))
  else if a = 0x21 then some (1, s.set_reg b (shr32 (s.reg b) (s.reg c)))
  else if a = 0x22 then some (1, s.set_reg b (not32 (s.reg b)))
  else if a = 0x23 then some (1, s.compare (s.reg b) (imm16 c d))
  else if a = 0x24 then some (1, s.compare (s.reg b) (s.reg c))
  else
    match s.m_prc with
    | none => none
    | some p => some (0, (s.throw_if true (invalid_msg p.id a b c d)).2)

/-- Function `vm_c::view` (vm.cpp 853-881); the displays are not part of the state. -/
def vm_c.view (s : vm_c) (val : Nat) : Option (Int × vm_c) :=
  if val = 4 then
    match s.cin with
    | cin_t.chr c :: cin =>
      if tolower c = 98 then some (0, { s with cin := cin }) else some (1, { s with cin := cin })
    | _ => none
  else some (1, s)

/-- The loop that copies the code to memory (vm.cpp 961-963), from index `idx` with `n`
iterations to go; `m_code.at(idx)` has no result past the end of `m_code`. -/
def vm_c.copy_code (code : List Nat) (csx : Nat) : Nat → Nat → vm_c → Option vm_c
  | _, 0, s => some s
  | idx, n + 1, s =>
    match code.get? idx with
    | none => none
    | some ch => vm_c.copy_code code csx (idx + 1) n (s.set_mem (u32 (csx + idx)) (u8 ch))

/-- The case `'2'` of `vm_c::menu` (vm.cpp 959-965) for the process `p`. -/
def vm_c.menu_run (s : vm_c) (p : process_c) : Option (Int × vm_c) :=
  match s.rnd with
  | r1 :: r2 :: rnd =>
    match p.start r1 r2 (u32 (s.m_memory.length + 4294967296 - u32 s.m_code.length))
        s.m_memory.length with
    | none => none
    | some p1 =>
      match vm_c.copy_code s.m_code p1.state.csx 0 p1.state.clx
          { s with m_prc := some p1, rnd := rnd } with
      | none => none
      | some s1 => some (1, { s1 with m_code := [] })
  | _ => none

/-- The case `'1'` of `vm_c::menu` (vm.cpp 945-950) for the word `src` read. -/
def vm_c.menu_load (s : vm_c) (src : List Nat) : vm_c :=
  let r := (process_c.new 0).load (s.files (s.dir ++ [47] ++ src))
  if r.1.isEmpty then { s with m_prc := none, m_code := r.1 }
  else { s with m_prc := some r.2, m_code := r.1 }

/-- Function `vm_c::menu` (vm.cpp 886-1027) on the items of standard input given; each turn of its
loops reads one item, and `fuel` bounds the number of turns.  A character read into a
`char` is compared as a signed value. -/
def vm_c.menu_loop : Nat → List cin_t → vm_c → Option (Int × vm_c)
  | 0, _, _ => none
  | fuel + 1, cin_t.chr c :: cin, s =>
    if char_to_int c > 52 then vm_c.menu_loop fuel cin s
    else if c = 48 then some (-1, { s with cin := cin })
    else if c = 49 then
      match cin with
      | cin_t.str src :: cin1 =>
        if src.isEmpty then vm_c.menu_loop fuel (cin_t.chr c :: cin1) s
        else vm_c.menu_loop fuel cin1 (s.menu_load src)
      | _ => none
    else if c = 50 then
      match s.m_prc with
      | none => vm_c.menu_loop fuel cin s
      | some p => vm_c.menu_run { s with cin := cin } p
    else if c = 51 then
      match cin with
      | cin_t.chr c1 :: cin1 =>
        if char_to_int c1 > 52 then vm_c.menu_loop fuel (cin_t.chr c :: cin1) s
        else if c1 = 48 then some (0, { s with cin := cin1 })
        else some (char_to_int c1 - 48 + 1, { s with cin := cin1 })
      | _ => none
    else if c = 52 then
      match cin with
      | cin_t.str src :: cin1 =>
        if src.isEmpty then vm_c.menu_loop fuel (cin_t.chr c :: cin1) s
        else vm_c.menu_loop fuel cin1 { s with dir := src }
      | _ => none
    else vm_c.menu_loop fuel cin s
  | _ + 1, _, _ => none

/-- Function `vm_c::menu`. -/
def vm_c.menu (s : vm_c) : Option (Int × vm_c) := vm_c.menu_loop (s.cin.length + 1) s.cin s

/-- The macro `PRC_IS_STARTED`. -/
def PRC_IS_STARTED (prc : process_c) : Bool := prc.info &&& 1 ≠ 0

/-- The closing of the process in the driver (vm.cpp 406-413, macro `PRC_CLOSE`). -/
def vm_c.close (s : vm_c) (p : process_c) : vm_c :=
  { s with closed := s.closed ++ [(p.id, s.m_ec)], m_prc := none }

/-- The Running branch of the body of the loop of `vm_c::start` (vm.cpp 388-413). -/
def vm_c.running (s : vm_c) (p : process_c) : Option vm_c :=
  if s.m_state.ipx < s.mx_ip then
    match s.engine (s.mem s.m_state.ipx) (s.mem (u32 (s.m_state.ipx + 1)))
        (s.mem (u32 (s.m_state.ipx + 2))) (s.mem (u32 (s.m_state.ipx + 3))) with
    | none => none
    | some (ret, s1) =>
      let s2 := { s1 with m_state := { s1.m_state with ipx := u32 (s1.m_state.ipx + 4) } }
      if s2.dbg ≠ 0 then
        match s2.view s2.dbg with
        | none => none
        | some (ret1, s3) =>
          some (if ret1 = 0 then { s3.close p with ret := ret1 } else { s3 with ret := ret1 })
      else some (if ret = 0 then { s2.close p with ret := ret } else { s2 with ret := ret })
  else some { s.close p with ret := 0 }

/-- The Idle branch of the body of the loop of `vm_c::start` (vm.cpp 415-444). -/
def vm_c.idle (s : vm_c) : Option vm_c :=
  match s.menu with
  | none => none
  | some (ret, s1) =>
    if ret = 1 then
      match s1.m_prc with
      | none => none
      | some p =>
        some { s1 with ret := ret, m_state := { p.state with ipx := p.state.csx },
                       mx_ip := u32 (p.state.csx + p.state.clx) }
    else if ret = 2 then some { s1 with ret := ret, dbg := 1 }
    else if ret = 3 then some { s1 with ret := ret, dbg := 2 }
    else if ret = 4 then some { s1 with ret := ret, dbg := 3 }
    else if ret = 5 then some { s1 with ret := ret, dbg := 4 }
    else some { s1 with ret := ret, dbg := 0 }

/-- The body of the loop `while (true)` of `vm_c::start` (vm.cpp 387-445), up to the test
of `ret == -1`. -/
def vm_c.loop (s : vm_c) : Option vm_c :=
  match s.m_prc with
  | some p => if PRC_IS_STARTED p then s.running p else s.idle
  | none => s.idle

/-- The loop of `vm_c::start` (vm.cpp 386-452) for at most `fuel` turns: the value returned
and the machine at that point. -/
def vm_c.start : Nat → vm_c → Option (Int × vm_c)
  | 0, _ => none
  | fuel + 1, s =>
    match s.loop with
    | none => none
    | some s1 => if s1.ret = -1 then some (s1.ret, s1) else vm_c.start fuel s1

/-- The machine after `n` turns of the loop of `vm_c::start`, none of which leaves it. -/
def vm_c.turns : Nat → vm_c → Option vm_c
  | 0, s => some s
  | n + 1, s =>
    match s.loop with
    | none => none
    | some s1 => if s1.ret = -1 then none else vm_c.turns n s1

/-! ## the words of the specification -/

/-- The character class `[0-9A-Fa-f]` of the specification. -/
def hex_class (c : Nat) : Bool :=
  (48 ≤ c && c ≤ 57) || (65 ≤ c && c ≤ 70) || (97 ≤ c && c ≤ 102)

/-- The value of a hexadecimal digit, whatever its case. -/
def hexval (c : Nat) : Nat :=
  if 48 ≤ c ∧ c ≤ 57 then c - 48
  else if 65 ≤ c ∧ c ≤ 70 then c - 55
  else if 97 ≤ c ∧ c ≤ 102 then c - 87
  else 0

/-- Consecutive hexadecimal characters paired into bytes, high nibble first; a last
character without a partner is dropped. -/
def pair_up : List Nat → List Nat
  | a :: b :: rest => (16 * hexval a + hexval b) :: pair_up rest
  | _ => []

/-- The text made of the hexadecimal digits of a byte sequence, each byte written by
`to_hex`. -/
def hex_text : List Nat → List Nat
  | [] => []
  | b :: rest => to_hex 1 b ++ hex_text rest

/-! ## example inputs -/

/-- The program of the scenario "exit with value 7" as the specification prints it; its
second instruction names register address 0x18. -/
def exit7_as_printed : List Nat :=
  "01 00 00 07 01 18 00 01 06 00 00 01".toList.map Char.toNat

/-- The same program with register address 0x17 in its second instruction. -/
def exit7_sx : List Nat :=
  "01 00 00 07 01 17 00 01 06 00 00 01".toList.map Char.toNat

/-- A new machine of 64 memory cells whose user asks to load the file `p` and to run it,
the file holding `text`; the calls of `rand()` give 41 and 18467. -/
def demo_vm (text : List Nat) (junk : Int) : vm_c :=
  vm_c.new 64 [41, 18467] [cin_t.chr 49, cin_t.str [112], cin_t.chr 50]
    (fun _ => some text) junk

/-- An idle machine of 64 memory cells that holds the loaded program `exit7_sx`, with live
registers left over from an earlier process, and whose user asks to run the program. -/
def demo_loaded : vm_c :=
  { vm_c.new 64 [41, 18467] [cin_t.chr 50] (fun _ => none) 0 with
    m_prc := some ((process_c.new 0).load (some exit7_sx)).2,
    m_code := ((process_c.new 0).load (some exit7_sx)).1,
    m_state := { core_c.zero with x := fun _ => 9, ipx := 3, ssx := 5, fx := 4, clx := 40 } }

/-- The byte codes of the characters of a text. -/
def codes (text : String) : List Nat := text.toList.map Char.toNat

/-- A new machine of 64 memory cells whose user loads the file `p`, which holds `text`, and
then types `keys`; `rnd` lists the results of `rand()`. -/
def demo_machine (rnd : List Nat) (keys : List cin_t) (text : String) (junk : Int) : vm_c :=
  vm_c.new 64 rnd (cin_t.chr 49 :: cin_t.str [112] :: keys) (fun _ => some (codes text)) junk

/-- The process of `demo_running`. -/
def demo_process (n : Nat) : process_c :=
  { id := 41, info := 1, state := { core_c.zero with csx := 7, ipx := 7, clx := n } }

/-- A machine of 64 memory cells in the middle of a run: the program `prog` lies in memory
from cell 7 on, no instruction has been executed yet, and the debug mode is `dbg`. -/
def demo_running (prog : List Nat) (dbg : Nat) : vm_c :=
  { vm_c.new 64 [] [] (fun _ => none) 1 with
    m_prc := some (demo_process prog.length),
    m_state := (demo_process prog.length).state,
    mx_ip := 7 + prog.length,
    dbg := dbg,
    m_memory := { m_len := 64, m_data := fun j => if 7 ≤ j then prog.getD (j - 7) 0 else 0 } }

/-- A machine in the middle of a run of two `nop` instructions, without debug mode. -/
def demo_nops : vm_c := demo_running [0, 0, 0, 0, 0, 0, 0, 0] 0

/-- A new machine whose user loads and runs the program `ldx clx,4`, `nop`, `nop`
(`01 12 00 04`, `00 00 00 00`, `00 00 00 00`); `rand()` gives 41 and 18467, which places
the code at cell 7. -/
def demo_short_clx : vm_c :=
  demo_machine [41, 18467] [cin_t.chr 50] "01 12 00 04 00 00 00 00 00 00 00 00" 1

/-- A new machine whose user loads and runs the program `not x0`, `ldx slx,x0`
(`22 00 00 00`, `02 15 00 00`); `rand()` gives 41, 10 and then 5, which places the code at
cell 10 and proposes 5 for `ssx`. -/
def demo_big_stack : vm_c :=
  demo_machine [41, 10, 5] [cin_t.chr 50] "22 00 00 00 02 15 00 00" 1

/-- The text of the program `ldx sx,1`, `exc 1`, `ldx x0,9`, `exc 1`: an exit with code 0
followed by an exit with code 9. -/
def two_exits : String := "01 17 00 01 06 00 00 01 01 00 00 09 06 00 00 01"

/-- A new machine whose user loads `two_exits`, selects the debug mode "show registers"
(keys `3`, `1`) and runs the program. -/
def demo_debug_exit : vm_c :=
  demo_machine [41, 18467] [cin_t.chr 51, cin_t.chr 49, cin_t.chr 50] two_exits 1

/-- A new machine whose user loads `two_exits` and runs it without debug mode. -/
def demo_plain_exit : vm_c := demo_machine [41, 18467] [cin_t.chr 50] two_exits 1

/-- A new machine whose user loads the program `exit7_sx`, runs it and then quits (key
`0`). -/
def demo_exit_quit : vm_c :=
  vm_c.new 64 [41, 18467] [cin_t.chr 49, cin_t.str [112], cin_t.chr 50, cin_t.chr 48]
    (fun _ => some exit7_sx) 1

/-- A new machine whose user quits at once. -/
def demo_quit : vm_c := vm_c.new 64 [] [cin_t.chr 48] (fun _ => none) 1

/-- The upper-case hexadecimal digit of a value below 16. -/
def upper_hex_digit (n : Nat) : Char := "0123456789ABCDEF".toList.getD n '0'

/-- A byte written as two upper-case hexadecimal digits, high nibble first. -/
def hex_pair (n : Nat) : List Char := [upper_hex_digit (n / 16), upper_hex_digit (n % 16)]

/-- A register file with some slots set: `x[0] = 7`, `csx = 10`, `fx = 2`. -/
def demo_core : core_c :=
  { core_c.zero with x := Function.update (fun _ => 0) 0 7, csx := 10, fx := 2 }

/-- A new machine whose user loads and runs the program `ldx ipx,0`, `nop`, `nop`
(`01 11 00 00`, `00 00 00 00`, `00 00 00 00`); `rand()` gives 41 and 18467, which places
the code at cell 7. -/
def demo_low_ipx : vm_c :=
  demo_machine [41, 18467] [cin_t.chr 50] "01 11 00 00 00 00 00 00 00 00 00 00" 1

/-- A machine about to execute `exc 1` with `sx = 1` (exit) and `x[0] = 0xFFFFFFFE`. -/
def demo_exit : vm_c :=
  { demo_running [6, 0, 0, 1] 0 with
    m_state := { (demo_process 4).state with
      x := Function.update (fun _ => 0) 0 4294967294, sx := 1 } }

/-- A machine about to execute `exc x1` with `x[1] = 1` (trap 1), `sx = 2` (abort) and
`x[0] = 5`. -/
def demo_abort : vm_c :=
  { demo_running [7, 1, 0, 0] 0 with
    m_state := { (demo_process 4).state with
      x := Function.update (Function.update (fun _ => 0) 0 5) 1 1, sx := 2 } }

/-- A machine in the middle of a run with `x[3] = 0x1234` and `ax = 5`, the memory cell 5
holding 0. -/
def demo_store : vm_c :=
  { demo_nops with
    m_state := { (demo_process 8).state with
      x := Function.update (fun _ => 0) 3 4660, ax := 5 } }

/-- An idle machine of 64 memory cells that holds the loaded program `nop`, `nop`, and
whose user asks to run the program; the run ends by reaching the end of the code. -/
def demo_loaded_nops : vm_c :=
  { vm_c.new 64 [41, 18467] [cin_t.chr 50] (fun _ => none) 0 with
    m_prc := some ((process_c.new 0).load (some (codes "00 00 00 00 00 00 00 00"))).2,
    m_code := ((process_c.new 0).load (some (codes "00 00 00 00 00 00 00 00"))).1 }

/-! ## the loader -/

theorem is_hex_eq (c : Nat) : is_hex c = hex_class c := by
  unfold is_hex hex_class toupper
  by_cases h : 97 ≤ c ∧ c ≤ 122
  · simp only [h, and_self, if_true]
    rw [Bool.eq_iff_iff]; simp; omega
  · simp only [h, if_false]
    rw [Bool.eq_iff_iff]; simp; omega

theorem hexval_lt {c : Nat} : hexval c < 16 := by
  unfold hexval; split_ifs <;> omega

theorem hex_dig_load_char {a : Nat} (ha : hex_class a = true) :
    hex_dig_to_dec_dig (load_char a) = hexval a ∧ load_char a ≠ 0 := by
  simp only [hex_class, Bool.or_eq_true, Bool.and_eq_true, decide_eq_true_eq] at ha
  unfold load_char hex_dig_to_dec_dig hexval toupper u8
  split_ifs <;> omega

theorem to_dec_pair {a b : Nat} (ha : hex_class a = true) (hb : hex_class b = true) :
    u8 (to_dec [load_char a, load_char b]) = 16 * hexval a + hexval b := by
  obtain ⟨ha1, ha2⟩ := hex_dig_load_char ha
  obtain ⟨hb1, hb2⟩ := hex_dig_load_char hb
  have h1 := @hexval_lt a
  have h2 := @hexval_lt b
  simp only [to_dec, ha2, hb2, or_self, if_false, ha1, hb1, u8]
  omega

/-- The loop of `load` pairs up the hexadecimal characters of the text. -/
theorem load_loop_eq (src : List Nat) :
    ∀ ret : List Nat,
      load_loop src ret [] = ret ++ pair_up (src.filter hex_class) ∧
      ∀ a, hex_class a = true →
        load_loop src ret [load_char a] = ret ++ pair_up (a :: src.filter hex_class) := by
  induction src with
  | nil => intro ret; simp [load_loop, pair_up]
  | cons i src ih =>
    intro ret
    by_cases hi : hex_class i = true
    · constructor
      · simp only [load_loop, is_hex_eq, hi, if_true, List.nil_append, List.length_singleton,
          OfNat.one_ne_ofNat, if_false, List.filter_cons_of_pos]
        exact (ih ret).2 i hi
      · intro a ha
        simp only [load_loop, is_hex_eq, hi, if_true, List.singleton_append, List.length_cons,
          List.length_singleton, List.filter_cons_of_pos, pair_up]
        simp only [List.length_nil, zero_add, Nat.reduceAdd, if_true]
        rw [(ih _).1, to_dec_pair ha hi]
        simp
    · have hi2 : hex_class i = false := by simpa using hi
      constructor
      · simp [load_loop, is_hex_eq, hi2, (ih ret).1]
      · intro a ha
        simp [load_loop, is_hex_eq, hi2, (ih ret).2 a ha]

theorem pair_up_length : ∀ h : List Nat, (pair_up h).length = h.length / 2
  | [] => by simp [pair_up]
  | [_] => by simp [pair_up]
  | _ :: _ :: rest => by
    simp only [pair_up, List.length_cons, pair_up_length rest]
    omega

theorem pair_up_get : ∀ (h : List Nat) (k : Nat), k < h.length / 2 →
    (pair_up h).get? k = some (16 * hexval (h.getD (2 * k) 0) + hexval (h.getD (2 * k + 1) 0))
  | [], k, hk => by simp only [List.length_nil] at hk; omega
  | [_], k, hk => by simp only [List.length_singleton] at hk; omega
  | a :: b :: rest, 0, _ => by simp [pair_up]
  | a :: b :: rest, k + 1, hk => by
    have hk2 : k < rest.length / 2 := by
      simp only [List.length_cons] at hk; omega
    have := pair_up_get rest k hk2
    simp only [pair_up, List.get?_cons_succ, this]
    have e1 : 2 * (k + 1) = (2 * k + 1) + 1 := by ring
    have e2 : 2 * (k + 1) + 1 = (2 * k + 1 + 1) + 1 := by ring
    rw [e1]
    simp only [List.getD_cons_succ]


theorem read_filter (text : List Nat) :
    (read (some text)).filter hex_class = text.filter hex_class := by
  simp [read, hex_class]

/-- C2: the bytes `process_c::load` decodes from a text are the pairs of its hexadecimal
characters, in order and high nibble first, `floor(|h|/2)` of them; two texts with the same
hexadecimal characters decode to the same bytes. -/
theorem load_decodes_hex_pairs (text : List Nat) :
    (load_loop (read (some text)) [] []).length = (text.filter hex_class).length / 2 ∧
    (∀ k, k < (text.filter hex_class).length / 2 →
      (load_loop (read (some text)) [] []).get? k =
        some (16 * hexval ((text.filter hex_class).getD (2 * k) 0)
              + hexval ((text.filter hex_class).getD (2 * k + 1) 0))) ∧
    (∀ text2 : List Nat, text2.filter hex_class = text.filter hex_class →
      load_loop (read (some text2)) [] [] = load_loop (read (some text)) [] []) := by
  have h := fun t : List Nat => (load_loop_eq (read (some t)) []).1
  simp only [List.nil_append, read_filter] at h
  refine ⟨?_, ?_, ?_⟩
  · rw [h, pair_up_length]
  · intro k hk
    rw [h, pair_up_get _ k hk]
  · intro text2 h2
    rw [h, h, h2]

/-! ## the round trip of the loader -/

theorem hexval_dec_val {n : Nat} (h : n < 16) :
    hexval (dec_val_to_hex_dig n) = n ∧ hex_class (dec_val_to_hex_dig n) = true := by
  unfold dec_val_to_hex_dig u8
  by_cases h9 : n ≤ 9
  · have e : (n + 48) % 256 = n + 48 := by omega
    simp only [Nat.zero_le, h9, and_self, if_true, e, hexval, hex_class]
    constructor
    · rw [if_pos (by omega)]; omega
    · simp; omega
  · have e : (n - 10 + 65) % 256 = n - 10 + 65 := by omega
    have h10 : 10 ≤ n ∧ n ≤ 15 := by omega
    simp only [Nat.zero_le, h9, and_false, if_false, h10, and_self, if_true, e, hexval, hex_class]
    constructor
    · rw [if_neg (by omega), if_pos (by omega)]; omega
    · simp; omega

theorem to_hex_byte {b : Nat} (h : b < 256) :
    to_hex 1 b = [dec_val_to_hex_dig (b / 16), dec_val_to_hex_dig (b % 16)] := by
  have e1 : b % 256 = b := by omega
  have e2 : b / 16 % 256 = b / 16 := by omega
  have e3 : (b - b / 16 * 16) % 256 = b % 16 := by omega
  simp [to_hex, to_hex_var, to_hex_digits, u8, e1, e2, e3]

theorem hex_text_filter : ∀ B : List Nat, (∀ b ∈ B, b < 256) →
    (hex_text B).filter hex_class = hex_text B ∧ pair_up (hex_text B) = B
  | [], _ => by simp [hex_text, pair_up]
  | b :: B, hB => by
    have hb : b < 256 := hB b (by simp)
    have ih := hex_text_filter B (fun c hc => hB c (by simp [hc]))
    have h1 := hexval_dec_val (show b / 16 < 16 by omega)
    have h2 := hexval_dec_val (show b % 16 < 16 by omega)
    rw [hex_text, to_hex_byte hb]
    have e : 16 * (b / 16) + b % 16 = b := by omega
    simp only [List.cons_append, List.nil_append, pair_up,
      List.filter_cons_of_pos, h1.2, h2.2, ih.1, ih.2, h1.1, h2.1, true_and, e,
      List.append_eq]

theorem load_loop_hex_text (B : List Nat) (hB : ∀ b ∈ B, b < 256) :
    (load_loop (read (some (hex_text B))) [] []) = B := by
  have h := (load_loop_eq (read (some (hex_text B))) []).1
  rw [h, read_filter, (hex_text_filter B hB).1, (hex_text_filter B hB).2]
  simp

/-- C3: round trip.  For every byte sequence `B` whose length is a positive multiple of 4,
`process_c::load` on the text made of the hexadecimal digits `to_hex` writes for the bytes
of `B` returns exactly `B`. -/
theorem load_hex_text_round_trip (p : process_c) (B : List Nat) (hB : ∀ b ∈ B, b < 256)
    (hpos : 0 < B.length) (h4 : B.length % 4 = 0) :
    (p.load (some (hex_text B))).1 = B := by
  have h := load_loop_hex_text B hB
  have hne : B ≠ [] := by
    intro e; rw [e] at hpos; simp at hpos
  simp only [process_c.load, h, h4]
  simp [read, hne]

theorem load_hex_text_round_trip_witness :
    ((process_c.new 0).load (some (hex_text [1, 0, 0, 7]))).1 = [1, 0, 0, 7] :=
  load_hex_text_round_trip (process_c.new 0) [1, 0, 0, 7] (by decide) (by decide) (by decide)

/-! ## the result of the loader -/

theorem load_loop_length_le (src : List Nat) : (load_loop src [] []).length ≤ src.length := by
  rw [(load_loop_eq src []).1, List.nil_append, pair_up_length]
  have := List.length_filter_le hex_class src
  omega

/-- C4: `process_c::load` returns an empty buffer exactly when the number of decoded bytes
is zero or not a multiple of 4; a non-empty buffer comes with `state.clx` equal to its
length, a multiple of 4; an empty one leaves `state.clx` (and the whole process) as it
was.  The text read is one whose size fits the 32 bits of `clx`. -/
theorem load_empty_iff (p : process_c) (file : Option (List Nat))
    (hsize : (read file).length < 4294967296) :
    ((p.load file).1 = [] ↔
      (load_loop (read file) [] []).length = 0 ∨ (load_loop (read file) [] []).length % 4 ≠ 0) ∧
    ((p.load file).1 ≠ [] →
      (p.load file).2.state.clx = (p.load file).1.length ∧ (p.load file).2.state.clx % 4 = 0) ∧
    ((p.load file).1 = [] → (p.load file).2.state.clx = p.state.clx ∧ (p.load file).2 = p) := by
  have hle := load_loop_length_le (read file)
  by_cases h0 : (read file) = []
  · simp [process_c.load, h0, load_loop]
  · by_cases h4 : (load_loop (read file) [] []).length % 4 = 0
    · by_cases he : load_loop (read file) [] [] = []
      · simp [process_c.load, h0, he]
      · have hlen : (load_loop (read file) [] []).length ≠ 0 := by
          simpa [List.length_eq_zero] using he
        have hu : u32 (load_loop (read file) [] []).length = (load_loop (read file) [] []).length := by
          unfold u32; omega
        simp [process_c.load, h0, he, h4, hlen, hu]
    · simp [process_c.load, h0, h4]

theorem load_empty_iff_witness :
    (((process_c.new 0).load (some [48, 49])).1 = [] ↔
      (load_loop (read (some [48, 49])) [] []).length = 0 ∨
        (load_loop (read (some [48, 49])) [] []).length % 4 ≠ 0) ∧
    (((process_c.new 0).load (some [48, 49])).1 ≠ [] →
      ((process_c.new 0).load (some [48, 49])).2.state.clx
          = ((process_c.new 0).load (some [48, 49])).1.length ∧
        ((process_c.new 0).load (some [48, 49])).2.state.clx % 4 = 0) ∧
    (((process_c.new 0).load (some [48, 49])).1 = [] →
      ((process_c.new 0).load (some [48, 49])).2.state.clx = (process_c.new 0).state.clx ∧
        ((process_c.new 0).load (some [48, 49])).2 = process_c.new 0) :=
  load_empty_iff (process_c.new 0) (some [48, 49]) (by decide)

/-! ## register addresses -/

theorem core_get_ge {a : Nat} (h : 25 ≤ a) : core_c.get a = reg_ref.ret := by
  obtain ⟨k, rfl⟩ : ∃ k, a = k + 25 := ⟨a - 25, by omega⟩
  have h16 : ¬ k + 25 < 16 := by omega
  have e : k + 25 - core_c.xregs = k + 9 := by unfold core_c.xregs; omega
  simp only [core_c.get, h16, dite_false, e]

theorem core_get_le {a : Nat} (h : a ≤ 24) : core_c.get a ≠ reg_ref.ret := by
  by_cases h16 : a < 16
  · simp [core_c.get, h16]
  · have : a = 16 ∨ a = 17 ∨ a = 18 ∨ a = 19 ∨ a = 20 ∨ a = 21 ∨ a = 22 ∨ a = 23 ∨ a = 24 := by
      omega
    rcases this with h | h | h | h | h | h | h | h | h <;> subst h <;> decide

theorem reg_read_write_same (r : reg_ref) (v : Nat) (s : core_c) (ret : Nat) :
    r.read (r.write v s ret).1 (r.write v s ret).2 = v := by
  cases r <;> simp [reg_ref.read, reg_ref.write]

theorem reg_read_write_other {r r2 : reg_ref} (h : r2 ≠ r) (v : Nat) (s : core_c) (ret : Nat) :
    r2.read (r.write v s ret).1 (r.write v s ret).2 = r2.read s ret := by
  cases r <;> cases r2 <;> simp_all [reg_ref.read, reg_ref.write, Function.update]

/-- C5: `core_c::get` maps the register addresses to the slots: `x[a]` for `a < 16`, and
`csx, ipx, clx, ssx, spx, slx, ax, sx, fx` for 16 to 24; an assignment through `get(a)`,
`a <= 24`, is read back through `get(a)` and changes no other slot (nor the static cell). -/
theorem core_get_maps_addresses (a v : Nat) (s : core_c) (ret : Nat) (h : a ≤ 24) :
    (∀ h16 : a < 16, core_c.get a = reg_ref.x ⟨a, h16⟩) ∧
    (a = 16 → core_c.get a = reg_ref.csx) ∧ (a = 17 → core_c.get a = reg_ref.ipx) ∧
    (a = 18 → core_c.get a = reg_ref.clx) ∧ (a = 19 → core_c.get a = reg_ref.ssx) ∧
    (a = 20 → core_c.get a = reg_ref.spx) ∧ (a = 21 → core_c.get a = reg_ref.slx) ∧
    (a = 22 → core_c.get a = reg_ref.ax) ∧ (a = 23 → core_c.get a = reg_ref.sx) ∧
    (a = 24 → core_c.get a = reg_ref.fx) ∧
    (core_c.get a).read ((core_c.get a).write v s ret).1 ((core_c.get a).write v s ret).2 = v ∧
    (∀ r : reg_ref, r ≠ core_c.get a →
      r.read ((core_c.get a).write v s ret).1 ((core_c.get a).write v s ret).2 = r.read s ret) ∧
    core_c.get a ≠ reg_ref.ret := by
  refine ⟨?_, ?_, ?_, ?_, ?_, ?_, ?_, ?_, ?_, ?_, reg_read_write_same _ v s ret,
    fun r hr => reg_read_write_other hr v s ret, core_get_le h⟩
  · intro h16; simp [core_c.get, h16]
  all_goals (intro e; subst e; decide)

theorem core_get_maps_addresses_witness :
    (∀ h16 : 23 < 16, core_c.get 23 = reg_ref.x ⟨23, h16⟩) ∧
    (23 = 16 → core_c.get 23 = reg_ref.csx) ∧ (23 = 17 → core_c.get 23 = reg_ref.ipx) ∧
    (23 = 18 → core_c.get 23 = reg_ref.clx) ∧ (23 = 19 → core_c.get 23 = reg_ref.ssx) ∧
    (23 = 20 → core_c.get 23 = reg_ref.spx) ∧ (23 = 21 → core_c.get 23 = reg_ref.slx) ∧
    (23 = 22 → core_c.get 23 = reg_ref.ax) ∧ (23 = 23 → core_c.get 23 = reg_ref.sx) ∧
    (23 = 24 → core_c.get 23 = reg_ref.fx) ∧
    (core_c.get 23).read ((core_c.get 23).write 5 core_c.zero 0).1
      ((core_c.get 23).write 5 core_c.zero 0).2 = 5 ∧
    (∀ r : reg_ref, r ≠ core_c.get 23 →
      r.read ((core_c.get 23).write 5 core_c.zero 0).1 ((core_c.get 23).write 5 core_c.zero 0).2
        = r.read core_c.zero 0) ∧
    core_c.get 23 ≠ reg_ref.ret :=
  core_get_maps_addresses 23 5 core_c.zero 0 (by decide)

/-- C6, as the code has it: for `a >= 25`, `core_c::get(a)` is the one static cell, which
starts at 0 and is no register; an assignment through it changes no register and stays in
the cell, where a read through any address `a2 >= 25` finds it. -/
theorem core_get_bad_address (a a2 v : Nat) (s : core_c) (ret : Nat) (h : 25 ≤ a)
    (h2 : 25 ≤ a2) :
    core_c.get a = reg_ref.ret ∧
    (core_c.get a).read s 0 = 0 ∧
    ((core_c.get a).write v s ret).1 = s ∧
    (core_c.get a2).read ((core_c.get a).write v s ret).1 ((core_c.get a).write v s ret).2 = v := by
  have e : core_c.get a = reg_ref.ret := core_get_ge h
  have e2 : core_c.get a2 = reg_ref.ret := core_get_ge h2
  refine ⟨e, ?_, ?_, ?_⟩
  · rw [e]; rfl
  · rw [e]; rfl
  · rw [e, e2]; rfl

theorem core_get_bad_address_witness :
    core_c.get 25 = reg_ref.ret ∧
    (core_c.get 25).read core_c.zero 0 = 0 ∧
    ((core_c.get 25).write 5 core_c.zero 0).1 = core_c.zero ∧
    (core_c.get 26).read ((core_c.get 25).write 5 core_c.zero 0).1
      ((core_c.get 25).write 5 core_c.zero 0).2 = 5 :=
  core_get_bad_address 25 26 5 core_c.zero 0 (by decide) (by decide)

/-- C6 fails as stated: on a new machine, `ldx` with `b = 25` and the immediate 5
(instruction `01 19 00 05`) returns 1, and a read of the invalid address 26 then gives 5. -/
theorem core_get_bad_address_keeps_write :
    ((vm_c.new 16 [] [] (fun _ => none) 0).engine 1 25 0 5).map (fun r => (r.1, r.2.reg 26))
      = some (1, 5) := by
  decide

/-! ## memory indices -/

/-- C7, as the code has it: for `i < len`, `memory_c::get(i)` is cell `i`: an assignment
through it is read back and changes no other cell nor the static cell; for `j >= len`,
`get(j)` is the one static cell, which starts at 0: an assignment through it changes no
cell and stays in the static cell, where a read through any index `j2 >= len` finds it. -/
theorem memory_get_cells (m : memory_c) (ret i j j2 v : Nat) (hi : i < m.m_len)
    (hj : m.m_len ≤ j) (hj2 : m.m_len ≤ j2) :
    m.get i = loc_ref.cell i ∧
    (m.get i).read ((m.get i).write v m ret).1 ((m.get i).write v m ret).2 = v ∧
    (∀ r : loc_ref, r ≠ m.get i →
      r.read ((m.get i).write v m ret).1 ((m.get i).write v m ret).2 = r.read m ret) ∧
    ((m.get i).write v m ret).1.m_len = m.m_len ∧
    m.get j = loc_ref.ret ∧
    (m.get j).read m 0 = 0 ∧
    ((m.get j).write v m ret).1 = m ∧
    (((m.get j).write v m ret).1.get j2).read ((m.get j).write v m ret).1
      ((m.get j).write v m ret).2 = v := by
  have e1 : m.get i = loc_ref.cell i := by
    simp only [memory_c.get, ge_iff_le]; rw [if_neg (by omega)]
  have e2 : m.get j = loc_ref.ret := by simp [memory_c.get, hj]
  have e3 : m.get j2 = loc_ref.ret := by simp [memory_c.get, hj2]
  refine ⟨e1, ?_, ?_, ?_, e2, ?_, ?_, ?_⟩
  · simp [e1, loc_ref.read, loc_ref.write]
  · intro r hr
    rw [e1] at hr ⊢
    cases r with
    | ret => simp [loc_ref.read, loc_ref.write]
    | cell k =>
      have hk : k ≠ i := fun e => hr (by rw [e])
      simp [loc_ref.read, loc_ref.write, Function.update, hk]
  · simp [e1, loc_ref.write]
  · simp [e2, loc_ref.read]
  · simp [e2, loc_ref.write]
  · simp [e2, e3, loc_ref.write, loc_ref.read]

theorem memory_get_cells_witness :
    (memory_c.new 4).get 1 = loc_ref.cell 1 ∧
    ((memory_c.new 4).get 1).read (((memory_c.new 4).get 1).write 9 (memory_c.new 4) 0).1
      (((memory_c.new 4).get 1).write 9 (memory_c.new 4) 0).2 = 9 ∧
    (∀ r : loc_ref, r ≠ (memory_c.new 4).get 1 →
      r.read (((memory_c.new 4).get 1).write 9 (memory_c.new 4) 0).1
        (((memory_c.new 4).get 1).write 9 (memory_c.new 4) 0).2 = r.read (memory_c.new 4) 0) ∧
    (((memory_c.new 4).get 1).write 9 (memory_c.new 4) 0).1.m_len = (memory_c.new 4).m_len ∧
    (memory_c.new 4).get 7 = loc_ref.ret ∧
    ((memory_c.new 4).get 7).read (memory_c.new 4) 0 = 0 ∧
    (((memory_c.new 4).get 7).write 9 (memory_c.new 4) 0).1 = memory_c.new 4 ∧
    ((((memory_c.new 4).get 7).write 9 (memory_c.new 4) 0).1.get 5).read
      (((memory_c.new 4).get 7).write 9 (memory_c.new 4) 0).1
      (((memory_c.new 4).get 7).write 9 (memory_c.new 4) 0).2 = 9 :=
  memory_get_cells (memory_c.new 4) 0 1 7 5 9 (by decide) (by decide) (by decide)

/-- C7 fails as stated: in a new memory of 4 cells, after the assignment of 9 through
`get(7)` the read through `get(5)` gives 9. -/
theorem memory_get_keeps_write :
    (((memory_c.new 4).get 7).write 9 (memory_c.new 4) 0).2 = 9 ∧
    ((((memory_c.new 4).get 7).write 9 (memory_c.new 4) 0).1.get 5).read
      (((memory_c.new 4).get 7).write 9 (memory_c.new 4) 0).1
      (((memory_c.new 4).get 7).write 9 (memory_c.new 4) 0).2 = 9 := by
  decide

/-! ## the start of a process -/

theorem or_one_and_one (n : Nat) : (n ||| 1) &&& 1 = 1 := by
  apply Nat.eq_of_testBit_eq
  intro i
  cases i with
  | zero => simp
  | succ j => simp [Nat.testBit_succ]

theorem process_start_eq (p : process_c) (r1 r2 mx mx_len : Nat) (h : 0 < mx) :
    p.start r1 r2 mx mx_len = some
      { id := u32 r1 % 4294967295, info := p.info ||| 1,
        state := { p.state with csx := u32 r2 % mx, ipx := u32 r2 % mx } } := by
  have hmx : mx ≠ 0 := by omega
  simp only [process_c.start, hmx, if_false]

theorem process_start_some (p : process_c) (r1 r2 mx mx_len : Nat) (h : 0 < mx) :
    ∃ q : process_c, p.start r1 r2 mx mx_len = some q ∧ q.id = u32 r1 % 4294967295 ∧
      q.state = { p.state with csx := q.state.csx, ipx := q.state.csx } ∧
      q.state.csx < mx ∧ PRC_IS_STARTED q = true :=
  ⟨_, process_start_eq p r1 r2 mx mx_len h, rfl, rfl, Nat.mod_lt _ h, by
    simp only [PRC_IS_STARTED, or_one_and_one]; decide⟩

/-- C8: for every `max_base > 0` and every result of the two calls of `rand()`,
`process_c::start` gives a process with `csx < max_base`, `ipx == csx` and the bit
STARTED of `info` set, and with `clx` and every other register of the snapshot as
before. -/
theorem process_start_places_code (p : process_c) (r1 r2 mx mx_len : Nat) (h : 0 < mx) :
    ∃ q : process_c, p.start r1 r2 mx mx_len = some q ∧
      q.state.csx < mx ∧ q.state.ipx = q.state.csx ∧ q.info &&& 1 = 1 ∧
      PRC_IS_STARTED q = true ∧
      q.state.clx = p.state.clx ∧ q.state.x = p.state.x ∧ q.state.ssx = p.state.ssx ∧
      q.state.spx = p.state.spx ∧ q.state.slx = p.state.slx ∧ q.state.ax = p.state.ax ∧
      q.state.sx = p.state.sx ∧ q.state.fx = p.state.fx := by
  refine ⟨_, process_start_eq p r1 r2 mx mx_len h, ?_⟩
  simp only [PRC_IS_STARTED, or_one_and_one, true_and, and_true]
  exact ⟨Nat.mod_lt _ h, by decide⟩

theorem process_start_places_code_witness :
    ∃ q : process_c, (process_c.new 0).start 41 18467 52 64 = some q ∧
      q.state.csx < 52 ∧ q.state.ipx = q.state.csx ∧ q.info &&& 1 = 1 ∧
      PRC_IS_STARTED q = true ∧
      q.state.clx = (process_c.new 0).state.clx ∧ q.state.x = (process_c.new 0).state.x ∧
      q.state.ssx = (process_c.new 0).state.ssx ∧
      q.state.spx = (process_c.new 0).state.spx ∧ q.state.slx = (process_c.new 0).state.slx ∧
      q.state.ax = (process_c.new 0).state.ax ∧
      q.state.sx = (process_c.new 0).state.sx ∧ q.state.fx = (process_c.new 0).state.fx :=
  process_start_places_code (process_c.new 0) 41 18467 52 64 (by decide)

/-! ## comparisons -/

theorem imm16_byte {c : Nat} (hc : c < 256) (d : Nat) : imm16 c d = (c <<< 8) ||| d := by
  have e : u32 (c <<< 8) = c <<< 8 := by
    rw [Nat.shiftLeft_eq]; unfold u32; omega
  rw [imm16, e]

/-- C10: `cmp x,v` (0x23) sets `fx` to 1, 2 or 4 as `R[b]` is below, equal to or above
`(c<<8)|d`, and `cmp x,x` (0x24) does so with `R[c]` in place of the immediate; the
comparison is unsigned, on the values before the instruction; nothing but `fx` changes,
and the executor returns 1. -/
theorem engine_cmp_sets_flags (s : vm_c) (b c d : Nat) (hc : c < 256) :
    (∃ f : Nat, s.engine 0x23 b c d
        = some (1, { s with m_state := { s.m_state with fx := f } }) ∧
      f = (if s.reg b < ((c <<< 8) ||| d) then 1 else if s.reg b = ((c <<< 8) ||| d) then 2 else 4) ∧
      (f = 1 ∨ f = 2 ∨ f = 4)) ∧
    (∃ f : Nat, s.engine 0x24 b c d
        = some (1, { s with m_state := { s.m_state with fx := f } }) ∧
      f = (if s.reg b < s.reg c then 1 else if s.reg b = s.reg c then 2 else 4) ∧
      (f = 1 ∨ f = 2 ∨ f = 4)) := by
  constructor
  · refine ⟨_, ?_, rfl, ?_⟩
    · simp only [vm_c.engine, vm_c.compare, imm16_byte hc]
      simp only [Nat.reduceEqDiff, if_false, if_true]
      split_ifs <;> rfl
    · split_ifs <;> simp
  · refine ⟨_, ?_, rfl, ?_⟩
    · simp only [vm_c.engine, vm_c.compare]
      simp only [Nat.reduceEqDiff, if_false, if_true]
      split_ifs <;> rfl
    · split_ifs <;> simp

theorem engine_cmp_sets_flags_witness :
    (∃ f : Nat, (vm_c.new 16 [] [] (fun _ => none) 0).engine 0x23 0 0 5
        = some (1, { (vm_c.new 16 [] [] (fun _ => none) 0) with
            m_state := { (vm_c.new 16 [] [] (fun _ => none) 0).m_state with fx := f } }) ∧
      f = (if (vm_c.new 16 [] [] (fun _ => none) 0).reg 0 < ((0 <<< 8) ||| 5) then 1
           else if (vm_c.new 16 [] [] (fun _ => none) 0).reg 0 = ((0 <<< 8) ||| 5) then 2 else 4) ∧
      (f = 1 ∨ f = 2 ∨ f = 4)) ∧
    (∃ f : Nat, (vm_c.new 16 [] [] (fun _ => none) 0).engine 0x24 0 0 5
        = some (1, { (vm_c.new 16 [] [] (fun _ => none) 0) with
            m_state := { (vm_c.new 16 [] [] (fun _ => none) 0).m_state with fx := f } }) ∧
      f = (if (vm_c.new 16 [] [] (fun _ => none) 0).reg 0
              < (vm_c.new 16 [] [] (fun _ => none) 0).reg 0 then 1
           else if (vm_c.new 16 [] [] (fun _ => none) 0).reg 0
              = (vm_c.new 16 [] [] (fun _ => none) 0).reg 0 then 2 else 4) ∧
      (f = 1 ∨ f = 2 ∨ f = 4)) :=
  engine_cmp_sets_flags (vm_c.new 16 [] [] (fun _ => none) 0) 0 0 5 (by decide)

/-! ## the RUN request -/

theorem copy_code_eq (code : List Nat) (csx : Nat) :
    ∀ (n idx : Nat) (s : vm_c), idx + n ≤ code.length → csx + idx + n ≤ s.m_memory.m_len →
      s.m_memory.m_len ≤ 4294967296 →
      vm_c.copy_code code csx idx n s = some { s with m_memory := { s.m_memory with
        m_data := fun j => if csx + idx ≤ j ∧ j < csx + idx + n
                           then u8 (code.getD (j - csx) 0) else s.m_memory.m_data j } } := by
  intro n
  induction n with
  | zero =>
    intro idx s _ _ _
    have e : (fun j => if csx + idx ≤ j ∧ j < csx + idx + 0
        then u8 (code.getD (j - csx) 0) else s.m_memory.m_data j) = s.m_memory.m_data := by
      funext j
      rw [if_neg (by omega)]
    simp only [vm_c.copy_code, e]
  | succ n ih =>
    intro idx s h1 h2 h3
    have hidx : idx < code.length := by omega
    have hu : u32 (csx + idx) = csx + idx := by unfold u32; omega
    have hg : s.m_memory.get (csx + idx) = loc_ref.cell (csx + idx) := by
      simp only [memory_c.get, ge_iff_le]; rw [if_neg (by omega)]
    simp only [vm_c.copy_code, List.get?_eq_getElem?, List.getElem?_eq_getElem hidx, hu]
    rw [ih (idx + 1) _ (by omega) (by simp only [vm_c.set_mem, hg, loc_ref.write]; omega)
      (by simp only [vm_c.set_mem, hg, loc_ref.write]; omega)]
    simp only [vm_c.set_mem, hg, loc_ref.write]
    congr 3
    funext j
    by_cases hj : j = csx + idx
    · subst hj
      have e : csx + idx - csx = idx := by omega
      rw [if_neg (by omega), if_pos (by omega), e]
      simp [List.getD_eq_getElem?_getD, List.getElem?_eq_getElem hidx]
    · by_cases hj2 : csx + (idx + 1) ≤ j ∧ j < csx + (idx + 1) + n
      · rw [if_pos hj2, if_pos (by omega)]
      · rw [if_neg hj2, if_neg (by omega)]
        simp [Function.update, hj]


theorem menu_run_eq (s : vm_c) (p p1 : process_c) (r1 r2 : Nat) (rnd : List Nat)
    (hr : s.rnd = r1 :: r2 :: rnd) (hclx : p.state.clx = s.m_code.length)
    (hn : s.m_code.length < s.m_memory.m_len) (hm : s.m_memory.m_len < 4294967296)
    (hp : p.start r1 r2 (s.m_memory.m_len - s.m_code.length) s.m_memory.m_len = some p1) :
    p1.state.csx + s.m_code.length < s.m_memory.m_len ∧
    s.menu_run p = some (1, { s with
      m_prc := some p1, rnd := rnd, m_code := [],
      m_memory := { s.m_memory with
        m_data := fun j => if p1.state.csx ≤ j ∧ j < p1.state.csx + s.m_code.length
                           then u8 (s.m_code.getD (j - p1.state.csx) 0)
                           else s.m_memory.m_data j } }) := by
  have hmx : u32 (s.m_memory.length + 4294967296 - u32 s.m_code.length)
      = s.m_memory.m_len - s.m_code.length := by
    have h1 : s.m_code.length % 4294967296 = s.m_code.length := Nat.mod_eq_of_lt (by omega)
    have h2 : s.m_memory.m_len + 4294967296 - s.m_code.length
        = (s.m_memory.m_len - s.m_code.length) + 4294967296 := by omega
    have h3 : s.m_memory.m_len - s.m_code.length < 4294967296 := by omega
    simp only [u32, memory_c.length]
    rw [h1, h2, Nat.add_mod_right]
    exact Nat.mod_eq_of_lt h3
  have hne : s.m_memory.m_len - s.m_code.length ≠ 0 := by omega
  simp only [process_c.start, hne, if_false, Option.some.injEq] at hp
  have hcsx : p1.state.csx < s.m_memory.m_len - s.m_code.length := by
    rw [← hp]; exact Nat.mod_lt _ (by omega)
  have hc1 : p1.state.clx = s.m_code.length := by rw [← hp]; exact hclx
  refine ⟨by omega, ?_⟩
  have hp2 : p.start r1 r2 (s.m_memory.m_len - s.m_code.length) s.m_memory.length = some p1 := by
    simp only [process_c.start, hne, if_false, hp]
  simp only [vm_c.menu_run, hr, hmx, hp2, hc1]
  rw [copy_code_eq s.m_code p1.state.csx s.m_code.length 0 _ (by omega) (by simp only; omega)
    (by simp only; omega)]
  simp only [Nat.add_zero]

theorem menu_at_run (s : vm_c) (p : process_c) (cin : List cin_t) (hc : s.cin = cin_t.chr 50 :: cin)
    (hp : s.m_prc = some p) :
    s.menu = vm_c.menu_run { s with cin := cin } p := by
  simp only [vm_c.menu, hc, List.length_cons, vm_c.menu_loop, hp]
  simp [char_to_int, u8]

theorem menu_at_load (s : vm_c) (src : List Nat) (cin : List cin_t)
    (hc : s.cin = cin_t.chr 49 :: cin_t.str src :: cin_t.chr 50 :: cin) (hs : src ≠ [])
    (p : process_c) (hp : (s.menu_load src).m_prc = some p) :
    s.menu = vm_c.menu_run { s.menu_load src with cin := cin } p := by
  simp only [vm_c.menu, hc, List.length_cons, vm_c.menu_loop, hp]
  simp [char_to_int, u8, hs, vm_c.menu_loop, hp]

theorem load_bytes (src : List Nat) : ∀ b ∈ load_loop src [] [], b < 256 := by
  rw [(load_loop_eq src []).1, List.nil_append]
  generalize src.filter hex_class = h
  intro b hb
  induction h using pair_up.induct with
  | case1 a c rest ih =>
    simp only [pair_up, List.mem_cons] at hb
    rcases hb with hb | hb
    · have h1 := @hexval_lt a
      have h2 := @hexval_lt c
      omega
    · exact ih hb
  | case2 l hl =>
    cases l with
    | nil => simp [pair_up] at hb
    | cons a l =>
      cases l with
      | nil => simp [pair_up] at hb
      | cons c l => exact absurd rfl (hl a c l)

theorem load_nonempty (p : process_c) (file : Option (List Nat)) (h : (p.load file).1 ≠ []) :
    (p.load file).1 = load_loop (read file) [] [] ∧
    (p.load file).2 = { p with state := { p.state with clx := u32 (p.load file).1.length } } := by
  unfold process_c.load at h ⊢
  by_cases h0 : (read file).isEmpty = true
  · simp [h0] at h
  · by_cases h4 : (load_loop (read file) [] []).length % 4 ≠ 0
    · simp [h0, h4] at h
    · by_cases he : (load_loop (read file) [] []).isEmpty = true
      · simp [h0, h4, he] at h
      · simp [h0, h4, he]


theorem idle_at_run (s : vm_c) (p p1 : process_c) (r1 r2 : Nat) (rnd : List Nat)
    (cin : List cin_t) (hprc : s.m_prc = some p) (hinfo : PRC_IS_STARTED p = false)
    (hcin : s.cin = cin_t.chr 50 :: cin) (hr : s.rnd = r1 :: r2 :: rnd)
    (hclx : p.state.clx = s.m_code.length)
    (hn : s.m_code.length < s.m_memory.m_len) (hm : s.m_memory.m_len < 4294967296)
    (hp : p.start r1 r2 (s.m_memory.m_len - s.m_code.length) s.m_memory.m_len = some p1) :
    s.loop = some { s with
      cin := cin, m_prc := some p1, rnd := rnd, m_code := [],
      m_memory := { s.m_memory with
        m_data := fun j => if p1.state.csx ≤ j ∧ j < p1.state.csx + s.m_code.length
                           then u8 (s.m_code.getD (j - p1.state.csx) 0)
                           else s.m_memory.m_data j },
      ret := 1, m_state := { p1.state with ipx := p1.state.csx },
      mx_ip := u32 (p1.state.csx + p1.state.clx) } := by
  have h := (menu_run_eq { s with cin := cin } p p1 r1 r2 rnd hr hclx hn hm hp).2
  simp only [vm_c.loop, hprc, hinfo, Bool.false_eq_true, if_false, vm_c.idle]
  rw [menu_at_run s p cin hcin hprc, h]
  rfl

/-- C9: a RUN request for a loaded program of `n` bytes, `n` smaller than the memory
length, makes the driver enter Running with the code bytes in the memory cells
`csx .. csx+n-1`, the bytecode buffer empty, and the live register file equal to the
snapshot of the process: `clx == n`, `ipx == csx`, and `x[0..15]`, `ssx`, `spx`, `slx`,
`ax`, `sx`, `fx` all 0, whatever the live registers held before. -/
theorem run_request_enters_running (s : vm_c) (file : Option (List Nat)) (p : process_c)
    (code : List Nat) (r1 r2 : Nat) (rnd : List Nat) (cin : List cin_t)
    (hload : (process_c.new 0).load file = (code, p)) (hne : code ≠ [])
    (hprc : s.m_prc = some p) (hcode : s.m_code = code)
    (hcin : s.cin = cin_t.chr 50 :: cin) (hrnd : s.rnd = r1 :: r2 :: rnd)
    (hn : code.length < s.m_memory.m_len) (hm : s.m_memory.m_len < 4294967296) :
    ∃ (s1 : vm_c) (p1 : process_c), s.loop = some s1 ∧ s1.ret = 1 ∧
      s1.m_prc = some p1 ∧ PRC_IS_STARTED p1 = true ∧
      (∀ i, i < code.length →
        s1.m_state.csx + i < s1.m_memory.m_len ∧ s1.mem (s1.m_state.csx + i) = code.getD i 0) ∧
      s1.m_code = [] ∧ s1.m_state = p1.state ∧
      s1.m_state.clx = code.length ∧ s1.m_state.ipx = s1.m_state.csx ∧
      s1.mx_ip = s1.m_state.csx + s1.m_state.clx ∧
      s1.m_state.x = (fun _ => 0) ∧ s1.m_state.ssx = 0 ∧ s1.m_state.spx = 0 ∧
      s1.m_state.slx = 0 ∧ s1.m_state.ax = 0 ∧ s1.m_state.sx = 0 ∧ s1.m_state.fx = 0 := by
  have hl1 : ((process_c.new 0).load file).1 = code := by rw [hload]
  have hl2 : ((process_c.new 0).load file).2 = p := by rw [hload]
  have hnz := load_nonempty (process_c.new 0) file (by rw [hl1]; exact hne)
  rw [hl1, hl2] at hnz
  have hu : u32 code.length = code.length := by unfold u32; omega
  have hp : p = { process_c.new 0 with state := { core_c.zero with clx := code.length } } := by
    rw [hnz.2, hu]; rfl
  have hbytes : ∀ b ∈ code, b < 256 := by rw [hnz.1]; exact load_bytes _
  obtain ⟨p1, hs, -, hq, hlt, hst⟩ :=
    process_start_some p r1 r2 (s.m_memory.m_len - code.length) s.m_memory.m_len (by omega)
  have hip : p1.state.ipx = p1.state.csx := by rw [hq]
  have hclx : p1.state.clx = p.state.clx := by rw [hq]
  have hx : p1.state.x = p.state.x := by rw [hq]
  have hssx : p1.state.ssx = p.state.ssx := by rw [hq]
  have hspx : p1.state.spx = p.state.spx := by rw [hq]
  have hslx : p1.state.slx = p.state.slx := by rw [hq]
  have hax : p1.state.ax = p.state.ax := by rw [hq]
  have hsx : p1.state.sx = p.state.sx := by rw [hq]
  have hfx : p1.state.fx = p.state.fx := by rw [hq]
  have hpc : p.state.clx = code.length := by rw [hp]
  have hinfo : PRC_IS_STARTED p = false := by rw [hp]; simp [PRC_IS_STARTED, process_c.new]
  have hloop := idle_at_run s p p1 r1 r2 rnd cin hprc hinfo hcin hrnd (by rw [hcode]; exact hpc)
    (by rw [hcode]; exact hn) hm (by rw [hcode]; exact hs)
  have hc1 : p1.state.clx = code.length := by rw [hclx, hpc]
  refine ⟨_, p1, hloop, rfl, rfl, hst, ?_, rfl, ?_, hc1, rfl, ?_, ?_, ?_, ?_, ?_, ?_, ?_, ?_⟩
  · intro i hi
    have hin : p1.state.csx + i < s.m_memory.m_len := by omega
    refine ⟨hin, ?_⟩
    have hg : ∀ m : Nat → Nat, ({ m_len := s.m_memory.m_len, m_data := m } : memory_c).get
        (p1.state.csx + i) = loc_ref.cell (p1.state.csx + i) := by
      intro m
      simp only [memory_c.get, ge_iff_le]; rw [if_neg (by omega)]
    have hb : code.getD i 0 < 256 := by
      rw [List.getD_eq_getElem?_getD, List.getElem?_eq_getElem hi]
      exact hbytes _ (List.getElem_mem hi)
    simp only [vm_c.mem, hg, loc_ref.read, hcode]
    rw [if_pos (by omega), Nat.add_sub_cancel_left]
    exact Nat.mod_eq_of_lt hb
  · have : p1.state.ipx = p1.state.csx := hip
    cases hq : p1.state
    rw [hq] at this
    simp only at this
    simp only [this]
  · show u32 (p1.state.csx + p1.state.clx) = p1.state.csx + p1.state.clx
    unfold u32; omega
  · rw [show ({ p1.state with ipx := p1.state.csx } : core_c).x = p1.state.x from rfl, hx, hp]; rfl
  · show p1.state.ssx = 0
    rw [hssx, hp]; rfl
  · show p1.state.spx = 0
    rw [hspx, hp]; rfl
  · show p1.state.slx = 0
    rw [hslx, hp]; rfl
  · show p1.state.ax = 0
    rw [hax, hp]; rfl
  · show p1.state.sx = 0
    rw [hsx, hp]; rfl
  · show p1.state.fx = 0
    rw [hfx, hp]; rfl


/-! ## running a program -/

theorem running_turn (s : vm_c) (p : process_c) (r : Int) (s1 : vm_c)
    (hprc : s.m_prc = some p) (hst : PRC_IS_STARTED p = true) (hip : s.m_state.ipx < s.mx_ip)
    (he : s.engine (s.mem s.m_state.ipx) (s.mem (u32 (s.m_state.ipx + 1)))
        (s.mem (u32 (s.m_state.ipx + 2))) (s.mem (u32 (s.m_state.ipx + 3))) = some (r, s1))
    (hdbg : s1.dbg = 0) :
    s.loop = some (if r = 0
      then { vm_c.close { s1 with m_state := { s1.m_state with ipx := u32 (s1.m_state.ipx + 4) } } p
               with ret := r }
      else { s1 with m_state := { s1.m_state with ipx := u32 (s1.m_state.ipx + 4) }, ret := r }) := by
  simp only [vm_c.loop, hprc, hst, if_true, vm_c.running, hip, he, hdbg, ne_eq, not_true_eq_false,
    if_false]

theorem imm16_lt {hi lo : Nat} (hhi : hi < 256) (hlo : lo < 256) :
    imm16 hi lo = (hi <<< 8) ||| lo ∧ (hi <<< 8) ||| lo < 65536 := by
  refine ⟨imm16_byte hhi lo, ?_⟩
  have h1 : hi <<< 8 < 2 ^ 16 := by rw [Nat.shiftLeft_eq]; omega
  have h2 : lo < 2 ^ 16 := by omega
  exact Nat.or_lt_two_pow h1 h2

theorem exit_program_runs (s : vm_c) (p : process_c) (hi lo : Nat)
    (hprc : s.m_prc = some p) (hst : PRC_IS_STARTED p = true) (hdbg : s.dbg = 0)
    (hip : s.m_state.ipx + 12 ≤ s.mx_ip) (hmx : s.mx_ip < 4294967296)
    (hfetch : ∀ i, i < 12 →
      s.mem (s.m_state.ipx + i) = [1, 0, hi, lo, 1, 23, 0, 1, 6, 0, 0, 1].getD i 0)
    (hhi : hi < 256) (hlo : lo < 256) :
    ∃ s3 : vm_c, vm_c.turns 3 s = some s3 ∧ s3.m_prc = none ∧
      s3.m_ec = (((hi <<< 8) ||| lo : Nat) : Int) ∧
      s3.closed = s.closed ++ [(p.id, (((hi <<< 8) ||| lo : Nat) : Int))] := by
  obtain ⟨hv, hvlt⟩ := imm16_lt hhi hlo
  have u : ∀ k, k < 13 → u32 (s.m_state.ipx + k) = s.m_state.ipx + k := by
    intro k hk; unfold u32; omega
  have f0 := hfetch 0 (by omega)
  have f1 := hfetch 1 (by omega)
  have f2 := hfetch 2 (by omega)
  have f3 := hfetch 3 (by omega)
  simp only [List.getD_cons_zero, List.getD_cons_succ, Nat.add_zero] at f0 f1 f2 f3
  -- first instruction
  have e1 : s.engine (s.mem s.m_state.ipx) (s.mem (u32 (s.m_state.ipx + 1)))
      (s.mem (u32 (s.m_state.ipx + 2))) (s.mem (u32 (s.m_state.ipx + 3)))
      = some (1, s.set_reg 0 (imm16 hi lo)) := by
    rw [u 1 (by omega), u 2 (by omega), u 3 (by omega), f0, f1, f2, f3]
    simp [vm_c.engine, core_c.xregs]
  have t1 := running_turn s p 1 _ hprc hst (by omega) e1 hdbg
  simp only [one_ne_zero, if_false] at t1
  obtain ⟨s1, hs1⟩ : ∃ s1 : vm_c, s1 = { s.set_reg 0 (imm16 hi lo) with
      m_state := { (s.set_reg 0 (imm16 hi lo)).m_state with
        ipx := u32 ((s.set_reg 0 (imm16 hi lo)).m_state.ipx + 4) }, ret := 1 } := ⟨_, rfl⟩
  rw [← hs1] at t1
  have a1 : s1.m_prc = some p := by rw [hs1]; exact hprc
  have a2 : s1.m_state.ipx = s.m_state.ipx + 4 := by rw [hs1]; exact u 4 (by omega)
  have a3 : s1.mx_ip = s.mx_ip := by rw [hs1]; rfl
  have a4 : ∀ i, s1.mem i = s.mem i := by intro i; rw [hs1]; rfl
  have a5 : s1.m_state.x 0 = imm16 hi lo := by
    rw [hs1]; simp [vm_c.set_reg, core_c.get, reg_ref.write]
  have a6 : s1.dbg = 0 := by rw [hs1]; exact hdbg
  have a7 : s1.closed = s.closed := by rw [hs1]; rfl
  have a8 : s1.ret = 1 := by rw [hs1]
  -- second instruction
  have g0 := hfetch 4 (by omega)
  have g1 := hfetch 5 (by omega)
  have g2 := hfetch 6 (by omega)
  have g3 := hfetch 7 (by omega)
  simp only [List.getD_cons_zero, List.getD_cons_succ] at g0 g1 g2 g3
  have u1 : ∀ k, k < 9 → u32 (s1.m_state.ipx + k) = s.m_state.ipx + (4 + k) := by
    intro k hk; rw [a2]; unfold u32; omega
  have e2 : s1.engine (s1.mem s1.m_state.ipx) (s1.mem (u32 (s1.m_state.ipx + 1)))
      (s1.mem (u32 (s1.m_state.ipx + 2))) (s1.mem (u32 (s1.m_state.ipx + 3)))
      = some (1, s1.set_reg 23 (imm16 0 1)) := by
    rw [u1 1 (by omega), u1 2 (by omega), u1 3 (by omega), a2, a4, a4, a4, a4, g0, g1, g2, g3]
    simp [vm_c.engine, core_c.xregs]
  have t2 := running_turn s1 p 1 _ a1 hst (by omega) e2 a6
  simp only [one_ne_zero, if_false] at t2
  obtain ⟨s2, hs2⟩ : ∃ s2 : vm_c, s2 = { s1.set_reg 23 (imm16 0 1) with
      m_state := { (s1.set_reg 23 (imm16 0 1)).m_state with
        ipx := u32 ((s1.set_reg 23 (imm16 0 1)).m_state.ipx + 4) }, ret := 1 } := ⟨_, rfl⟩
  rw [← hs2] at t2
  have b1 : s2.m_prc = some p := by rw [hs2]; exact a1
  have b2 : s2.m_state.ipx = s.m_state.ipx + 8 := by
    rw [hs2]
    show u32 (s1.m_state.ipx + 4) = s.m_state.ipx + 8
    exact u1 4 (by omega)
  have b3 : s2.mx_ip = s.mx_ip := by rw [hs2]; exact a3
  have b4 : ∀ i, s2.mem i = s.mem i := by intro i; rw [← a4 i, hs2]; rfl
  have b5 : s2.m_state.x 0 = imm16 hi lo := by
    rw [hs2, ← a5]; rfl
  have b6 : s2.dbg = 0 := by rw [hs2]; exact a6
  have b7 : s2.closed = s.closed := by rw [hs2]; exact a7
  have b8 : s2.ret = 1 := by rw [hs2]
  have b9 : s2.m_state.sx = 1 := by rw [hs2]; rfl
  -- third instruction
  have k0 := hfetch 8 (by omega)
  have k1 := hfetch 9 (by omega)
  have k2 := hfetch 10 (by omega)
  have k3 := hfetch 11 (by omega)
  simp only [List.getD_cons_zero, List.getD_cons_succ] at k0 k1 k2 k3
  have u2 : ∀ k, k < 5 → u32 (s2.m_state.ipx + k) = s.m_state.ipx + (8 + k) := by
    intro k hk; rw [b2]; unfold u32; omega
  have e3 : s2.engine (s2.mem s2.m_state.ipx) (s2.mem (u32 (s2.m_state.ipx + 1)))
      (s2.mem (u32 (s2.m_state.ipx + 2))) (s2.mem (u32 (s2.m_state.ipx + 3)))
      = some (0, { s2 with m_ec := to_type_i32 (s2.m_state.x 0) }) := by
    rw [u2 1 (by omega), u2 2 (by omega), u2 3 (by omega), b2, b4, b4, b4, b4, k0, k1, k2, k3]
    simp [vm_c.engine, vm_c.execute, imm24, u32, b9]
  have t3 := running_turn s2 p 0 _ b1 hst (by omega) e3 b6
  simp only [if_true] at t3
  have hec : to_type_i32 (s2.m_state.x 0) = (((hi <<< 8) ||| lo : Nat) : Int) := by
    rw [b5, hv]
    unfold to_type_i32 u32
    rw [Nat.mod_eq_of_lt (by omega), if_pos (by omega)]
  obtain ⟨s3, hs3⟩ : ∃ s3 : vm_c, s3 = { vm_c.close { s2 with
      m_ec := to_type_i32 (s2.m_state.x 0),
      m_state := { s2.m_state with ipx := u32 (s2.m_state.ipx + 4) } } p with ret := 0 } :=
    ⟨_, rfl⟩
  rw [← hs3] at t3
  have c8 : s3.ret = 0 := by rw [hs3]
  refine ⟨s3, ?_, ?_, ?_, ?_⟩
  · simp only [vm_c.turns, t1, a8, t2, b8, t3, c8]
    simp
  · rw [hs3]; rfl
  · rw [hs3]; exact hec
  · rw [hs3]
    show s2.closed ++ [(p.id, to_type_i32 (s2.m_state.x 0))] = _
    rw [b7, hec]


theorem load_run_turn (s : vm_c) (src code : List Nat) (r1 r2 : Nat) (rnd : List Nat)
    (cin : List cin_t) (hprc : s.m_prc = none)
    (hcin : s.cin = cin_t.chr 49 :: cin_t.str src :: cin_t.chr 50 :: cin) (hsrc : src ≠ [])
    (hrnd : s.rnd = r1 :: r2 :: rnd)
    (hload : ((process_c.new 0).load (s.files (s.dir ++ [47] ++ src))).1 = code)
    (hne : code ≠ []) (hn : code.length < s.m_memory.m_len)
    (hm : s.m_memory.m_len < 4294967296) :
    ∃ (s1 : vm_c) (p1 : process_c), s.loop = some s1 ∧ s1.ret = 1 ∧ s1.m_prc = some p1 ∧
      PRC_IS_STARTED p1 = true ∧ p1.id = u32 r1 % 4294967295 ∧
      s1.m_state.ipx + code.length = s1.mx_ip ∧ s1.mx_ip < 4294967296 ∧
      (∀ i, i < code.length → s1.mem (s1.m_state.ipx + i) = code.getD i 0) ∧
      s1.dbg = s.dbg ∧ s1.m_ec = s.m_ec ∧ s1.closed = s.closed := by
  have hnz := load_nonempty (process_c.new 0) _ (by rw [hload]; exact hne)
  rw [hload] at hnz
  have hu : u32 code.length = code.length := by unfold u32; omega
  have hbytes : ∀ b ∈ code, b < 256 := by rw [hnz.1]; exact load_bytes _
  have hml : s.menu_load src = { s with
      m_prc := some ((process_c.new 0).load (s.files (s.dir ++ [47] ++ src))).2,
      m_code := code } := by
    have : code.isEmpty = false := by
      cases code with
      | nil => exact absurd rfl hne
      | cons a l => rfl
    simp only [vm_c.menu_load, hload, this, Bool.false_eq_true, if_false]
  obtain ⟨p, hp⟩ : ∃ p, p = ((process_c.new 0).load (s.files (s.dir ++ [47] ++ src))).2 := ⟨_, rfl⟩
  rw [← hp] at hml hnz
  have hpc : p.state.clx = code.length := by rw [hnz.2]; exact hu
  obtain ⟨p1, hs, hid, hq, hlt, hst⟩ :=
    process_start_some p r1 r2 (s.m_memory.m_len - code.length) s.m_memory.m_len (by omega)
  have hip : p1.state.ipx = p1.state.csx := by rw [hq]
  have hclx : p1.state.clx = p.state.clx := by rw [hq]
  have hmenu := menu_at_load s src cin hcin hsrc p (by rw [hml])
  have hrun := menu_run_eq { s.menu_load src with cin := cin } p p1 r1 r2 rnd
    (by rw [hml]; exact hrnd) (by rw [hml]; exact hpc) (by rw [hml]; exact hn)
    (by rw [hml]; exact hm) (by rw [hml]; exact hs)
  have hc1 : p1.state.clx = code.length := by rw [hclx, hpc]
  have hloop : s.loop = some { s with
      cin := cin, m_prc := some p1, rnd := rnd, m_code := [],
      m_memory := { s.m_memory with
        m_data := fun j => if p1.state.csx ≤ j ∧ j < p1.state.csx + code.length
                           then u8 (code.getD (j - p1.state.csx) 0)
                           else s.m_memory.m_data j },
      ret := 1, m_state := { p1.state with ipx := p1.state.csx },
      mx_ip := u32 (p1.state.csx + p1.state.clx) } := by
    simp only [vm_c.loop, hprc, vm_c.idle]
    rw [hmenu, hrun.2, hml]
    rfl
  have hux : u32 (p1.state.csx + p1.state.clx) = p1.state.csx + code.length := by
    rw [hc1]; unfold u32; omega
  refine ⟨_, p1, hloop, rfl, rfl, hst, hid, ?_, ?_, ?_, rfl, rfl, rfl⟩
  · exact hux.symm
  · show u32 (p1.state.csx + p1.state.clx) < 4294967296
    rw [hux]; omega
  · intro i hi
    have hg : ∀ m : Nat → Nat, ({ m_len := s.m_memory.m_len, m_data := m } : memory_c).get
        (p1.state.csx + i) = loc_ref.cell (p1.state.csx + i) := by
      intro m
      simp only [memory_c.get, ge_iff_le]; rw [if_neg (by omega)]
    have hb : code.getD i 0 < 256 := by
      rw [List.getD_eq_getElem?_getD, List.getElem?_eq_getElem hi]
      exact hbytes _ (List.getElem_mem hi)
    simp only [vm_c.mem, hg, loc_ref.read]
    rw [if_pos (by omega), Nat.add_sub_cancel_left]
    exact Nat.mod_eq_of_lt hb

/-- C1, as the code has it: with the second instruction `01 17 00 01` (`sx` is register
address 0x17; 0x18 is `fx`), for every 16-bit value `v = (hi<<8)|lo`, a freshly
constructed machine asked to load a text that decodes to the program and to run it closes
the process, after the three instructions, with the exit code `ec == v`. -/
theorem exit_program_exit_code (val hi lo r1 r2 : Nat) (rnd src : List Nat) (cin : List cin_t)
    (files : List Nat → Option (List Nat)) (junk : Int)
    (hval : val = 0 ∨ 12 < val) (hval2 : val < 4294967296) (hhi : hi < 256) (hlo : lo < 256)
    (hsrc : src ≠ [])
    (hload : ((process_c.new 0).load (files (47 :: src))).1
      = [1, 0, hi, lo, 1, 23, 0, 1, 6, 0, 0, 1]) :
    ∃ s4 : vm_c,
      vm_c.turns 4 (vm_c.new val (r1 :: r2 :: rnd)
        (cin_t.chr 49 :: cin_t.str src :: cin_t.chr 50 :: cin) files junk) = some s4 ∧
      s4.m_prc = none ∧ s4.m_ec = (((hi <<< 8) ||| lo : Nat) : Int) ∧
      s4.closed = [(u32 r1 % 4294967295, (((hi <<< 8) ||| lo : Nat) : Int))] := by
  have hlen : 12 < (memory_c.new val).m_len ∧ (memory_c.new val).m_len < 4294967296 := by
    simp only [memory_c.new, memory_c.dlen]
    split_ifs <;> omega
  obtain ⟨s1, p1, hloop, hret, hprc, hst, hid, hip, hmx, hfetch, hdbg, -, hcl⟩ :=
    load_run_turn (vm_c.new val (r1 :: r2 :: rnd)
        (cin_t.chr 49 :: cin_t.str src :: cin_t.chr 50 :: cin) files junk) src
      [1, 0, hi, lo, 1, 23, 0, 1, 6, 0, 0, 1] r1 r2 rnd cin rfl rfl hsrc rfl
      (by simpa [vm_c.new] using hload) (by simp) hlen.1 hlen.2
  obtain ⟨s4, hturns, h1, h2, h3⟩ := exit_program_runs s1 p1 hi lo hprc hst hdbg
    (by simp only [List.length_cons, List.length_nil] at hip; omega) hmx hfetch hhi hlo
  refine ⟨s4, ?_, h1, h2, ?_⟩
  · have hr : ¬ s1.ret = -1 := by rw [hret]; decide
    rw [vm_c.turns]
    simp only [hloop, hr, if_false]
    exact hturns
  · rw [h3, hcl, hid]; rfl


theorem exit_program_exit_code_witness :
    ∃ s4 : vm_c,
      vm_c.turns 4 (vm_c.new 64 (41 :: 18467 :: [])
        (cin_t.chr 49 :: cin_t.str [112] :: cin_t.chr 50 :: []) (fun _ => some exit7_sx) 0)
          = some s4 ∧
      s4.m_prc = none ∧ s4.m_ec = (((0 <<< 8) ||| 7 : Nat) : Int) ∧
      s4.closed = [(u32 41 % 4294967295, (((0 <<< 8) ||| 7 : Nat) : Int))] :=
  exit_program_exit_code 64 0 7 41 18467 [] [112] [] (fun _ => some exit7_sx) 0
    (Or.inr (by decide)) (by decide) (by decide) (by decide) (by decide) (by decide)

/-- C1 fails as stated: the program `01 00 00 07`, `01 18 00 01`, `06 00 00 01` loads `fx`
(address 0x18), not `sx`, so the trap finds `sx == 0`, sets no exit code and ends without a
`return` (read here as 1, continue); the process is closed at the end of the code with the
exit code 1 of a new machine, not 7. -/
theorem exit_program_as_printed :
    (vm_c.turns 5 (demo_vm exit7_as_printed 1)).map (fun s => (s.m_state.sx, s.m_state.fx))
      = some (0, 1) ∧
    (vm_c.turns 5 (demo_vm exit7_as_printed 1)).map (fun s => (s.m_prc.isNone, s.m_ec))
      = some (true, 1) ∧
    (vm_c.turns 5 (demo_vm exit7_as_printed 1)).map (fun s => s.closed) = some [(41, 1)] := by
  decide

theorem run_request_enters_running_witness :
    ∃ (s1 : vm_c) (p1 : process_c), demo_loaded.loop = some s1 ∧ s1.ret = 1 ∧
      s1.m_prc = some p1 ∧ PRC_IS_STARTED p1 = true ∧
      (∀ i, i < ((process_c.new 0).load (some exit7_sx)).1.length →
        s1.m_state.csx + i < s1.m_memory.m_len ∧
        s1.mem (s1.m_state.csx + i) = ((process_c.new 0).load (some exit7_sx)).1.getD i 0) ∧
      s1.m_code = [] ∧ s1.m_state = p1.state ∧
      s1.m_state.clx = ((process_c.new 0).load (some exit7_sx)).1.length ∧
      s1.m_state.ipx = s1.m_state.csx ∧
      s1.mx_ip = s1.m_state.csx + s1.m_state.clx ∧
      s1.m_state.x = (fun _ => 0) ∧ s1.m_state.ssx = 0 ∧ s1.m_state.spx = 0 ∧
      s1.m_state.slx = 0 ∧ s1.m_state.ax = 0 ∧ s1.m_state.sx = 0 ∧ s1.m_state.fx = 0 :=
  run_request_enters_running demo_loaded (some exit7_sx)
    ((process_c.new 0).load (some exit7_sx)).2 ((process_c.new 0).load (some exit7_sx)).1
    41 18467 [] [] rfl (by decide) rfl rfl rfl rfl (by decide) (by decide)


/-! ## reading and writing registers of the machine -/

theorem reg_set_reg_same (s : vm_c) (a v : Nat) : (s.set_reg a v).reg a = v :=
  reg_read_write_same (core_c.get a) v s.m_state s.core_ret

theorem reg_set_reg_other (s : vm_c) {a a2 : Nat} (v : Nat) (h : core_c.get a2 ≠ core_c.get a) :
    (s.set_reg a v).reg a2 = s.reg a2 :=
  reg_read_write_other h v s.m_state s.core_ret

theorem core_get_ne_fx {b : Nat} (h : b ≠ 24) : core_c.get b ≠ reg_ref.fx := by
  by_cases h25 : 25 ≤ b
  · rw [core_get_ge h25]; decide
  · by_cases h16 : b < 16
    · simp [core_c.get, h16]
    · have : b = 16 ∨ b = 17 ∨ b = 18 ∨ b = 19 ∨ b = 20 ∨ b = 21 ∨ b = 22 ∨ b = 23 := by omega
      rcases this with h | h | h | h | h | h | h | h <;> subst h <;> decide

theorem compare_eq_set_fx (s : vm_c) (l r : Nat) :
    s.compare l r = s.set_reg 24 (if l < r then 1 else if l = r then 2 else 4) := by
  unfold vm_c.compare
  split_ifs <;> rfl

theorem sub32_int (l r : Nat) :
    ((sub32 l r : Nat) : Int) = ((l : Int) - (r : Int)) % 4294967296 := by
  simp only [sub32, u32]
  omega

/-! ## subtraction -/

/-- C11, as the code has it: for operand bytes with `b` not the address of `fx` (24),
`sub x,v` (0x12) leaves `fx` in {1,2,4}, equal to the comparison of the pre-state pair
`(R[b], R[c])`, and `R[b]` equal to its pre-state value minus `(c<<8)|d` modulo 2^32; so
does `sub x,x` (0x13) with `R[c]` subtracted, when `c` is not the address of `fx` either
(the subtraction reads `R[b]` and `R[c]` after `fx` has been set). -/
theorem engine_sub_sets_flags (s : vm_c) (b c d : Nat) (hc : c < 256) (hb : b ≠ 24) :
    (∃ s1 : vm_c, s.engine 0x12 b c d = some (1, s1) ∧
      s1.m_state.fx = (if s.reg b < s.reg c then 1 else if s.reg b = s.reg c then 2 else 4) ∧
      (s1.m_state.fx = 1 ∨ s1.m_state.fx = 2 ∨ s1.m_state.fx = 4) ∧
      ((s1.reg b : Nat) : Int)
        = ((s.reg b : Int) - (((c <<< 8) ||| d : Nat) : Int)) % 4294967296) ∧
    (c ≠ 24 → ∃ s1 : vm_c, s.engine 0x13 b c d = some (1, s1) ∧
      s1.m_state.fx = (if s.reg b < s.reg c then 1 else if s.reg b = s.reg c then 2 else 4) ∧
      (s1.m_state.fx = 1 ∨ s1.m_state.fx = 2 ∨ s1.m_state.fx = 4) ∧
      ((s1.reg b : Nat) : Int) = ((s.reg b : Int) - (s.reg c : Int)) % 4294967296) := by
  have hfx : core_c.get b ≠ core_c.get 24 := core_get_ne_fx hb
  have hfx2 : core_c.get 24 ≠ core_c.get b := fun e => hfx e.symm
  have hflag : ∀ f : Nat, f = (if s.reg b < s.reg c then 1 else if s.reg b = s.reg c then 2
      else 4) → (f = 1 ∨ f = 2 ∨ f = 4) := by
    intro f hf; rw [hf]; split_ifs <;> simp
  have hread : ∀ (t : vm_c), t.m_state.fx = t.reg 24 := fun _ => rfl
  constructor
  · refine ⟨(s.compare (s.reg b) (s.reg c)).set_reg b
      (sub32 ((s.compare (s.reg b) (s.reg c)).reg b) (imm16 c d)), ?_, ?_, ?_, ?_⟩
    · simp only [vm_c.engine]
      simp only [Nat.reduceEqDiff, if_false, if_true]
    · rw [hread, reg_set_reg_other _ _ hfx2, compare_eq_set_fx, reg_set_reg_same]
    · apply hflag
      rw [hread, reg_set_reg_other _ _ hfx2, compare_eq_set_fx, reg_set_reg_same]
    · rw [reg_set_reg_same, sub32_int, compare_eq_set_fx, reg_set_reg_other _ _ hfx,
        imm16_byte hc]
  · intro hc24
    have hcfx : core_c.get c ≠ core_c.get 24 := core_get_ne_fx hc24
    refine ⟨(s.compare (s.reg b) (s.reg c)).set_reg b
      (sub32 ((s.compare (s.reg b) (s.reg c)).reg b)
        ((s.compare (s.reg b) (s.reg c)).reg c)), ?_, ?_, ?_, ?_⟩
    · simp only [vm_c.engine]
      simp only [Nat.reduceEqDiff, if_false, if_true]
    · rw [hread, reg_set_reg_other _ _ hfx2, compare_eq_set_fx, reg_set_reg_same]
    · apply hflag
      rw [hread, reg_set_reg_other _ _ hfx2, compare_eq_set_fx, reg_set_reg_same]
    · rw [reg_set_reg_same, sub32_int, compare_eq_set_fx, reg_set_reg_other _ _ hfx,
        reg_set_reg_other _ _ hcfx]

theorem engine_sub_sets_flags_witness :
    (∃ s1 : vm_c, (vm_c.new 16 [] [] (fun _ => none) 0).engine 0x12 3 0 5 = some (1, s1) ∧
      s1.m_state.fx = (if (vm_c.new 16 [] [] (fun _ => none) 0).reg 3
          < (vm_c.new 16 [] [] (fun _ => none) 0).reg 0 then 1
        else if (vm_c.new 16 [] [] (fun _ => none) 0).reg 3
          = (vm_c.new 16 [] [] (fun _ => none) 0).reg 0 then 2 else 4) ∧
      (s1.m_state.fx = 1 ∨ s1.m_state.fx = 2 ∨ s1.m_state.fx = 4) ∧
      ((s1.reg 3 : Nat) : Int)
        = (((vm_c.new 16 [] [] (fun _ => none) 0).reg 3 : Int)
            - (((0 <<< 8) ||| 5 : Nat) : Int)) % 4294967296) ∧
    (0 ≠ 24 → ∃ s1 : vm_c, (vm_c.new 16 [] [] (fun _ => none) 0).engine 0x13 3 0 5
        = some (1, s1) ∧
      s1.m_state.fx = (if (vm_c.new 16 [] [] (fun _ => none) 0).reg 3
          < (vm_c.new 16 [] [] (fun _ => none) 0).reg 0 then 1
        else if (vm_c.new 16 [] [] (fun _ => none) 0).reg 3
          = (vm_c.new 16 [] [] (fun _ => none) 0).reg 0 then 2 else 4) ∧
      (s1.m_state.fx = 1 ∨ s1.m_state.fx = 2 ∨ s1.m_state.fx = 4) ∧
      ((s1.reg 3 : Nat) : Int)
        = (((vm_c.new 16 [] [] (fun _ => none) 0).reg 3 : Int)
            - ((vm_c.new 16 [] [] (fun _ => none) 0).reg 0 : Int)) % 4294967296) :=
  engine_sub_sets_flags (vm_c.new 16 [] [] (fun _ => none) 0) 3 0 5 (by decide) (by decide)

/-- C11 fails as stated: on a new machine `sub x,v` with `b = 24` (instruction
`12 18 00 01`) compares `fx = 0` with `x[0] = 0`, which sets `fx` to 2 (equal), and then
subtracts 1 from `fx`: it ends with `fx == 1`, neither the flag of the comparison (2) nor
the pre-state value minus 1 (4294967295). -/
theorem engine_sub_on_fx :
    ((vm_c.new 16 [] [] (fun _ => none) 0).engine 0x12 24 0 1).map
      (fun r => (r.1, r.2.m_state.fx, r.2.reg 24)) = some (1, 1, 1) ∧
    (vm_c.new 16 [] [] (fun _ => none) 0).reg 24 = 0 ∧
    (vm_c.new 16 [] [] (fun _ => none) 0).reg 0 = 0 := by
  decide


/-! ## the fetch step -/

theorem u32_shl8 {b : Nat} (h : b < 256) : u32 (b <<< 8) = b <<< 8 := by
  rw [Nat.shiftLeft_eq]
  simp only [u32]
  omega

theorem u32_add_u32 (a k : Nat) : u32 (u32 a + k) = u32 (a + k) := by
  simp only [u32]
  omega

theorem view_some (s : vm_c) (hkey : s.dbg = 4 → ∃ k cin, s.cin = cin_t.chr k :: cin) :
    ∃ (r : Int) (s3 : vm_c), s.view s.dbg = some (r, s3) ∧ s3.m_state = s.m_state ∧
      s3.m_memory = s.m_memory ∧ s3.mx_ip = s.mx_ip ∧ s3.m_prc = s.m_prc ∧
      (s.dbg ≠ 4 → r = 1 ∧ s3 = s) := by
  by_cases h4 : s.dbg = 4
  · obtain ⟨k, cin, hk⟩ := hkey h4
    by_cases hb : tolower k = 98
    · exact ⟨0, { s with cin := cin }, by simp [vm_c.view, h4, hk, hb], rfl, rfl, rfl, rfl,
        fun h => absurd h4 h⟩
    · exact ⟨1, { s with cin := cin }, by simp [vm_c.view, h4, hk, hb], rfl, rfl, rfl, rfl,
        fun h => absurd h4 h⟩
  · exact ⟨1, s, by simp [vm_c.view, h4], rfl, rfl, rfl, rfl, fun _ => ⟨rfl, rfl⟩⟩

theorem running_eq (s : vm_c) (p : process_c) (hprc : s.m_prc = some p)
    (hst : PRC_IS_STARTED p = true) : s.loop = s.running p := by
  simp only [vm_c.loop, hprc, hst, if_true]

/-- C13: in a turn of the driver that finds a started process and `ipx` below the end of
the code, the executor is called on the four bytes `M[p], M[p+1], M[p+2], M[p+3]` read
through `memory_c::get` at the instruction pointer `p`, and the turn leaves in `ipx` the
value the executor left there plus 4 (mod 2^32), the other registers being as the
executor left them: `p + 4` when the executor did not write `ipx`, and
`csx + ((b<<8)|c) + 4` after a taken `jit v,v`.  (In debug mode 4 the view reads a key.) -/
theorem running_step_fetches (s : vm_c) (p : process_c) (hprc : s.m_prc = some p)
    (hst : PRC_IS_STARTED p = true) (hip : s.m_state.ipx < s.mx_ip) :
    (s.engine (s.mem s.m_state.ipx) (s.mem (u32 (s.m_state.ipx + 1)))
        (s.mem (u32 (s.m_state.ipx + 2))) (s.mem (u32 (s.m_state.ipx + 3))) = none →
      s.loop = none) ∧
    (∀ (r : Int) (s1 : vm_c),
      s.engine (s.mem s.m_state.ipx) (s.mem (u32 (s.m_state.ipx + 1)))
        (s.mem (u32 (s.m_state.ipx + 2))) (s.mem (u32 (s.m_state.ipx + 3))) = some (r, s1) →
      (s1.dbg = 4 → ∃ k cin, s1.cin = cin_t.chr k :: cin) →
      ∃ s2 : vm_c, s.loop = some s2 ∧
        s2.m_state = { s1.m_state with ipx := u32 (s1.m_state.ipx + 4) } ∧
        (s1.m_state.ipx = s.m_state.ipx → s2.m_state.ipx = u32 (s.m_state.ipx + 4)) ∧
        (s.mem s.m_state.ipx = 8 → s.m_state.fx = s.mem (u32 (s.m_state.ipx + 3)) →
          s.mem (u32 (s.m_state.ipx + 1)) < 256 →
          s2.m_state.ipx = u32 (s.m_state.csx
            + ((s.mem (u32 (s.m_state.ipx + 1)) <<< 8) ||| s.mem (u32 (s.m_state.ipx + 2)))
            + 4))) := by
  constructor
  · intro he
    rw [running_eq s p hprc hst]
    simp only [vm_c.running, hip, if_true, he]
  · intro r s1 he hkey
    have hstep : ∃ s2 : vm_c, s.loop = some s2 ∧
        s2.m_state = { s1.m_state with ipx := u32 (s1.m_state.ipx + 4) } := by
      by_cases hd : s1.dbg = 0
      · have ht := running_turn s p r s1 hprc hst hip he hd
        by_cases hr : r = 0
        · rw [if_pos hr] at ht
          exact ⟨_, ht, rfl⟩
        · rw [if_neg hr] at ht
          exact ⟨_, ht, rfl⟩
      · rw [running_eq s p hprc hst]
        obtain ⟨r1, s3, hv, hm, -⟩ := view_some
          { s1 with m_state := { s1.m_state with ipx := u32 (s1.m_state.ipx + 4) } } hkey
        by_cases hr : r1 = 0
        · refine ⟨{ s3.close p with ret := r1 }, ?_, hm⟩
          simp only [vm_c.running, hip, if_true, he, ne_eq, hd, not_false_eq_true]
          rw [hv]
          simp only [hr, if_true]
        · refine ⟨{ s3 with ret := r1 }, ?_, hm⟩
          simp only [vm_c.running, hip, if_true, he, ne_eq, hd, not_false_eq_true]
          rw [hv]
          simp only [hr, if_false]
    obtain ⟨s2, h2, hm⟩ := hstep
    refine ⟨s2, h2, hm, ?_, ?_⟩
    · intro hsame
      rw [hm, ← hsame]
    · intro h8 hfx hb
      rw [h8] at he
      simp only [vm_c.engine, hfx, u32_shl8 hb] at he
      simp only [Nat.reduceEqDiff, if_false, if_true, Option.some.injEq, Prod.mk.injEq] at he
      rw [hm, ← he.2]
      exact u32_add_u32 _ 4


theorem running_step_fetches_witness :
    ((demo_running [8, 0, 8, 0] 0).engine
        ((demo_running [8, 0, 8, 0] 0).mem (demo_running [8, 0, 8, 0] 0).m_state.ipx)
        ((demo_running [8, 0, 8, 0] 0).mem (u32 ((demo_running [8, 0, 8, 0] 0).m_state.ipx + 1)))
        ((demo_running [8, 0, 8, 0] 0).mem (u32 ((demo_running [8, 0, 8, 0] 0).m_state.ipx + 2)))
        ((demo_running [8, 0, 8, 0] 0).mem (u32 ((demo_running [8, 0, 8, 0] 0).m_state.ipx + 3)))
        = none →
      (demo_running [8, 0, 8, 0] 0).loop = none) ∧
    (∀ (r : Int) (s1 : vm_c),
      (demo_running [8, 0, 8, 0] 0).engine
        ((demo_running [8, 0, 8, 0] 0).mem (demo_running [8, 0, 8, 0] 0).m_state.ipx)
        ((demo_running [8, 0, 8, 0] 0).mem (u32 ((demo_running [8, 0, 8, 0] 0).m_state.ipx + 1)))
        ((demo_running [8, 0, 8, 0] 0).mem (u32 ((demo_running [8, 0, 8, 0] 0).m_state.ipx + 2)))
        ((demo_running [8, 0, 8, 0] 0).mem (u32 ((demo_running [8, 0, 8, 0] 0).m_state.ipx + 3)))
        = some (r, s1) →
      (s1.dbg = 4 → ∃ k cin, s1.cin = cin_t.chr k :: cin) →
      ∃ s2 : vm_c, (demo_running [8, 0, 8, 0] 0).loop = some s2 ∧
        s2.m_state = { s1.m_state with ipx := u32 (s1.m_state.ipx + 4) } ∧
        (s1.m_state.ipx = (demo_running [8, 0, 8, 0] 0).m_state.ipx →
          s2.m_state.ipx = u32 ((demo_running [8, 0, 8, 0] 0).m_state.ipx + 4)) ∧
        ((demo_running [8, 0, 8, 0] 0).mem (demo_running [8, 0, 8, 0] 0).m_state.ipx = 8 →
          (demo_running [8, 0, 8, 0] 0).m_state.fx
            = (demo_running [8, 0, 8, 0] 0).mem
                (u32 ((demo_running [8, 0, 8, 0] 0).m_state.ipx + 3)) →
          (demo_running [8, 0, 8, 0] 0).mem
            (u32 ((demo_running [8, 0, 8, 0] 0).m_state.ipx + 1)) < 256 →
          s2.m_state.ipx = u32 ((demo_running [8, 0, 8, 0] 0).m_state.csx
            + (((demo_running [8, 0, 8, 0] 0).mem
                  (u32 ((demo_running [8, 0, 8, 0] 0).m_state.ipx + 1)) <<< 8)
                ||| (demo_running [8, 0, 8, 0] 0).mem
                  (u32 ((demo_running [8, 0, 8, 0] 0).m_state.ipx + 2)))
            + 4))) :=
  running_step_fetches (demo_running [8, 0, 8, 0] 0) (demo_process 4) rfl (by decide)
    (by decide)


/-! ## what the executor leaves alone -/

theorem reroll_frame (s : vm_c) : ∀ (l : List Nat) (s1 : vm_c), s.reroll l = some s1 →
    s1.mx_ip = s.mx_ip ∧ s1.dbg = s.dbg ∧ s1.m_prc = s.m_prc ∧ s1.m_ec = s.m_ec ∧
      s1.m_memory = s.m_memory
  | [], s1, h => by simp [vm_c.reroll] at h
  | r :: l, s1, h => by
    simp only [vm_c.reroll] at h
    split_ifs at h with hc
    · simp only [Option.some.injEq] at h
      subst h
      exact ⟨rfl, rfl, rfl, rfl, rfl⟩
    · exact reroll_frame s l s1 h

theorem push_str_frame : ∀ (str : List Nat) (s : vm_c),
    (vm_c.push_str str s).mx_ip = s.mx_ip ∧ (vm_c.push_str str s).dbg = s.dbg ∧
      (vm_c.push_str str s).m_prc = s.m_prc ∧ (vm_c.push_str str s).m_ec = s.m_ec
  | [], s => by simp [vm_c.push_str]
  | i :: str, s => by
    simp only [vm_c.push_str]
    obtain ⟨h1, h2, h3, h4⟩ := push_str_frame str
      (vm_c.set_mem { s with m_state := { s.m_state with spx := u32 (s.m_state.spx + 1) } }
        (u32 (s.m_state.spx + 1)) (u8 i))
    exact ⟨h1, h2, h3, h4⟩

theorem execute_frame (s : vm_c) (val : Nat) (r : Int) (s1 : vm_c)
    (h : s.execute val = some (r, s1)) :
    s1.mx_ip = s.mx_ip ∧ s1.dbg = s.dbg ∧ s1.m_prc = s.m_prc := by
  unfold vm_c.execute at h
  split_ifs at h
  · simp only [Option.some.injEq, Prod.mk.injEq] at h
    obtain ⟨-, rfl⟩ := h
    exact ⟨rfl, rfl, rfl⟩
  · cases hp : s.m_prc with
    | none => simp [hp] at h
    | some p =>
      simp only [hp, Option.some.injEq, Prod.mk.injEq] at h
      obtain ⟨-, rfl⟩ := h
      exact ⟨rfl, rfl, hp.symm ▸ rfl⟩
  · simp only [Option.some.injEq, Prod.mk.injEq] at h
    obtain ⟨-, rfl⟩ := h
    exact ⟨rfl, rfl, rfl⟩
  · split at h
    · simp only [Option.some.injEq, Prod.mk.injEq] at h
      obtain ⟨-, rfl⟩ := h
      exact ⟨rfl, rfl, rfl⟩
    · simp at h
  · split at h
    · simp only [Option.some.injEq, Prod.mk.injEq] at h
      obtain ⟨-, rfl⟩ := h
      exact ⟨rfl, rfl, rfl⟩
    · simp at h
  · split at h
    · simp only [Option.some.injEq, Prod.mk.injEq] at h
      obtain ⟨-, rfl⟩ := h
      obtain ⟨h1, h2, h3, -⟩ := push_str_frame _ _
      exact ⟨h1, h2, h3⟩
    · simp at h
  · simp only [Option.some.injEq, Prod.mk.injEq] at h
    obtain ⟨-, rfl⟩ := h
    exact ⟨rfl, rfl, rfl⟩
  · simp only [Option.some.injEq, Prod.mk.injEq] at h
    obtain ⟨-, rfl⟩ := h
    exact ⟨rfl, rfl, rfl⟩


theorem throw_if_fst (s : vm_c) (cnd : Bool) (val : List Char) : (s.throw_if cnd val).1 = cnd := by
  cases cnd <;> rfl

theorem throw_if_snd (s : vm_c) (cnd : Bool) (val : List Char) :
    (s.throw_if cnd val).2 = { s with cerr := if cnd then s.cerr ++ [val] else s.cerr } := by
  cases cnd <;> rfl

theorem engine_frame (s : vm_c) (a b c d : Nat) (r : Int) (s1 : vm_c)
    (h : s.engine a b c d = some (r, s1)) :
    s1.mx_ip = s.mx_ip ∧ s1.dbg = s.dbg ∧ s1.m_prc = s.m_prc := by
  unfold vm_c.engine at h
  by_cases h0 : a = 0
  on_goal 1 => rw [if_pos h0] at h
  on_goal 2 => rw [if_neg h0] at h
  rotate_left
  by_cases h1 : a = 1
  on_goal 1 => rw [if_pos h1] at h
  on_goal 2 => rw [if_neg h1] at h
  rotate_left
  by_cases h2 : a = 2
  on_goal 1 => rw [if_pos h2] at h
  on_goal 2 => rw [if_neg h2] at h
  rotate_left
  by_cases h3 : a = 3
  on_goal 1 => rw [if_pos h3] at h
  on_goal 2 => rw [if_neg h3] at h
  rotate_left
  by_cases h4 : a = 4
  on_goal 1 => rw [if_pos h4] at h
  on_goal 2 => rw [if_neg h4] at h
  rotate_left
  by_cases h5 : a = 5
  on_goal 1 => rw [if_pos h5] at h
  on_goal 2 => rw [if_neg h5] at h
  rotate_left
  by_cases h6 : a = 6
  on_goal 1 => rw [if_pos h6] at h
  on_goal 2 => rw [if_neg h6] at h
  rotate_left
  by_cases h7 : a = 7
  on_goal 1 => rw [if_pos h7] at h
  on_goal 2 => rw [if_neg h7] at h
  rotate_left
  by_cases h8 : a = 8
  on_goal 1 => rw [if_pos h8] at h
  on_goal 2 => rw [if_neg h8] at h
  rotate_left
  by_cases h9 : a = 9
  on_goal 1 => rw [if_pos h9] at h
  on_goal 2 => rw [if_neg h9] at h
  rotate_left
  by_cases h10 : a = 10
  on_goal 1 => rw [if_pos h10] at h
  on_goal 2 => rw [if_neg h10] at h
  rotate_left
  by_cases h11 : a = 11
  on_goal 1 => rw [if_pos h11] at h
  on_goal 2 => rw [if_neg h11] at h
  rotate_left
  by_cases h12 : a = 12
  on_goal 1 => rw [if_pos h12] at h
  on_goal 2 => rw [if_neg h12] at h
  rotate_left
  by_cases h13 : a = 13
  on_goal 1 => rw [if_pos h13] at h
  on_goal 2 => rw [if_neg h13] at h
  rotate_left
  by_cases h14 : a = 14
  on_goal 1 => rw [if_pos h14] at h
  on_goal 2 => rw [if_neg h14] at h
  rotate_left
  by_cases h15 : a = 15
  on_goal 1 => rw [if_pos h15] at h
  on_goal 2 => rw [if_neg h15] at h
  rotate_left
  by_cases h16 : a = 16
  on_goal 1 => rw [if_pos h16] at h
  on_goal 2 => rw [if_neg h16] at h
  rotate_left
  by_cases h17 : a = 17
  on_goal 1 => rw [if_pos h17] at h
  on_goal 2 => rw [if_neg h17] at h
  rotate_left
  by_cases h18 : a = 18
  on_goal 1 => rw [if_pos h18] at h
  on_goal 2 => rw [if_neg h18] at h
  rotate_left
  by_cases h19 : a = 19
  on_goal 1 => rw [if_pos h19] at h
  on_goal 2 => rw [if_neg h19] at h
  rotate_left
  by_cases h20 : a = 20
  on_goal 1 => rw [if_pos h20] at h
  on_goal 2 => rw [if_neg h20] at h
  rotate_left
  by_cases h21 : a = 21
  on_goal 1 => rw [if_pos h21] at h
  on_goal 2 => rw [if_neg h21] at h
  rotate_left
  by_cases h22 : a = 22
  on_goal 1 => rw [if_pos h22] at h
  on_goal 2 => rw [if_neg h22] at h
  rotate_left
  by_cases h23 : a = 23
  on_goal 1 => rw [if_pos h23] at h
  on_goal 2 => rw [if_neg h23] at h
  rotate_left
  by_cases h24 : a = 24
  on_goal 1 => rw [if_pos h24] at h
  on_goal 2 => rw [if_neg h24] at h
  rotate_left
  by_cases h25 : a = 25
  on_goal 1 => rw [if_pos h25] at h
  on_goal 2 => rw [if_neg h25] at h
  rotate_left
  by_cases h26 : a = 26
  on_goal 1 => rw [if_pos h26] at h
  on_goal 2 => rw [if_neg h26] at h
  rotate_left
  by_cases h27 : a = 27
  on_goal 1 => rw [if_pos h27] at h
  on_goal 2 => rw [if_neg h27] at h
  rotate_left
  by_cases h28 : a = 28
  on_goal 1 => rw [if_pos h28] at h
  on_goal 2 => rw [if_neg h28] at h
  rotate_left
  by_cases h29 : a = 29
  on_goal 1 => rw [if_pos h29] at h
  on_goal 2 => rw [if_neg h29] at h
  rotate_left
  by_cases h30 : a = 30
  on_goal 1 => rw [if_pos h30] at h
  on_goal 2 => rw [if_neg h30] at h
  rotate_left
  by_cases h31 : a = 31
  on_goal 1 => rw [if_pos h31] at h
  on_goal 2 => rw [if_neg h31] at h
  rotate_left
  by_cases h32 : a = 32
  on_goal 1 => rw [if_pos h32] at h
  on_goal 2 => rw [if_neg h32] at h
  rotate_left
  by_cases h33 : a = 33
  on_goal 1 => rw [if_pos h33] at h
  on_goal 2 => rw [if_neg h33] at h
  rotate_left
  by_cases h34 : a = 34
  on_goal 1 => rw [if_pos h34] at h
  on_goal 2 => rw [if_neg h34] at h
  rotate_left
  by_cases h35 : a = 35
  on_goal 1 => rw [if_pos h35] at h
  on_goal 2 => rw [if_neg h35] at h
  rotate_left
  by_cases h36 : a = 36
  on_goal 1 => rw [if_pos h36] at h
  on_goal 2 => rw [if_neg h36] at h
  rotate_left
  all_goals first
    | (simp only [Option.some.injEq, Prod.mk.injEq] at h
       obtain ⟨-, rfl⟩ := h
       exact ⟨rfl, rfl, rfl⟩)
    | (simp only [compare_eq_set_fx, Option.some.injEq, Prod.mk.injEq] at h
       obtain ⟨-, rfl⟩ := h
       exact ⟨rfl, rfl, rfl⟩)
    | exact execute_frame _ _ _ _ h
    | (dsimp only at h
       split_ifs at h
       all_goals first
         | (simp only [Option.some.injEq, Prod.mk.injEq] at h
            obtain ⟨-, rfl⟩ := h
            exact ⟨rfl, rfl, rfl⟩)
         | (simp only [throw_if_snd, Option.some.injEq, Prod.mk.injEq] at h
            obtain ⟨-, rfl⟩ := h
            exact ⟨rfl, rfl, rfl⟩)
         | (simp only [Option.map_eq_some', Prod.mk.injEq] at h
            obtain ⟨s2, h2, -, rfl⟩ := h
            obtain ⟨h3, h4, h5, -⟩ := reroll_frame _ _ _ h2
            exact ⟨h3, h4, h5⟩))
    | (cases hp : s.m_prc with
       | none => simp [hp] at h
       | some p =>
         simp only [hp, throw_if_snd, Option.some.injEq, Prod.mk.injEq] at h
         obtain ⟨-, rfl⟩ := h
         exact ⟨rfl, rfl, hp.symm ▸ rfl⟩)


/-! ## leaving Running -/

theorem closing_turn (s : vm_c) (p : process_c) (hprc : s.m_prc = some p)
    (hst : PRC_IS_STARTED p = true) (hip : s.mx_ip ≤ s.m_state.ipx) :
    s.loop = some { s.close p with ret := 0 } := by
  rw [running_eq s p hprc hst]
  simp only [vm_c.running]
  rw [if_neg (by omega)]

theorem turns_two (s s2 : vm_c) (h : s.loop = some s2) (hr : s2.ret ≠ -1) :
    vm_c.turns 2 s = (s2.loop).bind (fun s3 => if s3.ret = -1 then none else some s3) := by
  simp only [vm_c.turns, h, hr, if_false]
  cases s2.loop with
  | none => rfl
  | some s3 => rfl

/-- C14, as the code has it: with no debug mode, after a turn of the driver that executed
an instruction (the executor returning `r`, other than the -1 that makes the driver return
to its caller), the driver closes the process before it fetches another instruction if and
only if `r == 0` or `ipx >= mx_ip` after the post-increment, `mx_ip` being the sentinel
`csx + clx` computed when the process entered Running (later writes to `csx` and `clx` do
not move it).  If `r == 0` the process is closed in the same turn; otherwise it is kept,
and the next turn closes it without executing anything when `ipx >= mx_ip` and executes
the instruction at `ipx` when `ipx < mx_ip`. -/
theorem driver_leaves_running (s : vm_c) (p : process_c) (r : Int) (s1 : vm_c)
    (hprc : s.m_prc = some p) (hst : PRC_IS_STARTED p = true)
    (hip : s.m_state.ipx < s.mx_ip) (hdbg : s.dbg = 0)
    (he : s.engine (s.mem s.m_state.ipx) (s.mem (u32 (s.m_state.ipx + 1)))
        (s.mem (u32 (s.m_state.ipx + 2))) (s.mem (u32 (s.m_state.ipx + 3))) = some (r, s1))
    (hr : r ≠ -1) :
    ∃ s2 : vm_c, s.loop = some s2 ∧ s2.ret = r ∧ s2.mx_ip = s.mx_ip ∧
      s2.m_state = { s1.m_state with ipx := u32 (s1.m_state.ipx + 4) } ∧
      (r = 0 → s2.m_prc = none ∧ s2.closed = s1.closed ++ [(p.id, s1.m_ec)]) ∧
      (r ≠ 0 → s2.m_prc = some p ∧
        (s.mx_ip ≤ s2.m_state.ipx →
          ∃ s3 : vm_c, vm_c.turns 2 s = some s3 ∧ s3.m_prc = none ∧
            s3.m_state = s2.m_state ∧ s3.m_memory = s2.m_memory ∧ s3.mem_ret = s2.mem_ret ∧
            s3.core_ret = s2.core_ret ∧ s3.m_ec = s2.m_ec ∧
            s3.closed = s2.closed ++ [(p.id, s2.m_ec)]) ∧
        (s2.m_state.ipx < s.mx_ip →
          ∀ (r2 : Int) (s4 : vm_c),
            s2.engine (s2.mem s2.m_state.ipx) (s2.mem (u32 (s2.m_state.ipx + 1)))
              (s2.mem (u32 (s2.m_state.ipx + 2))) (s2.mem (u32 (s2.m_state.ipx + 3)))
              = some (r2, s4) →
            r2 ≠ -1 →
            ∃ s3 : vm_c, vm_c.turns 2 s = some s3 ∧ s3.ret = r2 ∧
              s3.m_state = { s4.m_state with ipx := u32 (s4.m_state.ipx + 4) })) := by
  obtain ⟨hmx, hd1, hp1⟩ := engine_frame _ _ _ _ _ _ _ he
  have ht := running_turn s p r s1 hprc hst hip he (by rw [hd1, hdbg])
  by_cases h0 : r = 0
  · rw [if_pos h0] at ht
    refine ⟨_, ht, rfl, hmx, rfl, fun _ => ⟨rfl, rfl⟩, fun h => absurd h0 h⟩
  · rw [if_neg h0] at ht
    refine ⟨_, ht, rfl, hmx, rfl, fun h => absurd h h0, fun _ => ⟨?_, ?_, ?_⟩⟩
    · show s1.m_prc = some p
      rw [hp1, hprc]
    · intro hge
      have hc := closing_turn { s1 with m_state := { s1.m_state with
          ipx := u32 (s1.m_state.ipx + 4) }, ret := r } p (by show s1.m_prc = some p; rw [hp1, hprc])
        hst (by show s1.mx_ip ≤ _; rw [hmx]; exact hge)
      refine ⟨{ vm_c.close { s1 with m_state := { s1.m_state with
          ipx := u32 (s1.m_state.ipx + 4) }, ret := r } p with ret := 0 },
        ?_, rfl, rfl, rfl, rfl, rfl, rfl, rfl⟩
      rw [turns_two s _ ht hr, hc]
      rfl
    · intro hlt r2 s4 he2 hr2
      obtain ⟨-, hd4, -⟩ := engine_frame _ _ _ _ _ _ _ he2
      have ht2 := running_turn { s1 with m_state := { s1.m_state with
          ipx := u32 (s1.m_state.ipx + 4) }, ret := r } p r2 s4
        (by show s1.m_prc = some p; rw [hp1, hprc]) hst
        (by show _ < s1.mx_ip; rw [hmx]; exact hlt) he2
        (by rw [hd4]; show s1.dbg = 0; rw [hd1, hdbg])
      by_cases h2 : r2 = 0
      · rw [if_pos h2] at ht2
        refine ⟨{ vm_c.close { s4 with m_state := { s4.m_state with
            ipx := u32 (s4.m_state.ipx + 4) } } p with ret := r2 }, ?_, rfl, rfl⟩
        rw [turns_two s _ ht hr, ht2]
        simp only [Option.some_bind]
        rw [if_neg hr2]
      · rw [if_neg h2] at ht2
        refine ⟨{ s4 with m_state := { s4.m_state with
            ipx := u32 (s4.m_state.ipx + 4) }, ret := r2 }, ?_, rfl, rfl⟩
        rw [turns_two s _ ht hr, ht2]
        simp only [Option.some_bind]
        rw [if_neg hr2]


theorem driver_leaves_running_witness :
    ∃ s2 : vm_c, demo_nops.loop = some s2 ∧ s2.ret = 1 ∧ s2.mx_ip = demo_nops.mx_ip ∧
      s2.m_state = { demo_nops.m_state with ipx := u32 (demo_nops.m_state.ipx + 4) } ∧
      ((1 : Int) = 0 → s2.m_prc = none ∧
        s2.closed = demo_nops.closed ++ [((demo_process 8).id, demo_nops.m_ec)]) ∧
      ((1 : Int) ≠ 0 → s2.m_prc = some (demo_process 8) ∧
        (demo_nops.mx_ip ≤ s2.m_state.ipx →
          ∃ s3 : vm_c, vm_c.turns 2 demo_nops = some s3 ∧ s3.m_prc = none ∧
            s3.m_state = s2.m_state ∧ s3.m_memory = s2.m_memory ∧ s3.mem_ret = s2.mem_ret ∧
            s3.core_ret = s2.core_ret ∧ s3.m_ec = s2.m_ec ∧
            s3.closed = s2.closed ++ [((demo_process 8).id, s2.m_ec)]) ∧
        (s2.m_state.ipx < demo_nops.mx_ip →
          ∀ (r2 : Int) (s4 : vm_c),
            s2.engine (s2.mem s2.m_state.ipx) (s2.mem (u32 (s2.m_state.ipx + 1)))
              (s2.mem (u32 (s2.m_state.ipx + 2))) (s2.mem (u32 (s2.m_state.ipx + 3)))
              = some (r2, s4) →
            r2 ≠ -1 →
            ∃ s3 : vm_c, vm_c.turns 2 demo_nops = some s3 ∧ s3.ret = r2 ∧
              s3.m_state = { s4.m_state with ipx := u32 (s4.m_state.ipx + 4) })) :=
  driver_leaves_running demo_nops (demo_process 8) 1 demo_nops rfl (by decide) (by decide)
    rfl rfl (by decide)

/-- C14 fails as stated: in the run of `ldx clx,4`, `nop`, `nop` the first instruction
returns 1 and leaves `ipx = 11 >= csx + clx = 7 + 4`, yet the next turn of the driver
executes the `nop` at cell 11 and keeps the process (then at `ipx = 15`): the driver
compares `ipx` with the sentinel 19 computed at the start, not with the live `csx + clx`. -/
theorem driver_ignores_live_clx :
    (vm_c.turns 2 demo_short_clx).map (fun s => (s.ret, s.m_state.ipx)) = some (1, 11) ∧
    (vm_c.turns 2 demo_short_clx).map (fun s => (s.m_state.csx, s.m_state.clx, s.mx_ip))
      = some (7, 4, 19) ∧
    (vm_c.turns 3 demo_short_clx).map (fun s => (s.m_prc.isSome, s.m_state.ipx))
      = some (true, 15) := by
  decide


/-! ## the placement of the stack -/

/-- C12, the code at a failing input: in the run of `not x0`, `ldx slx,x0` the second
instruction leaves `slx = 0xFFFFFFFF` and accepts `ssx = 5`, because the 32-bit sum
`ssx + slx` wraps to 4, below `csx = 10`; the stack segment `[5, 5 + 0xFFFFFFFF)` then
contains the whole code segment `[10, 18)`. -/
theorem ldx_slx_overlaps_code :
    (vm_c.turns 3 demo_big_stack).map (fun s => (s.m_state.csx, s.m_state.clx))
      = some (10, 8) ∧
    (vm_c.turns 3 demo_big_stack).map (fun s => (s.m_state.ssx, s.m_state.slx))
      = some (5, 4294967295) ∧
    (vm_c.turns 3 demo_big_stack).map (fun s => decide
        (s.m_state.ssx ≤ s.m_state.csx ∧ s.m_state.csx < s.m_state.ssx + s.m_state.slx ∧
          s.m_state.csx < s.m_state.csx + s.m_state.clx))
      = some true := by
  decide

/-! ## the debug view and the end of a process -/

/-- C15, the code at a failing input: with the debug mode "show registers", the exit trap
of the second instruction of `two_exits` records `ec = 0` and the executor returns 0, but
the driver replaces that 0 by the 1 the view returns and keeps the process; the remaining
instructions run and the process is closed only at the end of the code, with `ec = 9`.
Without debug mode the same program is closed by the first exit, with `ec = 0`. -/
theorem debug_view_hides_exit :
    (vm_c.turns 4 demo_debug_exit).map (fun s => (s.dbg, s.m_prc.isSome)) = some (1, true) ∧
    (vm_c.turns 4 demo_debug_exit).map (fun s => (s.ret, s.m_ec)) = some (1, 0) ∧
    (vm_c.turns 4 demo_debug_exit).map (fun s => s.closed) = some [] ∧
    (vm_c.turns 7 demo_debug_exit).map (fun s => s.closed) = some [(41, 9)] ∧
    (vm_c.turns 3 demo_plain_exit).map (fun s => s.closed) = some [(41, 0)] := by
  decide


/-! ## the exit and abort services -/

theorem imm24_byte {b c : Nat} (hb : b < 256) (hc : c < 256) (d : Nat) :
    imm24 b c d = (b <<< 16) ||| (c <<< 8) ||| d := by
  have e1 : u32 (b <<< 16) = b <<< 16 := by
    rw [Nat.shiftLeft_eq]; simp only [u32]; omega
  rw [imm24, e1, u32_shl8 hc]

theorem engine_exc (s : vm_c) (b c d : Nat) :
    s.engine 6 b c d = s.execute (imm24 b c d) ∧ s.engine 7 b c d = s.execute (s.reg b) := by
  constructor
  · simp only [vm_c.engine]
    simp only [Nat.reduceEqDiff, if_false, if_true]
  · simp only [vm_c.engine]
    simp only [Nat.reduceEqDiff, if_false, if_true]

/-- C16: a trap with number 1 (opcode 0x06 with `(b<<16)|(c<<8)|d == 1`, or opcode 0x07
with `R[b] == 1`) returns 0 and, if `sx == 1`, sets `ec` to the two's-complement signed
reading of `x[0]` (`x[0]` itself below 2^31, `x[0] - 2^32` from there on), and if
`sx == 2` reports the abort and sets `ec` to -1; registers and memory are unchanged. -/
theorem trap_one_exits (s : vm_c) (p : process_c) (a b c d : Nat) (hprc : s.m_prc = some p)
    (hb : b < 256) (hc : c < 256)
    (ht : (a = 6 ∧ ((b <<< 16) ||| (c <<< 8) ||| d) = 1) ∨ (a = 7 ∧ s.reg b = 1)) :
    (s.m_state.sx = 1 →
      s.engine a b c d = some (0, { s with m_ec := to_type_i32 (s.m_state.x 0) })) ∧
    (s.m_state.sx = 2 → ∃ msg : List Char,
      s.engine a b c d = some (0, { s with m_ec := -1, cerr := s.cerr ++ [msg] })) ∧
    (s.m_state.x 0 < 2147483648 → to_type_i32 (s.m_state.x 0) = (s.m_state.x 0 : Int)) ∧
    (2147483648 ≤ s.m_state.x 0 → s.m_state.x 0 < 4294967296 →
      to_type_i32 (s.m_state.x 0) = (s.m_state.x 0 : Int) - 4294967296) := by
  have hex : s.engine a b c d = s.execute 1 := by
    rcases ht with ⟨ha, h1⟩ | ⟨ha, h1⟩
    · rw [ha, (engine_exc s b c d).1, imm24_byte hb hc, h1]
    · rw [ha, (engine_exc s b c d).2, h1]
  refine ⟨?_, ?_, ?_, ?_⟩
  · intro hsx
    rw [hex]
    simp only [vm_c.execute, hsx, if_true]
  · intro hsx
    refine ⟨"process (".toList ++ to_string p.id ++ ") aborted".toList, ?_⟩
    rw [hex]
    simp only [vm_c.execute, hsx, hprc, vm_c.throw_if, if_true]
    simp
  · intro h
    simp only [to_type_i32, u32]
    rw [Nat.mod_eq_of_lt (by omega), if_pos h]
  · intro h h2
    simp only [to_type_i32, u32]
    rw [Nat.mod_eq_of_lt h2, if_neg (by omega)]

theorem trap_one_exits_witness :
    (demo_exit.m_state.sx = 1 ∧ demo_exit.m_state.x 0 = 4294967294 ∧
      demo_exit.engine 6 0 0 1 = some (0, { demo_exit with m_ec := -2 })) ∧
    (demo_abort.m_state.sx = 2 ∧ demo_abort.reg 1 = 1 ∧ demo_abort.m_ec = 1 ∧
      ∃ msg : List Char, demo_abort.engine 7 1 0 0
        = some (0, { demo_abort with m_ec := -1, cerr := demo_abort.cerr ++ [msg] })) :=
  ⟨⟨rfl, rfl,
      (trap_one_exits demo_exit (demo_process 4) 6 0 0 1 rfl (by decide) (by decide)
        (Or.inl ⟨rfl, by decide⟩)).1 rfl⟩,
    ⟨rfl, by decide, rfl,
      (trap_one_exits demo_abort (demo_process 4) 7 1 0 0 rfl (by decide) (by decide)
        (Or.inr ⟨rfl, by decide⟩)).2.1 rfl⟩⟩


/-! ## the value returned by the driver -/

theorem start_returns : ∀ (fuel : Nat) (s : vm_c) (r : Int) (s1 : vm_c),
    vm_c.start fuel s = some (r, s1) → r = -1 ∧ s1.ret = -1
  | 0, s, r, s1, h => by simp [vm_c.start] at h
  | fuel + 1, s, r, s1, h => by
    simp only [vm_c.start] at h
    cases hl : s.loop with
    | none => simp [hl] at h
    | some s2 =>
      simp only [hl] at h
      split_ifs at h with hr
      · simp only [Option.some.injEq, Prod.mk.injEq] at h
        obtain ⟨h1, h2⟩ := h
        subst h2
        exact ⟨by rw [← h1, hr], hr⟩
      · exact start_returns fuel s2 r s1 h

theorem menu_at_quit (s : vm_c) (cin : List cin_t) (hc : s.cin = cin_t.chr 48 :: cin) :
    s.menu = some (-1, { s with cin := cin }) := by
  simp only [vm_c.menu, hc, List.length_cons, vm_c.menu_loop]
  simp [char_to_int, u8]

/-- C17, as the code has it: `vm_c::start()` returns its local `ret`, which is -1 (the
QUIT code of the menu) whenever the function returns; when the menu returns QUIT to an
idle driver the function returns at once with -1, and the last recorded exit code stays in
`m_ec` (1 in a new machine), unchanged. -/
theorem start_returns_quit_code (s : vm_c) (fuel : Nat) (cin : List cin_t)
    (hidle : ∀ p : process_c, s.m_prc = some p → PRC_IS_STARTED p = false)
    (hcin : s.cin = cin_t.chr 48 :: cin) :
    (∃ s1 : vm_c, vm_c.start (fuel + 1) s = some (-1, s1) ∧ s1.m_ec = s.m_ec ∧
      s1.m_prc = s.m_prc ∧ s1.m_state = s.m_state) ∧
    (∀ (fuel2 : Nat) (t : vm_c) (r : Int) (t1 : vm_c),
      vm_c.start fuel2 t = some (r, t1) → r = -1) ∧
    (∀ (val : Nat) (rnd : List Nat) (keys : List cin_t) (files : List Nat → Option (List Nat))
      (junk : Int), (vm_c.new val rnd keys files junk).m_ec = 1) := by
  refine ⟨?_, fun fuel2 t r t1 h => (start_returns fuel2 t r t1 h).1, fun _ _ _ _ _ => rfl⟩
  have hloop : s.loop = some { s with cin := cin, ret := -1, dbg := 0 } := by
    have hidle2 : s.loop = s.idle := by
      cases hp : s.m_prc with
      | none => simp only [vm_c.loop, hp]
      | some p => simp only [vm_c.loop, hp, hidle p hp, Bool.false_eq_true, if_false]
    rw [hidle2]
    simp only [vm_c.idle, menu_at_quit s cin hcin]
    rfl
  refine ⟨{ s with cin := cin, ret := -1, dbg := 0 }, ?_, rfl, rfl, rfl⟩
  simp only [vm_c.start, hloop, if_true]

theorem start_returns_quit_code_witness :
    (∃ s1 : vm_c, vm_c.start (0 + 1) demo_quit = some (-1, s1) ∧ s1.m_ec = demo_quit.m_ec ∧
      s1.m_prc = demo_quit.m_prc ∧ s1.m_state = demo_quit.m_state) ∧
    (∀ (fuel2 : Nat) (t : vm_c) (r : Int) (t1 : vm_c),
      vm_c.start fuel2 t = some (r, t1) → r = -1) ∧
    (∀ (val : Nat) (rnd : List Nat) (keys : List cin_t) (files : List Nat → Option (List Nat))
      (junk : Int), (vm_c.new val rnd keys files junk).m_ec = 1) :=
  start_returns_quit_code demo_quit 0 [] (fun p h => by cases h) rfl

/-- C17 fails as stated: a machine that ran the program exiting with code 7 and is then
told to quit returns -1 from `vm_c::start()`, with `m_ec == 7`; a new machine told to quit
at once returns -1 as well, with `m_ec == 1`. -/
theorem start_returns_not_exit_code :
    (vm_c.start 10 demo_exit_quit).map (fun r => (r.1, r.2.m_ec)) = some (-1, 7) ∧
    (vm_c.start 10 demo_quit).map (fun r => (r.1, r.2.m_ec)) = some (-1, 1) := by
  decide


/-! ## division -/

theorem engine_div (s : vm_c) (b c d : Nat) :
    s.engine 0x16 b c d =
      (if imm16 c d = 0
       then some (0, { s with cerr := s.cerr ++ ["math [0 as divisor]".toList] })
       else some (1, s.set_reg b (s.reg b / imm16 c d))) ∧
    s.engine 0x17 b c d =
      (if s.reg c = 0
       then some (0, { s with cerr := s.cerr ++ ["math [0 as divisor]".toList] })
       else some (1, s.set_reg b (s.reg b / s.reg c))) := by
  constructor
  · simp only [vm_c.engine]
    simp only [Nat.reduceEqDiff, if_false, if_true, throw_if_fst, throw_if_snd]
    by_cases h : imm16 c d = 0
    · simp only [h, decide_True, if_true]
    · simp only [h, decide_False, Bool.false_eq_true, if_false]
  · simp only [vm_c.engine]
    simp only [Nat.reduceEqDiff, if_false, if_true, throw_if_fst, throw_if_snd]
    by_cases h : s.reg c = 0
    · simp only [h, decide_True, if_true]
    · simp only [h, decide_False, Bool.false_eq_true, if_false]

/-- C18: `div x,v` (0x16, divisor `(c<<8)|d`) and `div x,x` (0x17, divisor `R[c]`): with a
divisor 0 the executor reports, returns 0 and leaves every register, every memory cell and
`ec` as they were; otherwise it returns 1 after the assignment of the unsigned quotient
`floor(R[b] / divisor)` to `R[b]`, which is read back from `R[b]` and changes no other
place, no memory cell and not `ec`. -/
theorem engine_div_by_zero (s : vm_c) (b c d : Nat) (hc : c < 256) :
    (((c <<< 8) ||| d) = 0 → ∃ msg : List Char,
      s.engine 0x16 b c d = some (0, { s with cerr := s.cerr ++ [msg] })) ∧
    (((c <<< 8) ||| d) ≠ 0 →
      s.engine 0x16 b c d = some ((1 : Int), s.set_reg b (s.reg b / ((c <<< 8) ||| d)))) ∧
    (s.reg c = 0 → ∃ msg : List Char,
      s.engine 0x17 b c d = some (0, { s with cerr := s.cerr ++ [msg] })) ∧
    (s.reg c ≠ 0 → s.engine 0x17 b c d = some (1, s.set_reg b (s.reg b / s.reg c))) ∧
    (∀ v : Nat, (s.set_reg b v).reg b = v ∧
      (∀ a : Nat, core_c.get a ≠ core_c.get b → (s.set_reg b v).reg a = s.reg a) ∧
      (s.set_reg b v).m_memory = s.m_memory ∧ (s.set_reg b v).mem_ret = s.mem_ret ∧
      (s.set_reg b v).m_ec = s.m_ec) := by
  obtain ⟨h1, h2⟩ := engine_div s b c d
  rw [imm16_byte hc] at h1
  refine ⟨?_, ?_, ?_, ?_, ?_⟩
  · intro h0
    exact ⟨_, by rw [h1, if_pos h0]⟩
  · intro h0
    rw [h1, if_neg h0]
  · intro h0
    exact ⟨_, by rw [h2, if_pos h0]⟩
  · intro h0
    rw [h2, if_neg h0]
  · intro v
    exact ⟨reg_set_reg_same s b v, fun a ha => reg_set_reg_other s v ha, rfl, rfl, rfl⟩

theorem engine_div_by_zero_witness :
    (((0 <<< 8) ||| 0) = 0 → ∃ msg : List Char,
      demo_nops.engine 0x16 0 0 0 = some (0, { demo_nops with cerr := demo_nops.cerr ++ [msg] })) ∧
    (((0 <<< 8) ||| 0) ≠ 0 →
      demo_nops.engine 0x16 0 0 0
        = some ((1 : Int), demo_nops.set_reg 0 (demo_nops.reg 0 / ((0 <<< 8) ||| 0)))) ∧
    (demo_nops.reg 0 = 0 → ∃ msg : List Char,
      demo_nops.engine 0x17 0 0 0 = some (0, { demo_nops with cerr := demo_nops.cerr ++ [msg] })) ∧
    (demo_nops.reg 0 ≠ 0 →
      demo_nops.engine 0x17 0 0 0 = some (1, demo_nops.set_reg 0 (demo_nops.reg 0 / demo_nops.reg 0))) ∧
    (∀ v : Nat, (demo_nops.set_reg 0 v).reg 0 = v ∧
      (∀ a : Nat, core_c.get a ≠ core_c.get 0 → (demo_nops.set_reg 0 v).reg a = demo_nops.reg a) ∧
      (demo_nops.set_reg 0 v).m_memory = demo_nops.m_memory ∧
      (demo_nops.set_reg 0 v).mem_ret = demo_nops.mem_ret ∧
      (demo_nops.set_reg 0 v).m_ec = demo_nops.m_ec) :=
  engine_div_by_zero demo_nops 0 0 0 (by decide)

/-! ## jumps on the flags -/

/-- C20: `jit v,v` (0x08) sets `ipx` to `csx + ((b<<8)|c)` modulo 2^32 when `fx == d` and
changes nothing otherwise; `jif v,v` (0x0C) does so when `fx != d`; both return 1 and touch
no other register and no memory cell, so of the two exactly one takes the branch. -/
theorem engine_jit_jif (s : vm_c) (b c d : Nat) (hb : b < 256) :
    s.engine 0x08 b c d = some (1,
      if s.m_state.fx = d
      then { s with m_state := { s.m_state with
               ipx := (s.m_state.csx + ((b <<< 8) ||| c)) % 4294967296 } }
      else s) ∧
    s.engine 0x0C b c d = some (1,
      if s.m_state.fx = d
      then s
      else { s with m_state := { s.m_state with
               ipx := (s.m_state.csx + ((b <<< 8) ||| c)) % 4294967296 } }) := by
  constructor
  · simp only [vm_c.engine, u32_shl8 hb]
    simp only [Nat.reduceEqDiff, if_false, if_true]
    by_cases h : s.m_state.fx = d
    · rw [if_pos h, if_pos h]; rfl
    · rw [if_neg h, if_neg h]
  · simp only [vm_c.engine, u32_shl8 hb]
    simp only [Nat.reduceEqDiff, if_false, if_true]
    by_cases h : s.m_state.fx = d
    · rw [if_neg (not_not.mpr h), if_pos h]
    · rw [if_pos h, if_neg h]; rfl

theorem engine_jit_jif_witness :
    demo_nops.engine 0x08 0 8 2 = some (1,
      if demo_nops.m_state.fx = 2
      then { demo_nops with m_state := { demo_nops.m_state with
               ipx := (demo_nops.m_state.csx + ((0 <<< 8) ||| 8)) % 4294967296 } }
      else demo_nops) ∧
    demo_nops.engine 0x0C 0 8 2 = some (1,
      if demo_nops.m_state.fx = 2
      then demo_nops
      else { demo_nops with m_state := { demo_nops.m_state with
               ipx := (demo_nops.m_state.csx + ((0 <<< 8) ||| 8)) % 4294967296 } }) :=
  engine_jit_jif demo_nops 0 8 2 (by decide)


/-! ## invalid instructions -/

theorem char_of_hex_dig {k : Nat} (h : k < 16) :
    Char.ofNat (dec_val_to_hex_dig k) = upper_hex_digit k := by
  interval_cases k <;> rfl

theorem chars_to_hex {n : Nat} (h : n < 256) : chars (to_hex 1 n) = hex_pair n := by
  rw [to_hex_byte h]
  simp only [chars, hex_pair, List.map_cons, List.map_nil]
  rw [char_of_hex_dig (show n / 16 < 16 by omega), char_of_hex_dig (show n % 16 < 16 by omega)]

theorem engine_invalid (s : vm_c) (p : process_c) (a b c d : Nat) (hprc : s.m_prc = some p)
    (ha : 36 < a) :
    s.engine a b c d = some (0, { s with cerr := s.cerr ++ [invalid_msg p.id a b c d] }) := by
  unfold vm_c.engine
  rw [if_neg (show ¬ a = 0 by omega)]
  rw [if_neg (show ¬ a = 1 by omega)]
  rw [if_neg (show ¬ a = 2 by omega)]
  rw [if_neg (show ¬ a = 3 by omega)]
  rw [if_neg (show ¬ a = 4 by omega)]
  rw [if_neg (show ¬ a = 5 by omega)]
  rw [if_neg (show ¬ a = 6 by omega)]
  rw [if_neg (show ¬ a = 7 by omega)]
  rw [if_neg (show ¬ a = 8 by omega)]
  rw [if_neg (show ¬ a = 9 by omega)]
  rw [if_neg (show ¬ a = 10 by omega)]
  rw [if_neg (show ¬ a = 11 by omega)]
  rw [if_neg (show ¬ a = 12 by omega)]
  rw [if_neg (show ¬ a = 13 by omega)]
  rw [if_neg (show ¬ a = 14 by omega)]
  rw [if_neg (show ¬ a = 15 by omega)]
  rw [if_neg (show ¬ a = 16 by omega)]
  rw [if_neg (show ¬ a = 17 by omega)]
  rw [if_neg (show ¬ a = 18 by omega)]
  rw [if_neg (show ¬ a = 19 by omega)]
  rw [if_neg (show ¬ a = 20 by omega)]
  rw [if_neg (show ¬ a = 21 by omega)]
  rw [if_neg (show ¬ a = 22 by omega)]
  rw [if_neg (show ¬ a = 23 by omega)]
  rw [if_neg (show ¬ a = 24 by omega)]
  rw [if_neg (show ¬ a = 25 by omega)]
  rw [if_neg (show ¬ a = 26 by omega)]
  rw [if_neg (show ¬ a = 27 by omega)]
  rw [if_neg (show ¬ a = 28 by omega)]
  rw [if_neg (show ¬ a = 29 by omega)]
  rw [if_neg (show ¬ a = 30 by omega)]
  rw [if_neg (show ¬ a = 31 by omega)]
  rw [if_neg (show ¬ a = 32 by omega)]
  rw [if_neg (show ¬ a = 33 by omega)]
  rw [if_neg (show ¬ a = 34 by omega)]
  rw [if_neg (show ¬ a = 35 by omega)]
  rw [if_neg (show ¬ a = 36 by omega)]
  simp only [hprc, vm_c.throw_if, if_true]

/-- C19: for an opcode above 0x24 the executor returns 0, leaves every register, every
memory cell and `ec` as they were, and reports a message that contains the four bytes of
the instruction as two upper-case hexadecimal digits each, separated by single spaces. -/
theorem engine_invalid_opcode (s : vm_c) (p : process_c) (a b c d : Nat)
    (hprc : s.m_prc = some p) (ha : 0x24 < a) (ha2 : a < 256) (hb : b < 256) (hc : c < 256)
    (hd : d < 256) :
    s.engine a b c d = some (0, { s with cerr := s.cerr ++ [invalid_msg p.id a b c d] }) ∧
    (∃ pre post : List Char, invalid_msg p.id a b c d
      = pre ++ (hex_pair a ++ [' '] ++ hex_pair b ++ [' '] ++ hex_pair c ++ [' '] ++ hex_pair d)
          ++ post) := by
  refine ⟨engine_invalid s p a b c d hprc ha, ?_⟩
  refine ⟨"process (".toList ++ to_string p.id ++ ") has an invalid instruction [".toList,
    "]".toList, ?_⟩
  simp only [invalid_msg, chars_to_hex ha2, chars_to_hex hb, chars_to_hex hc, chars_to_hex hd]
  simp [List.append_assoc]

theorem engine_invalid_opcode_witness :
    (demo_running [255, 170, 187, 204] 0).engine 255 170 187 204
      = some (0, { demo_running [255, 170, 187, 204] 0 with
          cerr := (demo_running [255, 170, 187, 204] 0).cerr
            ++ [invalid_msg 41 255 170 187 204] }) ∧
    (∃ pre post : List Char, invalid_msg 41 255 170 187 204
      = pre ++ "FF AA BB CC".toList ++ post) :=
  engine_invalid_opcode (demo_running [255, 170, 187, 204] 0) (demo_process 4) 255 170 187 204
    rfl (by decide) (by decide) (by decide) (by decide) (by decide)


/-! ## flushing the register file -/

/-- C21, the code at a failing input: `core_c::flush()` on a register file with
`x[0] = 7`, `csx = 10`, `fx = 2` returns a copy of it, and the register file flushed still
holds 7, 10 and 2: moving a `uint32_t` member copies it, nothing is set to 0. -/
theorem core_flush_keeps_registers :
    ((core_c.flush demo_core).1.x 0, (core_c.flush demo_core).1.csx,
      (core_c.flush demo_core).1.fx) = (7, 10, 2) ∧
    ((core_c.flush demo_core).2.x 0, (core_c.flush demo_core).2.csx,
      (core_c.flush demo_core).2.fx) = (7, 10, 2) ∧
    (core_c.zero.x 0, core_c.zero.csx, core_c.zero.fx) = (0, 0, 0) := by
  decide

/-! ## storing and loading a byte -/

theorem engine_set_get (s : vm_c) (b c d : Nat) :
    s.engine 3 b c d = some (1, s.set_mem s.m_state.ax b) ∧
    s.engine 4 b c d = some (1, s.set_mem s.m_state.ax (u8 (s.reg b))) ∧
    s.engine 5 b c d = some (1, s.set_reg b (s.mem s.m_state.ax)) := by
  refine ⟨?_, ?_, ?_⟩
  · simp only [vm_c.engine]
    simp only [Nat.reduceEqDiff, if_false, if_true]
  · simp only [vm_c.engine]
    simp only [Nat.reduceEqDiff, if_false, if_true]
  · simp only [vm_c.engine]
    simp only [Nat.reduceEqDiff, if_false, if_true]

theorem mem_set_mem_same (s : vm_c) (i v : Nat) : (s.set_mem i v).mem i = v := by
  simp only [vm_c.mem, vm_c.set_mem]
  by_cases h : i ≥ s.m_memory.m_len
  · simp [memory_c.get, h, loc_ref.write, loc_ref.read]
  · simp [memory_c.get, h, loc_ref.write, loc_ref.read]

/-- C24: `set x` (0x04) followed by `get x` (0x05) with the same operand `b`, the memory
and `ax` being the same when the second starts as when the first ended, leaves in `R[b]`
the low 8 bits of the value `R[b]` had before the two instructions, for every register
address `b` and wherever `ax` points; and with `ax < len`, `set v` (0x03) returns 1 with
`M[ax] == b`, every other memory cell, the static cell and every register as before. -/
theorem set_get_round_trip (s t : vm_c) (b c d c2 d2 : Nat)
    (hmem : t.m_memory = (s.set_mem s.m_state.ax (u8 (s.reg b))).m_memory)
    (hret : t.mem_ret = (s.set_mem s.m_state.ax (u8 (s.reg b))).mem_ret)
    (hax : t.m_state.ax = s.m_state.ax) :
    s.engine 4 b c d = some (1, s.set_mem s.m_state.ax (u8 (s.reg b))) ∧
    (s.set_mem s.m_state.ax (u8 (s.reg b))).m_state = s.m_state ∧
    (∃ t2 : vm_c, t.engine 5 b c2 d2 = some (1, t2) ∧ t2.reg b = s.reg b % 256) ∧
    (s.m_state.ax < s.m_memory.m_len →
      ∃ s1 : vm_c, s.engine 3 b c d = some (1, s1) ∧ s1.mem s.m_state.ax = b ∧
        s1.m_memory.m_data s.m_state.ax = b ∧
        (∀ j : Nat, j ≠ s.m_state.ax → s1.m_memory.m_data j = s.m_memory.m_data j) ∧
        s1.m_memory.m_len = s.m_memory.m_len ∧ s1.mem_ret = s.mem_ret ∧
        s1.m_state = s.m_state ∧ s1.core_ret = s.core_ret) := by
  obtain ⟨e3, e4, -⟩ := engine_set_get s b c d
  obtain ⟨-, -, e5⟩ := engine_set_get t b c2 d2
  refine ⟨e4, rfl, ⟨_, e5, ?_⟩, ?_⟩
  · rw [reg_set_reg_same]
    have hm : t.mem t.m_state.ax
        = (s.set_mem s.m_state.ax (u8 (s.reg b))).mem s.m_state.ax := by
      simp only [vm_c.mem, hmem, hret, hax]
    rw [hm, mem_set_mem_same]
    rfl
  · intro hlt
    have hg : s.m_memory.get s.m_state.ax = loc_ref.cell s.m_state.ax := by
      simp only [memory_c.get, ge_iff_le]; rw [if_neg (by omega)]
    refine ⟨_, e3, mem_set_mem_same _ _ _, ?_, ?_, ?_, ?_, rfl, rfl⟩
    · simp [vm_c.set_mem, hg, loc_ref.write]
    · intro j hj
      simp [vm_c.set_mem, hg, loc_ref.write, Function.update, hj]
    · simp [vm_c.set_mem, hg, loc_ref.write]
    · simp [vm_c.set_mem, hg, loc_ref.write]

theorem set_get_round_trip_witness :
    (demo_store.reg 3 = 4660 ∧ demo_store.m_state.ax = 5 ∧ demo_store.mem 5 = 0) ∧
    demo_store.engine 4 3 0 0 = some (1, demo_store.set_mem 5 52) ∧
    (∃ t2 : vm_c, (demo_store.set_mem 5 52).engine 5 3 0 0 = some (1, t2) ∧ t2.reg 3 = 52) ∧
    (∃ s1 : vm_c, demo_store.engine 3 3 0 0 = some (1, s1) ∧ s1.mem 5 = 3 ∧
      s1.m_memory.m_data 5 = 3 ∧
      (∀ j : Nat, j ≠ 5 → s1.m_memory.m_data j = demo_store.m_memory.m_data j) ∧
      s1.m_memory.m_len = 64 ∧ s1.mem_ret = demo_store.mem_ret ∧
      s1.m_state = demo_store.m_state ∧ s1.core_ret = demo_store.core_ret) :=
  have h := set_get_round_trip demo_store (demo_store.set_mem 5 52) 3 0 0 0 0 rfl rfl rfl
  ⟨⟨by decide, rfl, by decide⟩, h.1, h.2.2.1, h.2.2.2 (by decide)⟩


/-! ## the place of the code segment -/

theorem run_request_state (s : vm_c) (file : Option (List Nat)) (p : process_c)
    (code : List Nat) (r1 r2 : Nat) (rnd : List Nat) (cin : List cin_t)
    (hload : (process_c.new 0).load file = (code, p)) (hne : code ≠ [])
    (hprc : s.m_prc = some p) (hcode : s.m_code = code)
    (hcin : s.cin = cin_t.chr 50 :: cin) (hrnd : s.rnd = r1 :: r2 :: rnd)
    (hn : code.length < s.m_memory.m_len) (hm : s.m_memory.m_len < 4294967296) :
    ∃ p1 : process_c, PRC_IS_STARTED p1 = true ∧
      p1.state.csx + code.length < s.m_memory.m_len ∧ p1.state.clx = code.length ∧
      (∀ b ∈ code, b < 256) ∧
      s.loop = some { s with
        cin := cin, m_prc := some p1, rnd := rnd, m_code := [],
        m_memory := { s.m_memory with
          m_data := fun j => if p1.state.csx ≤ j ∧ j < p1.state.csx + code.length
                             then u8 (code.getD (j - p1.state.csx) 0)
                             else s.m_memory.m_data j },
        ret := 1, m_state := { p1.state with ipx := p1.state.csx },
        mx_ip := u32 (p1.state.csx + p1.state.clx) } := by
  have hl1 : ((process_c.new 0).load file).1 = code := by rw [hload]
  have hl2 : ((process_c.new 0).load file).2 = p := by rw [hload]
  have hnz := load_nonempty (process_c.new 0) file (by rw [hl1]; exact hne)
  rw [hl1, hl2] at hnz
  have hu : u32 code.length = code.length := by unfold u32; omega
  have hp : p = { process_c.new 0 with state := { core_c.zero with clx := code.length } } := by
    rw [hnz.2, hu]; rfl
  have hbytes : ∀ b ∈ code, b < 256 := by rw [hnz.1]; exact load_bytes _
  obtain ⟨p1, hs, -, hq, hlt, hst⟩ :=
    process_start_some p r1 r2 (s.m_memory.m_len - code.length) s.m_memory.m_len (by omega)
  have hclx : p1.state.clx = p.state.clx := by rw [hq]
  have hpc : p.state.clx = code.length := by rw [hp]
  have hinfo : PRC_IS_STARTED p = false := by rw [hp]; simp [PRC_IS_STARTED, process_c.new]
  have hloop := idle_at_run s p p1 r1 r2 rnd cin hprc hinfo hcin hrnd (by rw [hcode]; exact hpc)
    (by rw [hcode]; exact hn) hm (by rw [hcode]; exact hs)
  rw [hcode] at hloop
  exact ⟨p1, hst, by omega, by rw [hclx, hpc], hbytes, hloop⟩

/-- C25: for a loaded program of `n` bytes, `0 < n <` memory length, and every result of
the calls of `rand()`, the RUN request places the code inside the memory: `csx + clx` is
at most the memory length and below 2^32, every index `csx + i`, `i < n`, is an in-range
cell that holds code byte `i` afterwards, and the static cell of the out-of-range accesses
is not written. -/
theorem code_segment_in_memory (s : vm_c) (file : Option (List Nat)) (p : process_c)
    (code : List Nat) (r1 r2 : Nat) (rnd : List Nat) (cin : List cin_t)
    (hload : (process_c.new 0).load file = (code, p)) (hne : code ≠ [])
    (hprc : s.m_prc = some p) (hcode : s.m_code = code)
    (hcin : s.cin = cin_t.chr 50 :: cin) (hrnd : s.rnd = r1 :: r2 :: rnd)
    (hn : code.length < s.m_memory.m_len) (hm : s.m_memory.m_len < 4294967296) :
    ∃ s1 : vm_c, s.loop = some s1 ∧
      s1.m_state.clx = code.length ∧ s1.m_memory.m_len = s.m_memory.m_len ∧
      s1.m_state.csx + s1.m_state.clx ≤ s1.m_memory.m_len ∧
      s1.m_state.csx + s1.m_state.clx < 4294967296 ∧
      (∀ i, i < code.length →
        s1.m_memory.get (u32 (s1.m_state.csx + i)) = loc_ref.cell (s1.m_state.csx + i) ∧
        s1.m_memory.m_data (s1.m_state.csx + i) = code.getD i 0) ∧
      s1.mem_ret = s.mem_ret := by
  obtain ⟨p1, -, hlt, hclx, hbytes, hloop⟩ :=
    run_request_state s file p code r1 r2 rnd cin hload hne hprc hcode hcin hrnd hn hm
  refine ⟨_, hloop, hclx, rfl, ?_, ?_, ?_, rfl⟩
  · show p1.state.csx + p1.state.clx ≤ s.m_memory.m_len
    omega
  · show p1.state.csx + p1.state.clx < 4294967296
    omega
  · intro i hi
    have hu : u32 (p1.state.csx + i) = p1.state.csx + i := by
      simp only [u32]; omega
    have hb : code.getD i 0 < 256 := by
      rw [List.getD_eq_getElem?_getD, List.getElem?_eq_getElem hi]
      exact hbytes _ (List.getElem_mem hi)
    constructor
    · show memory_c.get _ (u32 (p1.state.csx + i)) = _
      rw [hu]
      simp only [memory_c.get, ge_iff_le]
      rw [if_neg (by omega)]
    · show (if p1.state.csx ≤ p1.state.csx + i ∧ p1.state.csx + i < p1.state.csx + code.length
          then u8 (code.getD (p1.state.csx + i - p1.state.csx) 0)
          else s.m_memory.m_data (p1.state.csx + i)) = _
      rw [if_pos (by omega), Nat.add_sub_cancel_left]
      exact Nat.mod_eq_of_lt hb

theorem code_segment_in_memory_witness :
    ∃ s1 : vm_c, demo_loaded.loop = some s1 ∧
      s1.m_state.clx = ((process_c.new 0).load (some exit7_sx)).1.length ∧
      s1.m_memory.m_len = demo_loaded.m_memory.m_len ∧
      s1.m_state.csx + s1.m_state.clx ≤ s1.m_memory.m_len ∧
      s1.m_state.csx + s1.m_state.clx < 4294967296 ∧
      (∀ i, i < ((process_c.new 0).load (some exit7_sx)).1.length →
        s1.m_memory.get (u32 (s1.m_state.csx + i)) = loc_ref.cell (s1.m_state.csx + i) ∧
        s1.m_memory.m_data (s1.m_state.csx + i)
          = ((process_c.new 0).load (some exit7_sx)).1.getD i 0) ∧
      s1.mem_ret = demo_loaded.mem_ret :=
  code_segment_in_memory demo_loaded (some exit7_sx)
    ((process_c.new 0).load (some exit7_sx)).2 ((process_c.new 0).load (some exit7_sx)).1
    41 18467 [] [] rfl (by decide) rfl rfl rfl rfl (by decide) (by decide)


/-! ## the value returned by the executor -/

theorem execute_ret (s : vm_c) (val : Nat) (r : Int) (s1 : vm_c)
    (h : s.execute val = some (r, s1)) :
    (val = 1 ∧ (s.m_state.sx = 1 ∨ s.m_state.sx = 2) → r = 0) ∧
    (¬ (val = 1 ∧ (s.m_state.sx = 1 ∨ s.m_state.sx = 2)) → r = s.junk) := by
  unfold vm_c.execute at h
  split_ifs at h
  · simp only [Option.some.injEq, Prod.mk.injEq] at h
    exact ⟨fun _ => h.1.symm, fun hn => by exfalso; tauto⟩
  · cases hp : s.m_prc with
    | none => simp [hp] at h
    | some p =>
      simp only [hp, Option.some.injEq, Prod.mk.injEq] at h
      exact ⟨fun _ => h.1.symm, fun hn => by exfalso; tauto⟩
  · simp only [Option.some.injEq, Prod.mk.injEq] at h
    exact ⟨fun hy => by exfalso; tauto, fun _ => h.1.symm⟩
  · split at h
    · simp only [Option.some.injEq, Prod.mk.injEq] at h
      exact ⟨fun hy => by exfalso; tauto, fun _ => h.1.symm⟩
    · simp at h
  · split at h
    · simp only [Option.some.injEq, Prod.mk.injEq] at h
      exact ⟨fun hy => by exfalso; tauto, fun _ => h.1.symm⟩
    · simp at h
  · split at h
    · simp only [Option.some.injEq, Prod.mk.injEq] at h
      exact ⟨fun hy => by exfalso; tauto, fun _ => h.1.symm⟩
    · simp at h
  · simp only [Option.some.injEq, Prod.mk.injEq] at h
    exact ⟨fun hy => by exfalso; tauto, fun _ => h.1.symm⟩
  · simp only [Option.some.injEq, Prod.mk.injEq] at h
    exact ⟨fun hy => by exfalso; tauto, fun _ => h.1.symm⟩

theorem execute_none (s : vm_c) (val : Nat) (p : process_c) (hprc : s.m_prc = some p)
    (h : s.execute val = none) :
    val = 2 ∧ 6 ≤ s.m_state.sx ∧ s.m_state.sx ≤ 10 := by
  unfold vm_c.execute at h
  split_ifs at h with h1 h2 h3 h4 h5 h6 h7
  · simp [hprc] at h
  · exact ⟨h4, by omega, by omega⟩
  · exact ⟨h4, by omega, by omega⟩
  · exact ⟨h4, by omega, by omega⟩


theorem engine_ret (s : vm_c) (a b c d : Nat) (r : Int) (s1 : vm_c)
    (h : s.engine a b c d = some (r, s1)) :
    (a ≤ 36 → a ≠ 6 → a ≠ 7 → a ≠ 22 → a ≠ 23 → r = 1) ∧ (36 < a → r = 0) := by
  unfold vm_c.engine at h
  by_cases h0 : a = 0
  on_goal 1 => rw [if_pos h0] at h
  on_goal 2 => rw [if_neg h0] at h
  rotate_left
  by_cases h1 : a = 1
  on_goal 1 => rw [if_pos h1] at h
  on_goal 2 => rw [if_neg h1] at h
  rotate_left
  by_cases h2 : a = 2
  on_goal 1 => rw [if_pos h2] at h
  on_goal 2 => rw [if_neg h2] at h
  rotate_left
  by_cases h3 : a = 3
  on_goal 1 => rw [if_pos h3] at h
  on_goal 2 => rw [if_neg h3] at h
  rotate_left
  by_cases h4 : a = 4
  on_goal 1 => rw [if_pos h4] at h
  on_goal 2 => rw [if_neg h4] at h
  rotate_left
  by_cases h5 : a = 5
  on_goal 1 => rw [if_pos h5] at h
  on_goal 2 => rw [if_neg h5] at h
  rotate_left
  by_cases h6 : a = 6
  on_goal 1 => rw [if_pos h6] at h
  on_goal 2 => rw [if_neg h6] at h
  rotate_left
  by_cases h7 : a = 7
  on_goal 1 => rw [if_pos h7] at h
  on_goal 2 => rw [if_neg h7] at h
  rotate_left
  by_cases h8 : a = 8
  on_goal 1 => rw [if_pos h8] at h
  on_goal 2 => rw [if_neg h8] at h
  rotate_left
  by_cases h9 : a = 9
  on_goal 1 => rw [if_pos h9] at h
  on_goal 2 => rw [if_neg h9] at h
  rotate_left
  by_cases h10 : a = 10
  on_goal 1 => rw [if_pos h10] at h
  on_goal 2 => rw [if_neg h10] at h
  rotate_left
  by_cases h11 : a = 11
  on_goal 1 => rw [if_pos h11] at h
  on_goal 2 => rw [if_neg h11] at h
  rotate_left
  by_cases h12 : a = 12
  on_goal 1 => rw [if_pos h12] at h
  on_goal 2 => rw [if_neg h12] at h
  rotate_left
  by_cases h13 : a = 13
  on_goal 1 => rw [if_pos h13] at h
  on_goal 2 => rw [if_neg h13] at h
  rotate_left
  by_cases h14 : a = 14
  on_goal 1 => rw [if_pos h14] at h
  on_goal 2 => rw [if_neg h14] at h
  rotate_left
  by_cases h15 : a = 15
  on_goal 1 => rw [if_pos h15] at h
  on_goal 2 => rw [if_neg h15] at h
  rotate_left
  by_cases h16 : a = 16
  on_goal 1 => rw [if_pos h16] at h
  on_goal 2 => rw [if_neg h16] at h
  rotate_left
  by_cases h17 : a = 17
  on_goal 1 => rw [if_pos h17] at h
  on_goal 2 => rw [if_neg h17] at h
  rotate_left
  by_cases h18 : a = 18
  on_goal 1 => rw [if_pos h18] at h
  on_goal 2 => rw [if_neg h18] at h
  rotate_left
  by_cases h19 : a = 19
  on_goal 1 => rw [if_pos h19] at h
  on_goal 2 => rw [if_neg h19] at h
  rotate_left
  by_cases h20 : a = 20
  on_goal 1 => rw [if_pos h20] at h
  on_goal 2 => rw [if_neg h20] at h
  rotate_left
  by_cases h21 : a = 21
  on_goal 1 => rw [if_pos h21] at h
  on_goal 2 => rw [if_neg h21] at h
  rotate_left
  by_cases h22 : a = 22
  on_goal 1 => rw [if_pos h22] at h
  on_goal 2 => rw [if_neg h22] at h
  rotate_left
  by_cases h23 : a = 23
  on_goal 1 => rw [if_pos h23] at h
  on_goal 2 => rw [if_neg h23] at h
  rotate_left
  by_cases h24 : a = 24
  on_goal 1 => rw [if_pos h24] at h
  on_goal 2 => rw [if_neg h24] at h
  rotate_left
  by_cases h25 : a = 25
  on_goal 1 => rw [if_pos h25] at h
  on_goal 2 => rw [if_neg h25] at h
  rotate_left
  by_cases h26 : a = 26
  on_goal 1 => rw [if_pos h26] at h
  on_goal 2 => rw [if_neg h26] at h
  rotate_left
  by_cases h27 : a = 27
  on_goal 1 => rw [if_pos h27] at h
  on_goal 2 => rw [if_neg h27] at h
  rotate_left
  by_cases h28 : a = 28
  on_goal 1 => rw [if_pos h28] at h
  on_goal 2 => rw [if_neg h28] at h
  rotate_left
  by_cases h29 : a = 29
  on_goal 1 => rw [if_pos h29] at h
  on_goal 2 => rw [if_neg h29] at h
  rotate_left
  by_cases h30 : a = 30
  on_goal 1 => rw [if_pos h30] at h
  on_goal 2 => rw [if_neg h30] at h
  rotate_left
  by_cases h31 : a = 31
  on_goal 1 => rw [if_pos h31] at h
  on_goal 2 => rw [if_neg h31] at h
  rotate_left
  by_cases h32 : a = 32
  on_goal 1 => rw [if_pos h32] at h
  on_goal 2 => rw [if_neg h32] at h
  rotate_left
  by_cases h33 : a = 33
  on_goal 1 => rw [if_pos h33] at h
  on_goal 2 => rw [if_neg h33] at h
  rotate_left
  by_cases h34 : a = 34
  on_goal 1 => rw [if_pos h34] at h
  on_goal 2 => rw [if_neg h34] at h
  rotate_left
  by_cases h35 : a = 35
  on_goal 1 => rw [if_pos h35] at h
  on_goal 2 => rw [if_neg h35] at h
  rotate_left
  by_cases h36 : a = 36
  on_goal 1 => rw [if_pos h36] at h
  on_goal 2 => rw [if_neg h36] at h
  rotate_left
  all_goals first
    | (refine ⟨fun _ n6 n7 n22 n23 => ?_, fun h36 => ?_⟩ <;> omega)
    | (refine ⟨fun _ _ _ _ _ => ?_, fun h36 => by omega⟩
       simp only [Option.some.injEq, Prod.mk.injEq] at h
       exact h.1.symm)
    | (refine ⟨fun _ _ _ _ _ => ?_, fun h36 => by omega⟩
       dsimp only at h
       split_ifs at h
       all_goals first
         | (simp only [Option.some.injEq, Prod.mk.injEq] at h
            exact h.1.symm)
         | (simp only [Option.map_eq_some', Prod.mk.injEq] at h
            obtain ⟨_, _, h1, _⟩ := h
            exact h1.symm))
    | (refine ⟨fun h36 => by omega, fun _ => ?_⟩
       cases hp : s.m_prc with
       | none => simp [hp] at h
       | some p =>
         simp only [hp, Option.some.injEq, Prod.mk.injEq] at h
         exact h.1.symm)

theorem engine_none (s : vm_c) (a b c d : Nat) (p : process_c) (hprc : s.m_prc = some p)
    (h : s.engine a b c d = none) :
    ((a = 1 ∨ a = 2) ∧ b = 21) ∨
    ((a = 6 ∧ imm24 b c d = 2 ∨ a = 7 ∧ s.reg b = 2) ∧ 6 ≤ s.m_state.sx ∧ s.m_state.sx ≤ 10) := by
  unfold vm_c.engine at h
  by_cases h0 : a = 0
  on_goal 1 => rw [if_pos h0] at h
  on_goal 2 => rw [if_neg h0] at h
  rotate_left
  by_cases h1 : a = 1
  on_goal 1 => rw [if_pos h1] at h
  on_goal 2 => rw [if_neg h1] at h
  rotate_left
  by_cases h2 : a = 2
  on_goal 1 => rw [if_pos h2] at h
  on_goal 2 => rw [if_neg h2] at h
  rotate_left
  by_cases h3 : a = 3
  on_goal 1 => rw [if_pos h3] at h
  on_goal 2 => rw [if_neg h3] at h
  rotate_left
  by_cases h4 : a = 4
  on_goal 1 => rw [if_pos h4] at h
  on_goal 2 => rw [if_neg h4] at h
  rotate_left
  by_cases h5 : a = 5
  on_goal 1 => rw [if_pos h5] at h
  on_goal 2 => rw [if_neg h5] at h
  rotate_left
  by_cases h6 : a = 6
  on_goal 1 => rw [if_pos h6] at h
  on_goal 2 => rw [if_neg h6] at h
  rotate_left
  by_cases h7 : a = 7
  on_goal 1 => rw [if_pos h7] at h
  on_goal 2 => rw [if_neg h7] at h
  rotate_left
  by_cases h8 : a = 8
  on_goal 1 => rw [if_pos h8] at h
  on_goal 2 => rw [if_neg h8] at h
  rotate_left
  by_cases h9 : a = 9
  on_goal 1 => rw [if_pos h9] at h
  on_goal 2 => rw [if_neg h9] at h
  rotate_left
  by_cases h10 : a = 10
  on_goal 1 => rw [if_pos h10] at h
  on_goal 2 => rw [if_neg h10] at h
  rotate_left
  by_cases h11 : a = 11
  on_goal 1 => rw [if_pos h11] at h
  on_goal 2 => rw [if_neg h11] at h
  rotate_left
  by_cases h12 : a = 12
  on_goal 1 => rw [if_pos h12] at h
  on_goal 2 => rw [if_neg h12] at h
  rotate_left
  by_cases h13 : a = 13
  on_goal 1 => rw [if_pos h13] at h
  on_goal 2 => rw [if_neg h13] at h
  rotate_left
  by_cases h14 : a = 14
  on_goal 1 => rw [if_pos h14] at h
  on_goal 2 => rw [if_neg h14] at h
  rotate_left
  by_cases h15 : a = 15
  on_goal 1 => rw [if_pos h15] at h
  on_goal 2 => rw [if_neg h15] at h
  rotate_left
  by_cases h16 : a = 16
  on_goal 1 => rw [if_pos h16] at h
  on_goal 2 => rw [if_neg h16] at h
  rotate_left
  by_cases h17 : a = 17
  on_goal 1 => rw [if_pos h17] at h
  on_goal 2 => rw [if_neg h17] at h
  rotate_left
  by_cases h18 : a = 18
  on_goal 1 => rw [if_pos h18] at h
  on_goal 2 => rw [if_neg h18] at h
  rotate_left
  by_cases h19 : a = 19
  on_goal 1 => rw [if_pos h19] at h
  on_goal 2 => rw [if_neg h19] at h
  rotate_left
  by_cases h20 : a = 20
  on_goal 1 => rw [if_pos h20] at h
  on_goal 2 => rw [if_neg h20] at h
  rotate_left
  by_cases h21 : a = 21
  on_goal 1 => rw [if_pos h21] at h
  on_goal 2 => rw [if_neg h21] at h
  rotate_left
  by_cases h22 : a = 22
  on_goal 1 => rw [if_pos h22] at h
  on_goal 2 => rw [if_neg h22] at h
  rotate_left
  by_cases h23 : a = 23
  on_goal 1 => rw [if_pos h23] at h
  on_goal 2 => rw [if_neg h23] at h
  rotate_left
  by_cases h24 : a = 24
  on_goal 1 => rw [if_pos h24] at h
  on_goal 2 => rw [if_neg h24] at h
  rotate_left
  by_cases h25 : a = 25
  on_goal 1 => rw [if_pos h25] at h
  on_goal 2 => rw [if_neg h25] at h
  rotate_left
  by_cases h26 : a = 26
  on_goal 1 => rw [if_pos h26] at h
  on_goal 2 => rw [if_neg h26] at h
  rotate_left
  by_cases h27 : a = 27
  on_goal 1 => rw [if_pos h27] at h
  on_goal 2 => rw [if_neg h27] at h
  rotate_left
  by_cases h28 : a = 28
  on_goal 1 => rw [if_pos h28] at h
  on_goal 2 => rw [if_neg h28] at h
  rotate_left
  by_cases h29 : a = 29
  on_goal 1 => rw [if_pos h29] at h
  on_goal 2 => rw [if_neg h29] at h
  rotate_left
  by_cases h30 : a = 30
  on_goal 1 => rw [if_pos h30] at h
  on_goal 2 => rw [if_neg h30] at h
  rotate_left
  by_cases h31 : a = 31
  on_goal 1 => rw [if_pos h31] at h
  on_goal 2 => rw [if_neg h31] at h
  rotate_left
  by_cases h32 : a = 32
  on_goal 1 => rw [if_pos h32] at h
  on_goal 2 => rw [if_neg h32] at h
  rotate_left
  by_cases h33 : a = 33
  on_goal 1 => rw [if_pos h33] at h
  on_goal 2 => rw [if_neg h33] at h
  rotate_left
  by_cases h34 : a = 34
  on_goal 1 => rw [if_pos h34] at h
  on_goal 2 => rw [if_neg h34] at h
  rotate_left
  by_cases h35 : a = 35
  on_goal 1 => rw [if_pos h35] at h
  on_goal 2 => rw [if_neg h35] at h
  rotate_left
  by_cases h36 : a = 36
  on_goal 1 => rw [if_pos h36] at h
  on_goal 2 => rw [if_neg h36] at h
  rotate_left
  all_goals first
    | (simp only [reduceCtorEq] at h
       done)
    | (have hx := execute_none s _ p hprc h
       exact Or.inr ⟨by tauto, hx.2.1, hx.2.2⟩)
    | (split_ifs at h with hb
       exact Or.inl ⟨by omega, hb⟩)
    | (dsimp only at h
       split_ifs at h)
    | (simp only [hprc, reduceCtorEq] at h)


/-- C23: with the value read for the missing return of the trap dispatcher being
non-zero, the executor, when it returns, returns 0 exactly when the opcode is above 0x24,
or is 0x16 with `(c<<8)|d == 0`, or is 0x17 with `R[c] == 0`, or is a trap (0x06 with
number `(b<<16)|(c<<8)|d`, 0x07 with number `R[b]`) of number 1 with `sx` 1 or 2; in every
other case it returns a non-zero value.  It returns in every case but two: `ldx` to `slx`,
whose loop waits for a fitting `rand()`, and the input services (`sx` 6 to 10) of trap 2,
which wait for input. -/
theorem engine_zero_iff (s : vm_c) (p : process_c) (a b c d : Nat) (hprc : s.m_prc = some p)
    (hb : b < 256) (hc : c < 256) (hjunk : s.junk ≠ 0) :
    (∀ (r : Int) (s1 : vm_c), s.engine a b c d = some (r, s1) →
      (r = 0 ↔
        (0x24 < a ∨ (a = 0x16 ∧ ((c <<< 8) ||| d) = 0) ∨ (a = 0x17 ∧ s.reg c = 0) ∨
          (((a = 0x06 ∧ ((b <<< 16) ||| (c <<< 8) ||| d) = 1) ∨ (a = 0x07 ∧ s.reg b = 1)) ∧
            (s.m_state.sx = 1 ∨ s.m_state.sx = 2))))) ∧
    (s.engine a b c d = none →
      ((a = 0x01 ∨ a = 0x02) ∧ b = 21) ∨
      (((a = 0x06 ∧ ((b <<< 16) ||| (c <<< 8) ||| d) = 2) ∨ (a = 0x07 ∧ s.reg b = 2)) ∧
        6 ≤ s.m_state.sx ∧ s.m_state.sx ≤ 10)) := by
  constructor
  · intro r s1 h
    by_cases h6 : a = 6
    · subst h6
      rw [(engine_exc s b c d).1, imm24_byte hb hc] at h
      obtain ⟨e1, e2⟩ := execute_ret s _ r s1 h
      constructor
      · intro hr
        by_contra hn
        have := e2 (fun hy => hn (by right; right; right; exact ⟨Or.inl ⟨rfl, hy.1⟩, hy.2⟩))
        rw [hr] at this
        exact hjunk this.symm
      · intro hC
        apply e1
        rcases hC with h | h | h | ⟨h | h, hs⟩
        · omega
        · omega
        · omega
        · exact ⟨h.2, hs⟩
        · omega
    · by_cases h7 : a = 7
      · subst h7
        rw [(engine_exc s b c d).2] at h
        obtain ⟨e1, e2⟩ := execute_ret s _ r s1 h
        constructor
        · intro hr
          by_contra hn
          have := e2 (fun hy => hn (by right; right; right; exact ⟨Or.inr ⟨rfl, hy.1⟩, hy.2⟩))
          rw [hr] at this
          exact hjunk this.symm
        · intro hC
          apply e1
          rcases hC with h | h | h | ⟨h | h, hs⟩
          · omega
          · omega
          · omega
          · omega
          · exact ⟨h.2, hs⟩
      · by_cases h22 : a = 22
        · subst h22
          rw [(engine_div s b c d).1, imm16_byte hc] at h
          by_cases h0 : (c <<< 8) ||| d = 0
          · rw [if_pos h0] at h
            simp only [Option.some.injEq, Prod.mk.injEq] at h
            exact ⟨fun _ => Or.inr (Or.inl ⟨rfl, h0⟩), fun _ => h.1.symm⟩
          · rw [if_neg h0] at h
            simp only [Option.some.injEq, Prod.mk.injEq] at h
            constructor
            · intro hr
              rw [← h.1] at hr
              exact absurd hr (by decide)
            · intro hC
              rcases hC with h | h | h | ⟨h | h, -⟩
              · omega
              · exact absurd h.2 h0
              · omega
              · omega
              · omega
        · by_cases h23 : a = 23
          · subst h23
            rw [(engine_div s b c d).2] at h
            by_cases h0 : s.reg c = 0
            · rw [if_pos h0] at h
              simp only [Option.some.injEq, Prod.mk.injEq] at h
              exact ⟨fun _ => Or.inr (Or.inr (Or.inl ⟨rfl, h0⟩)), fun _ => h.1.symm⟩
            · rw [if_neg h0] at h
              simp only [Option.some.injEq, Prod.mk.injEq] at h
              constructor
              · intro hr
                rw [← h.1] at hr
                exact absurd hr (by decide)
              · intro hC
                rcases hC with h | h | h | ⟨h | h, -⟩
                · omega
                · omega
                · exact absurd h.2 h0
                · omega
                · omega
          · obtain ⟨e1, e2⟩ := engine_ret s a b c d r s1 h
            by_cases h36 : 36 < a
            · exact ⟨fun _ => Or.inl h36, fun _ => e2 h36⟩
            · have hr1 := e1 (by omega) h6 h7 h22 h23
              constructor
              · intro hr
                rw [hr1] at hr
                exact absurd hr (by decide)
              · intro hC
                rcases hC with h | h | h | ⟨h | h, -⟩ <;> omega
  · intro h
    rcases engine_none s a b c d p hprc h with h1 | ⟨h1, h2⟩
    · exact Or.inl h1
    · rw [imm24_byte hb hc] at h1
      exact Or.inr ⟨h1, h2⟩

theorem engine_zero_iff_witness :
    (∀ (r : Int) (s1 : vm_c), demo_nops.engine 6 0 0 2 = some (r, s1) →
      (r = 0 ↔
        (0x24 < 6 ∨ (6 = 0x16 ∧ ((0 <<< 8) ||| 2) = 0) ∨ (6 = 0x17 ∧ demo_nops.reg 0 = 0) ∨
          (((6 = 0x06 ∧ ((0 <<< 16) ||| (0 <<< 8) ||| 2) = 1) ∨ (6 = 0x07 ∧ demo_nops.reg 0 = 1)) ∧
            (demo_nops.m_state.sx = 1 ∨ demo_nops.m_state.sx = 2))))) ∧
    (demo_nops.engine 6 0 0 2 = none →
      ((6 = 0x01 ∨ 6 = 0x02) ∧ 0 = 21) ∨
      (((6 = 0x06 ∧ ((0 <<< 16) ||| (0 <<< 8) ||| 2) = 2) ∨ (6 = 0x07 ∧ demo_nops.reg 0 = 2)) ∧
        6 ≤ demo_nops.m_state.sx ∧ demo_nops.m_state.sx ≤ 10)) :=
  engine_zero_iff demo_nops (demo_process 8) 6 0 0 2 rfl (by decide) (by decide) (by decide)


/-! ## the instruction pointer at a fetch -/

theorem view_frame (s : vm_c) (val : Nat) (r : Int) (s3 : vm_c) (h : s.view val = some (r, s3)) :
    s3.mx_ip = s.mx_ip ∧ s3.m_prc = s.m_prc := by
  unfold vm_c.view at h
  split_ifs at h
  · split at h
    · split_ifs at h
      all_goals
        simp only [Option.some.injEq, Prod.mk.injEq] at h
        obtain ⟨-, rfl⟩ := h
        exact ⟨rfl, rfl⟩
    · simp at h
  · simp only [Option.some.injEq, Prod.mk.injEq] at h
    obtain ⟨-, rfl⟩ := h
    exact ⟨rfl, rfl⟩

theorem running_frame (s : vm_c) (p : process_c) (s2 : vm_c) (hprc : s.m_prc = some p)
    (h : s.running p = some s2) :
    s2.mx_ip = s.mx_ip ∧ (s2.m_prc = some p ∨ s2.m_prc = none) := by
  unfold vm_c.running at h
  split_ifs at h with hip
  · cases he : s.engine (s.mem s.m_state.ipx) (s.mem (u32 (s.m_state.ipx + 1)))
        (s.mem (u32 (s.m_state.ipx + 2))) (s.mem (u32 (s.m_state.ipx + 3))) with
    | none => simp [he] at h
    | some q =>
      obtain ⟨r, s1⟩ := q
      obtain ⟨hmx, -, hp1⟩ := engine_frame _ _ _ _ _ _ _ he
      simp only [he] at h
      split_ifs at h with hd h0
      · cases hv : vm_c.view { s1 with m_state := { s1.m_state with
            ipx := u32 (s1.m_state.ipx + 4) } } s1.dbg with
        | none => simp [hv] at h
        | some q2 =>
          obtain ⟨r1, s3⟩ := q2
          obtain ⟨hmx3, hp3⟩ := view_frame _ _ _ _ hv
          simp only [hv] at h
          split_ifs at h with h1
          · simp only [Option.some.injEq] at h
            subst h
            exact ⟨by show s3.mx_ip = s.mx_ip; rw [hmx3]; exact hmx, Or.inr rfl⟩
          · simp only [Option.some.injEq] at h
            subst h
            exact ⟨by show s3.mx_ip = s.mx_ip; rw [hmx3]; exact hmx,
              Or.inl (by show s3.m_prc = some p; rw [hp3]; show s1.m_prc = some p; rw [hp1, hprc])⟩
      · simp only [Option.some.injEq] at h
        subst h
        exact ⟨hmx, Or.inr rfl⟩
      · simp only [Option.some.injEq] at h
        subst h
        exact ⟨hmx, Or.inl (by show s1.m_prc = some p; rw [hp1, hprc])⟩
  · simp only [Option.some.injEq] at h
    subst h
    exact ⟨rfl, Or.inr rfl⟩


theorem turns_keep_sentinel : ∀ (n : Nat) (s : vm_c) (p : process_c) (s2 : vm_c),
    s.m_prc = some p → PRC_IS_STARTED p = true → vm_c.turns n s = some s2 →
    (∀ (k : Nat) (sk : vm_c), k ≤ n → vm_c.turns k s = some sk → sk.m_prc ≠ none) →
    s2.mx_ip = s.mx_ip ∧ s2.m_prc = some p
  | 0, s, p, s2, hprc, _, h, _ => by
    simp only [vm_c.turns, Option.some.injEq] at h
    subst h
    exact ⟨rfl, hprc⟩
  | n + 1, s, p, s2, hprc, hst, h, hall => by
    simp only [vm_c.turns] at h
    cases hl : s.loop with
    | none => simp [hl] at h
    | some s1 =>
      simp only [hl] at h
      split_ifs at h with hr
      have h1 : vm_c.turns 1 s = some s1 := by
        simp only [vm_c.turns, hl, hr, if_false]
      rw [running_eq s p hprc hst] at hl
      obtain ⟨hmx, hp1⟩ := running_frame s p s1 hprc hl
      have hp1 : s1.m_prc = some p := by
        rcases hp1 with hp | hp
        · exact hp
        · exact absurd hp (hall 1 s1 (by omega) h1)
      have hall1 : ∀ (k : Nat) (sk : vm_c), k ≤ n → vm_c.turns k s1 = some sk →
          sk.m_prc ≠ none := by
        intro k sk hk htk
        apply hall (k + 1) sk (by omega)
        rw [vm_c.turns, running_eq s p hprc hst, hl]
        simp only [hr, if_false]
        exact htk
      obtain ⟨e1, e2⟩ := turns_keep_sentinel n s1 p s2 hp1 hst h hall1
      exact ⟨by rw [e1, hmx], e2⟩

theorem fetch_turn (s : vm_c) (p : process_c) (r : Int) (s1 : vm_c)
    (hprc : s.m_prc = some p) (hst : PRC_IS_STARTED p = true) (hip : s.m_state.ipx < s.mx_ip)
    (he : s.engine (s.mem s.m_state.ipx) (s.mem (u32 (s.m_state.ipx + 1)))
        (s.mem (u32 (s.m_state.ipx + 2))) (s.mem (u32 (s.m_state.ipx + 3))) = some (r, s1))
    (hkey : s1.dbg = 4 → ∃ k cin, s1.cin = cin_t.chr k :: cin) :
    ∃ s2 : vm_c, s.loop = some s2 ∧
      s2.m_state = { s1.m_state with ipx := u32 (s1.m_state.ipx + 4) } := by
  by_cases hd : s1.dbg = 0
  · have ht := running_turn s p r s1 hprc hst hip he hd
    by_cases hr : r = 0
    · rw [if_pos hr] at ht
      exact ⟨_, ht, rfl⟩
    · rw [if_neg hr] at ht
      exact ⟨_, ht, rfl⟩
  · rw [running_eq s p hprc hst]
    obtain ⟨r1, s3, hv, hm, -⟩ := view_some
      { s1 with m_state := { s1.m_state with ipx := u32 (s1.m_state.ipx + 4) } } hkey
    by_cases hr : r1 = 0
    · refine ⟨{ s3.close p with ret := r1 }, ?_, hm⟩
      simp only [vm_c.running, hip, if_true, he, ne_eq, hd, not_false_eq_true]
      rw [hv]
      simp only [hr, if_true]
    · refine ⟨{ s3 with ret := r1 }, ?_, hm⟩
      simp only [vm_c.running, hip, if_true, he, ne_eq, hd, not_false_eq_true]
      rw [hv]
      simp only [hr, if_false]

/-- C22, as the code has it: when a loaded program is run, the first fetch finds
`csx <= ipx < csx + clx`, and `mx_ip` is set to that `csx + clx`.  At every later turn of
the same process `mx_ip` still has that value, and the turn of the driver fetches exactly
when `ipx` is below it: with `ipx >= mx_ip` the turn only closes the process, without
calling the executor (registers, memory and exit code stay as they are); with
`ipx < mx_ip` the turn is the call of the executor on the four bytes at `ipx` (no result
if the executor has none, else `ipx` is what the executor left plus 4).  So at each fetch
`ipx` is below the `csx + clx` of the start of the process; the live `csx` and `clx`, and
a lower bound of `ipx`, are not looked at. -/
theorem fetch_below_sentinel (s : vm_c) (file : Option (List Nat)) (p : process_c)
    (code : List Nat) (r1 r2 : Nat) (rnd : List Nat) (cin : List cin_t)
    (hload : (process_c.new 0).load file = (code, p)) (hne : code ≠ [])
    (hprc : s.m_prc = some p) (hcode : s.m_code = code)
    (hcin : s.cin = cin_t.chr 50 :: cin) (hrnd : s.rnd = r1 :: r2 :: rnd)
    (hn : code.length < s.m_memory.m_len) (hm : s.m_memory.m_len < 4294967296) :
    ∃ (s1 : vm_c) (p1 : process_c), s.loop = some s1 ∧
      s1.m_prc = some p1 ∧ PRC_IS_STARTED p1 = true ∧
      s1.m_state.csx ≤ s1.m_state.ipx ∧ s1.m_state.ipx < s1.m_state.csx + s1.m_state.clx ∧
      s1.mx_ip = s1.m_state.csx + s1.m_state.clx ∧
      (∀ (n : Nat) (s2 : vm_c), vm_c.turns n s1 = some s2 →
        (∀ (k : Nat) (sk : vm_c), k ≤ n → vm_c.turns k s1 = some sk → sk.m_prc ≠ none) →
        s2.mx_ip = s1.m_state.csx + s1.m_state.clx ∧ s2.m_prc = some p1 ∧
        (s1.m_state.csx + s1.m_state.clx ≤ s2.m_state.ipx →
          s2.loop = some { s2.close p1 with ret := 0 }) ∧
        (s2.m_state.ipx < s1.m_state.csx + s1.m_state.clx →
          (s2.engine (s2.mem s2.m_state.ipx) (s2.mem (u32 (s2.m_state.ipx + 1)))
              (s2.mem (u32 (s2.m_state.ipx + 2))) (s2.mem (u32 (s2.m_state.ipx + 3))) = none →
            s2.loop = none) ∧
          (∀ (r : Int) (s3 : vm_c),
            s2.engine (s2.mem s2.m_state.ipx) (s2.mem (u32 (s2.m_state.ipx + 1)))
              (s2.mem (u32 (s2.m_state.ipx + 2))) (s2.mem (u32 (s2.m_state.ipx + 3)))
              = some (r, s3) →
            (s3.dbg = 4 → ∃ k cin, s3.cin = cin_t.chr k :: cin) →
            ∃ s4 : vm_c, s2.loop = some s4 ∧
              s4.m_state = { s3.m_state with ipx := u32 (s3.m_state.ipx + 4) }))) := by
  obtain ⟨p1, hst, hlt, hclx, -, hloop⟩ :=
    run_request_state s file p code r1 r2 rnd cin hload hne hprc hcode hcin hrnd hn hm
  have hpos : 0 < code.length := List.length_pos.mpr hne
  have hmx : u32 (p1.state.csx + p1.state.clx) = p1.state.csx + p1.state.clx := by
    simp only [u32]; omega
  refine ⟨_, p1, hloop, rfl, hst, Nat.le_refl _, ?_, hmx, ?_⟩
  · show p1.state.csx < p1.state.csx + p1.state.clx
    omega
  · intro n s2 ht hall
    obtain ⟨e1, e2⟩ := turns_keep_sentinel n _ p1 s2 rfl hst ht hall
    have e3 : s2.mx_ip = p1.state.csx + p1.state.clx := by rw [e1]; exact hmx
    refine ⟨e3, e2, ?_, ?_⟩
    · intro hge
      exact closing_turn s2 p1 e2 hst (by rw [e3]; exact hge)
    · intro hlt2
      have hip : s2.m_state.ipx < s2.mx_ip := by rw [e3]; exact hlt2
      refine ⟨?_, ?_⟩
      · intro he
        rw [running_eq s2 p1 e2 hst]
        simp only [vm_c.running, hip, if_true, he]
      · intro r s3 he hkey
        exact fetch_turn s2 p1 r s3 e2 hst hip he hkey

theorem fetch_below_sentinel_witness :
    (∃ (s1 : vm_c) (p1 : process_c), demo_loaded_nops.loop = some s1 ∧
      s1.m_prc = some p1 ∧ PRC_IS_STARTED p1 = true ∧
      s1.m_state.csx ≤ s1.m_state.ipx ∧ s1.m_state.ipx < s1.m_state.csx + s1.m_state.clx ∧
      s1.mx_ip = s1.m_state.csx + s1.m_state.clx ∧
      (∀ (n : Nat) (s2 : vm_c), vm_c.turns n s1 = some s2 →
        (∀ (k : Nat) (sk : vm_c), k ≤ n → vm_c.turns k s1 = some sk → sk.m_prc ≠ none) →
        s2.mx_ip = s1.m_state.csx + s1.m_state.clx ∧ s2.m_prc = some p1 ∧
        (s1.m_state.csx + s1.m_state.clx ≤ s2.m_state.ipx →
          s2.loop = some { s2.close p1 with ret := 0 }) ∧
        (s2.m_state.ipx < s1.m_state.csx + s1.m_state.clx →
          (s2.engine (s2.mem s2.m_state.ipx) (s2.mem (u32 (s2.m_state.ipx + 1)))
              (s2.mem (u32 (s2.m_state.ipx + 2))) (s2.mem (u32 (s2.m_state.ipx + 3))) = none →
            s2.loop = none) ∧
          (∀ (r : Int) (s3 : vm_c),
            s2.engine (s2.mem s2.m_state.ipx) (s2.mem (u32 (s2.m_state.ipx + 1)))
              (s2.mem (u32 (s2.m_state.ipx + 2))) (s2.mem (u32 (s2.m_state.ipx + 3)))
              = some (r, s3) →
            (s3.dbg = 4 → ∃ k cin, s3.cin = cin_t.chr k :: cin) →
            ∃ s4 : vm_c, s2.loop = some s4 ∧
              s4.m_state = { s3.m_state with ipx := u32 (s3.m_state.ipx + 4) })))) ∧
    (vm_c.turns 1 demo_loaded_nops).map
        (fun s => (s.m_prc.isSome, s.m_state.csx, s.m_state.ipx, s.mx_ip))
      = some (true, 43, 43, 51) ∧
    (vm_c.turns 2 demo_loaded_nops).map
        (fun s => (s.m_prc.isSome, s.m_state.csx, s.m_state.ipx, s.mx_ip))
      = some (true, 43, 47, 51) ∧
    (vm_c.turns 3 demo_loaded_nops).map
        (fun s => (s.m_prc.isSome, s.m_state.csx, s.m_state.ipx, s.mx_ip))
      = some (true, 43, 51, 51) ∧
    (vm_c.turns 4 demo_loaded_nops).map
        (fun s => (s.m_prc.isSome, s.m_state.csx, s.m_state.ipx, s.mx_ip))
      = some (false, 43, 51, 51) ∧
    (vm_c.turns 4 demo_loaded_nops).map (fun s => s.closed) = some [(41, 1)] :=
  ⟨fetch_below_sentinel demo_loaded_nops (some (codes "00 00 00 00 00 00 00 00"))
      ((process_c.new 0).load (some (codes "00 00 00 00 00 00 00 00"))).2
      ((process_c.new 0).load (some (codes "00 00 00 00 00 00 00 00"))).1
      41 18467 [] [] rfl (by decide) rfl rfl rfl rfl (by decide) (by decide),
    by decide, by decide, by decide, by decide, by decide⟩

/-- C22 fails as stated: in the run of `ldx ipx,0`, `nop`, `nop` with the code at cell 7,
the first instruction leaves `ipx = 4` after the post-increment, with the process still
running, `csx = 7`, `clx = 12` and `mx_ip = 19`.  The next turn of the driver, whose only
test is `ipx < mx_ip`, fetches at cell 4, below `csx`: it executes the four bytes
`00 00 00 01` found at cells 4 to 7 (a `nop`), keeps the process and leaves `ipx = 8`. -/
theorem fetch_below_csx :
    (vm_c.turns 2 demo_low_ipx).map (fun s => (s.m_prc.isSome, s.m_state.ipx))
      = some (true, 4) ∧
    (vm_c.turns 2 demo_low_ipx).map (fun s => (s.m_state.csx, s.m_state.clx, s.mx_ip))
      = some (7, 12, 19) ∧
    (vm_c.turns 2 demo_low_ipx).map (fun s => (s.mem 4, s.mem 5, s.mem 6, s.mem 7))
      = some (0, 0, 0, 1) ∧
    (vm_c.turns 2 demo_low_ipx).map (fun s => decide (s.m_state.csx ≤ s.m_state.ipx))
      = some false ∧
    (vm_c.turns 3 demo_low_ipx).map (fun s => (s.m_prc.isSome, s.ret, s.m_state.ipx))
      = some (true, 1, 8) ∧
    (vm_c.turns 3 demo_low_ipx).map (fun s => s.closed) = some [] := by
  decide

end vm
